import Mathlib

/-!
# ARM64 instruction-word codec (`runtime/vm/constants_arm64.h`)

A shallow embedding of the register enums, the opcode tables and the decoding
half of class `Instr`: the bit-field accessors, the sign-extended immediates, the
family predicates generated by `IS_OP`, the register-role resolver, and the
logical-immediate decoder with its two helper functions `RotateRight` and
`RepeatBitsAcrossReg`.

Machine integers are mathematical integers with explicit wrapping:

* `int` / `int32_t` values are `Int`s kept in `[-2^31, 2^31)` by `wrap32`;
  `>>` on them is the arithmetic shift `Int.shiftRight`, `&` is `Int.land`
  (two's complement on the unbounded integers, which agrees with the machine
  operation on every lane width);
* enumerators are `Int`s with the value the C++ constant has; `B31 = (1 << 31)`
  and the constants built from it are negative, and `pattern32` gives the 32 bits
  such a value occupies in an instruction word;
* `uint64_t` values are `Nat`s kept below `2^64` by `% 2^64`;
* shift counts and widths are `Nat`s.

`ASSERT` failures and `UNREACHABLE()` are modelled as `none`.
-/

namespace dart

/-! ## Machine arithmetic -/

/-- Two's-complement wrap of an integer into the 32-bit signed range. -/
def wrap32 (x : Int) : Int := (x + 0x80000000) % 0x100000000 - 0x80000000

/-- The C expression `x << n` on a 32-bit signed lane, for a count `n` in 0..31:
bits pushed past bit 31 are lost. -/
def shl32 (x : Int) (n : Nat) : Int := wrap32 (x * ((1 <<< n : Nat) : Int))

/-- The C expression `x - y` on a 32-bit signed lane. -/
def sub32 (x y : Int) : Int := wrap32 (x - y)

/-- The C expression `x << n` on `uint64_t`: bits pushed past bit 63 are lost. -/
def shl64 (x : Nat) (n : Nat) : Nat := (x <<< n) % 0x10000000000000000

/-- The C expression `x - y` on `uint64_t` (wraps around below zero). -/
def sub64 (x y : Nat) : Nat :=
  (x + (0x10000000000000000 - y % 0x10000000000000000)) % 0x10000000000000000

/-! ## Constants -/

/-! ### `enum Register` -/

def R0 : Int := 0
def R1 : Int := 1
def R2 : Int := 2
def R3 : Int := 3
def R4 : Int := 4
def R5 : Int := 5
def R6 : Int := 6
def R7 : Int := 7
def R8 : Int := 8
def R9 : Int := 9
def R10 : Int := 10
def R11 : Int := 11
def R12 : Int := 12
def R13 : Int := 13
def R14 : Int := 14
def R15 : Int := 15
def R16 : Int := 16
def R17 : Int := 17
def R18 : Int := 18
def R19 : Int := 19
def R20 : Int := 20
def R21 : Int := 21
def R22 : Int := 22
def R23 : Int := 23
def R24 : Int := 24
def R25 : Int := 25
def R26 : Int := 26
def R27 : Int := 27
def R28 : Int := 28
def R29 : Int := 29
def R30 : Int := 30
def R31 : Int := 31
def kNumberOfCpuRegisters : Int := 32
def kNoRegister : Int := -1
/-- SP and ZR both use the encoding R31; they are given values of their own and
translated before encoding. -/
def SP : Int := 32
def ZR : Int := 33

/-! Aliases declared inside the enum. -/

def IP0 : Int := R25
def IP1 : Int := R26
def FP : Int := R29
def LR : Int := R30

/-! Register aliases declared as constants after the enums. -/

def TMP : Int := R25
def TMP0 : Int := R25
def TMP1 : Int := R26
def CTX : Int := R27
def PP : Int := R26
def SPREG : Int := R31
def FPREG : Int := FP
def ICREG : Int := R5
def kExceptionObjectReg : Int := R0
def kStackTraceObjectReg : Int := R1

/-- `ConcreteRegister(r)`: `((r == ZR) || (r == SP)) ? R31 : r`. -/
def ConcreteRegister (r : Int) : Int := if r = ZR ∨ r = SP then R31 else r

/-! ### `enum VRegister` -/

def V0 : Int := 0
def V1 : Int := 1
def V2 : Int := 2
def V3 : Int := 3
def V4 : Int := 4
def V5 : Int := 5
def V6 : Int := 6
def V7 : Int := 7
def V8 : Int := 8
def V9 : Int := 9
def V10 : Int := 10
def V11 : Int := 11
def V12 : Int := 12
def V13 : Int := 13
def V14 : Int := 14
def V15 : Int := 15
def V16 : Int := 16
def V17 : Int := 17
def V18 : Int := 18
def V19 : Int := 19
def V20 : Int := 20
def V21 : Int := 21
def V22 : Int := 22
def V23 : Int := 24
def V24 : Int := 24
def V25 : Int := 25
def V26 : Int := 26
def V27 : Int := 27
def V28 : Int := 28
def V29 : Int := 29
def V30 : Int := 30
def V31 : Int := 31
def kNumberOfVRegisters : Int := 32
def kNoVRegister : Int := -1

/-- The enumerators `V0` .. `V31` in declaration order. -/
def vRegisters : List Int :=
  [V0, V1, V2, V3, V4, V5, V6, V7, V8, V9, V10, V11, V12, V13, V14, V15,
   V16, V17, V18, V19, V20, V21, V22, V23, V24, V25, V26, V27, V28, V29, V30, V31]

/-! ### Masks, sizes -/

def kXRegSizeInBits : Nat := 64
def kWRegSizeInBits : Nat := 32

/-! ### `enum Bits`: `Bn = (1 << n)` -/

def B0 : Int := ((1 <<< 0 : Nat) : Int)
def B1 : Int := ((1 <<< 1 : Nat) : Int)
def B2 : Int := ((1 <<< 2 : Nat) : Int)
def B3 : Int := ((1 <<< 3 : Nat) : Int)
def B4 : Int := ((1 <<< 4 : Nat) : Int)
def B5 : Int := ((1 <<< 5 : Nat) : Int)
def B6 : Int := ((1 <<< 6 : Nat) : Int)
def B7 : Int := ((1 <<< 7 : Nat) : Int)
def B8 : Int := ((1 <<< 8 : Nat) : Int)
def B9 : Int := ((1 <<< 9 : Nat) : Int)
def B10 : Int := ((1 <<< 10 : Nat) : Int)
def B11 : Int := ((1 <<< 11 : Nat) : Int)
def B12 : Int := ((1 <<< 12 : Nat) : Int)
def B13 : Int := ((1 <<< 13 : Nat) : Int)
def B14 : Int := ((1 <<< 14 : Nat) : Int)
def B15 : Int := ((1 <<< 15 : Nat) : Int)
def B16 : Int := ((1 <<< 16 : Nat) : Int)
def B17 : Int := ((1 <<< 17 : Nat) : Int)
def B18 : Int := ((1 <<< 18 : Nat) : Int)
def B19 : Int := ((1 <<< 19 : Nat) : Int)
def B20 : Int := ((1 <<< 20 : Nat) : Int)
def B21 : Int := ((1 <<< 21 : Nat) : Int)
def B22 : Int := ((1 <<< 22 : Nat) : Int)
def B23 : Int := ((1 <<< 23 : Nat) : Int)
def B24 : Int := ((1 <<< 24 : Nat) : Int)
def B25 : Int := ((1 <<< 25 : Nat) : Int)
def B26 : Int := ((1 <<< 26 : Nat) : Int)
def B27 : Int := ((1 <<< 27 : Nat) : Int)
def B28 : Int := ((1 <<< 28 : Nat) : Int)
def B29 : Int := ((1 <<< 29 : Nat) : Int)
def B30 : Int := ((1 <<< 30 : Nat) : Int)
/-- The enumerator `B31 = (1 << 31)`: the shift is done on `int`, so the value is
the negative number whose 32-bit pattern is 0x80000000. -/
def B31 : Int := shl32 1 31

/-! ### Opcode masks and fixed patterns -/

/-! #### `enum MainOp` -/

def DPImmediateMask : Int := 0x1c000000
def DPImmediateFixed : Int := B28
def CompareBranchMask : Int := 0x1c000000
def CompareBranchFixed : Int := Int.lor B28 B26
def LoadStoreMask : Int := Int.lor B27 B25
def LoadStoreFixed : Int := B27
def DPRegisterMask : Int := 0x0e000000
def DPRegisterFixed : Int := Int.lor B27 B25
def DPSimd1Mask : Int := 0x1e000000
def DPSimd1Fixed : Int := Int.lor (Int.lor B27 B26) B25
def DPSimd2Mask : Int := 0x1e000000
def DPSimd2Fixed : Int := Int.lor B28 DPSimd1Fixed

/-! #### `enum CompareAndBranchOp` -/

def CompareAndBranchMask : Int := 0x7e000000
def CompareAndBranchFixed : Int := Int.lor CompareBranchFixed B29
def CBZ : Int := CompareBranchFixed
def CBNZ : Int := Int.lor CompareBranchFixed B24

/-! #### `enum ConditionalBranchOp` -/

def ConditionalBranchMask : Int := 0xfe000000
def ConditionalBranchFixed : Int := Int.lor CompareBranchFixed B30
def BCOND : Int := ConditionalBranchFixed

/-! #### `enum ExceptionGenOp` -/

def ExceptionGenMask : Int := 0xff000000
def ExceptionGenFixed : Int := Int.lor (Int.lor CompareBranchFixed B31) B30
def SVC : Int := Int.lor ExceptionGenFixed B0
def BRK : Int := Int.lor ExceptionGenFixed B21
def HLT : Int := Int.lor ExceptionGenFixed B22

/-! #### `enum SystemOp` -/

def SystemMask : Int := 0xffc00000
def SystemFixed : Int := Int.lor (Int.lor (Int.lor CompareBranchFixed B31) B30) B24
def HINT : Int :=
  Int.lor (Int.lor (Int.lor (Int.lor (Int.lor (Int.lor (Int.lor (Int.lor
    SystemFixed B17) B16) B13) B4) B3) B2) B1) B0

/-! #### `enum TestAndBranchOp` -/

def TestAndBranchMask : Int := 0x7e000000
def TestAndBranchFixed : Int := Int.lor (Int.lor CompareBranchFixed B29) B25
def TBZ : Int := TestAndBranchFixed
def TBNZ : Int := Int.lor TestAndBranchFixed B24

/-! #### `enum UnconditionalBranchOp` -/

def UnconditionalBranchMask : Int := 0x7c000000
def UnconditionalBranchFixed : Int := CompareBranchFixed
def B : Int := UnconditionalBranchFixed
def BL : Int := Int.lor UnconditionalBranchFixed B31

/-! #### `enum UnconditionalBranchRegOp` -/

def UnconditionalBranchRegMask : Int := 0xfe000000
def UnconditionalBranchRegFixed : Int :=
  Int.lor (Int.lor (Int.lor CompareBranchFixed B31) B30) B25
def BR : Int :=
  Int.lor (Int.lor (Int.lor (Int.lor (Int.lor UnconditionalBranchRegFixed B20) B19) B18) B17) B16
def BLR : Int := Int.lor BR B21
def RET : Int := Int.lor BR B22

/-! #### `enum LoadStoreRegOp` -/

def LoadStoreRegMask : Int := 0x3a000000
def LoadStoreRegFixed : Int := Int.lor (Int.lor LoadStoreFixed B29) B28
def STR : Int := LoadStoreRegFixed
def LDR : Int := Int.lor LoadStoreRegFixed B22

/-! #### `enum AddSubImmOp` -/

def AddSubImmMask : Int := 0x1f000000
def AddSubImmFixed : Int := Int.lor DPImmediateFixed B24
def ADDI : Int := AddSubImmFixed
def SUBI : Int := Int.lor AddSubImmFixed B30

/-! #### `enum LogicalImmOp` -/

def LogicalImmMask : Int := 0x1f800000
def LogicalImmFixed : Int := Int.lor DPImmediateFixed B25
def ANDI : Int := LogicalImmFixed
def ORRI : Int := Int.lor LogicalImmFixed B29
def EORI : Int := Int.lor LogicalImmFixed B30
def ANDIS : Int := Int.lor (Int.lor LogicalImmFixed B30) B29

/-! #### `enum MoveWideOp` -/

def MoveWideMask : Int := 0x1f800000
def MoveWideFixed : Int := Int.lor (Int.lor DPImmediateFixed B25) B23
def MOVN : Int := MoveWideFixed
def MOVZ : Int := Int.lor MoveWideFixed B30
def MOVK : Int := Int.lor (Int.lor MoveWideFixed B30) B29

/-! #### `enum PCRelOp` -/

def PCRelMask : Int := 0x1f000000
def PCRelFixed : Int := DPImmediateFixed
def ADR : Int := PCRelFixed
def ADRP : Int := Int.lor PCRelFixed B31

/-! #### `enum AddSubShiftExtOp` -/

def AddSubShiftExtMask : Int := 0x1f000000
def AddSubShiftExtFixed : Int := Int.lor DPRegisterFixed B24
def ADD : Int := AddSubShiftExtFixed
def SUB : Int := Int.lor AddSubShiftExtFixed B30

/-! #### `enum LogicalShiftOp` -/

def LogicalShiftMask : Int := 0x1f000000
def LogicalShiftFixed : Int := DPRegisterFixed
def AND : Int := LogicalShiftFixed
def BIC : Int := Int.lor LogicalShiftFixed B21
def ORR : Int := Int.lor LogicalShiftFixed B29
def ORN : Int := Int.lor (Int.lor LogicalShiftFixed B29) B21
def EOR : Int := Int.lor LogicalShiftFixed B30
def EON : Int := Int.lor (Int.lor LogicalShiftFixed B30) B21
def ANDS : Int := Int.lor (Int.lor LogicalShiftFixed B30) B29
def BICS : Int := Int.lor (Int.lor (Int.lor LogicalShiftFixed B30) B29) B21

inductive R31Type where
  | R31IsSP
  | R31IsZR
  | R31IsUndef
  deriving DecidableEq, Repr

/-! ### `enum InstructionFields` -/

def kSShift : Nat := 29
def kSFShift : Nat := 31
def kRdShift : Nat := 0
def kRdBits : Nat := 5
def kRnShift : Nat := 5
def kRnBits : Nat := 5
def kImm3Shift : Nat := 10
def kImm3Bits : Nat := 3
def kImm6Shift : Nat := 10
def kImm6Bits : Nat := 6
def kImm9Shift : Nat := 12
def kImm9Bits : Nat := 9
def kImm14Shift : Nat := 5
def kImm14Bits : Nat := 14
def kImm16Shift : Nat := 5
def kImm16Bits : Nat := 16
def kImm19Shift : Nat := 5
def kImm19Bits : Nat := 19
def kImm26Shift : Nat := 0
def kImm26Bits : Nat := 26
def kNShift : Nat := 22
def kNBits : Nat := 1
def kImmRShift : Nat := 16
def kImmRBits : Nat := 6
def kImmSShift : Nat := 10
def kImmSBits : Nat := 6
def kAddShiftExtendShift : Nat := 21
def kHintCRmShift : Nat := 8
def kHintCRmBits : Nat := 4
def kHintOp2Shift : Nat := 5
def kHintOp2Bits : Nat := 3

/-- `const uint32_t kImmExceptionIsDebug = 0xdeb0`. -/
def kImmExceptionIsDebug : Nat := 0xdeb0

/-- The 32 bits of an integer in two's complement, read as unsigned: what a store
of the value into a 32-bit word leaves there. -/
def pattern32 (x : Int) : Nat := (x % 0x100000000).toNat

/-! ## Instruction words -/

/-- An instruction word: the 32 bits an `Instr*` points at, `word` being their
unsigned reading. -/
structure Instr where
  word : Nat
  lt : word < 0x100000000

namespace Instr

def kInstrSize : Nat := 4
def kInstrSizeLog2 : Nat := 2

/-- `kNopInstruction = HINT` as an `int32_t`: hint #0 === nop. -/
def kNopInstruction : Int := wrap32 HINT

/-- `kBreakPointInstruction = HLT | (kImmExceptionIsDebug << kImm16Shift)` as an
`int32_t`; the shift is done on `uint32_t`. -/
def kBreakPointInstruction : Int :=
  wrap32 (Int.lor HLT (((kImmExceptionIsDebug <<< kImm16Shift) % 0x100000000 : Nat) : Int))

def kBreakPointInstructionSize : Nat := kInstrSize

/-- `InstructionBits()`: the 32 bits read as an `int32_t`. -/
def InstructionBits (instr : Instr) : Int :=
  if instr.word < 0x80000000 then (instr.word : Int) else (instr.word : Int) - 0x100000000

/-- `Bit(nr)`: `(InstructionBits() >> nr) & 1`. -/
def Bit (instr : Instr) (nr : Nat) : Int :=
  Int.land (instr.InstructionBits >>> nr) 1

/-- `Bits(shift, count)`: `(InstructionBits() >> shift) & ((1 << count) - 1)`, for
`shift` and `count` in 0..31, the counts for which C++ defines the two shifts;
every field accessor below is in that range. -/
def Bits (instr : Instr) (shift count : Nat) : Int :=
  Int.land (instr.InstructionBits >>> shift) (sub32 (shl32 1 count) 1)

/-- `Bits(shift, count)` with the counts of its two shifts checked: C++ leaves a
shift of an `int` by a count outside 0..31 undefined, so `InstructionBits() >> shift`
has a value only for `shift ≤ 31` and `1 << count` only for `count ≤ 31`; `none`
otherwise. -/
def BitsChecked (instr : Instr) (shift count : Nat) : Option Int :=
  if shift ≤ 31 ∧ count ≤ 31 then
    some (Int.land (instr.InstructionBits >>> shift) (sub32 (shl32 1 count) 1))
  else none

def NField (instr : Instr) : Int := instr.Bit 22
def SField (instr : Instr) : Int := instr.Bit kSShift
def SFField (instr : Instr) : Int := instr.Bit kSFShift

def RdField (instr : Instr) : Int := instr.Bits kRdShift kRdBits
def RnField (instr : Instr) : Int := instr.Bits kRnShift kRnBits

def Imm3Field (instr : Instr) : Int := instr.Bits kImm3Shift kImm3Bits
def Imm6Field (instr : Instr) : Int := instr.Bits kImm6Shift kImm6Bits

def Imm9Field (instr : Instr) : Int := instr.Bits kImm9Shift kImm9Bits
/-- Sign-extended `Imm9Field()`: `(static_cast<int32_t>(Imm9Field()) << 23) >> 23`. -/
def SImm9Field (instr : Instr) : Int := (shl32 instr.Imm9Field 23) >>> (23 : Nat)

def Imm16Field (instr : Instr) : Int := instr.Bits kImm16Shift kImm16Bits

def ImmRField (instr : Instr) : Int := instr.Bits kImmRShift kImmRBits
def ImmSField (instr : Instr) : Int := instr.Bits kImmSShift kImmSBits

def Imm14Field (instr : Instr) : Int := instr.Bits kImm14Shift kImm14Bits
def SImm14Field (instr : Instr) : Int := (shl32 instr.Imm14Field 18) >>> (18 : Nat)
def Imm19Field (instr : Instr) : Int := instr.Bits kImm19Shift kImm19Bits
def SImm19Field (instr : Instr) : Int := (shl32 instr.Imm19Field 13) >>> (13 : Nat)
def Imm26Field (instr : Instr) : Int := instr.Bits kImm26Shift kImm26Bits
def SImm26Field (instr : Instr) : Int := (shl32 instr.Imm26Field 6) >>> (6 : Nat)

/-! ### Shift and extend, instruction identification -/

/-! `IS_OP(op)`: `(InstructionBits() & op##Mask) == (op##Fixed & op##Mask)`, one
predicate for each entry of `APPLY_OP_LIST`. -/

def IsDPImmediateOp (instr : Instr) : Bool :=
  Int.land instr.InstructionBits DPImmediateMask == Int.land DPImmediateFixed DPImmediateMask

def IsCompareBranchOp (instr : Instr) : Bool :=
  Int.land instr.InstructionBits CompareBranchMask == Int.land CompareBranchFixed CompareBranchMask

def IsLoadStoreOp (instr : Instr) : Bool :=
  Int.land instr.InstructionBits LoadStoreMask == Int.land LoadStoreFixed LoadStoreMask

def IsDPRegisterOp (instr : Instr) : Bool :=
  Int.land instr.InstructionBits DPRegisterMask == Int.land DPRegisterFixed DPRegisterMask

def IsDPSimd1Op (instr : Instr) : Bool :=
  Int.land instr.InstructionBits DPSimd1Mask == Int.land DPSimd1Fixed DPSimd1Mask

def IsDPSimd2Op (instr : Instr) : Bool :=
  Int.land instr.InstructionBits DPSimd2Mask == Int.land DPSimd2Fixed DPSimd2Mask

def IsCompareAndBranchOp (instr : Instr) : Bool :=
  Int.land instr.InstructionBits CompareAndBranchMask == Int.land CompareAndBranchFixed CompareAndBranchMask

def IsConditionalBranchOp (instr : Instr) : Bool :=
  Int.land instr.InstructionBits ConditionalBranchMask == Int.land ConditionalBranchFixed ConditionalBranchMask

def IsExceptionGenOp (instr : Instr) : Bool :=
  Int.land instr.InstructionBits ExceptionGenMask == Int.land ExceptionGenFixed ExceptionGenMask

def IsSystemOp (instr : Instr) : Bool :=
  Int.land instr.InstructionBits SystemMask == Int.land SystemFixed SystemMask

def IsTestAndBranchOp (instr : Instr) : Bool :=
  Int.land instr.InstructionBits TestAndBranchMask == Int.land TestAndBranchFixed TestAndBranchMask

def IsUnconditionalBranchOp (instr : Instr) : Bool :=
  Int.land instr.InstructionBits UnconditionalBranchMask == Int.land UnconditionalBranchFixed UnconditionalBranchMask

def IsUnconditionalBranchRegOp (instr : Instr) : Bool :=
  Int.land instr.InstructionBits UnconditionalBranchRegMask == Int.land UnconditionalBranchRegFixed UnconditionalBranchRegMask

def IsLoadStoreRegOp (instr : Instr) : Bool :=
  Int.land instr.InstructionBits LoadStoreRegMask == Int.land LoadStoreRegFixed LoadStoreRegMask

def IsAddSubImmOp (instr : Instr) : Bool :=
  Int.land instr.InstructionBits AddSubImmMask == Int.land AddSubImmFixed AddSubImmMask

def IsLogicalImmOp (instr : Instr) : Bool :=
  Int.land instr.InstructionBits LogicalImmMask == Int.land LogicalImmFixed LogicalImmMask

def IsMoveWideOp (instr : Instr) : Bool :=
  Int.land instr.InstructionBits MoveWideMask == Int.land MoveWideFixed MoveWideMask

def IsPCRelOp (instr : Instr) : Bool :=
  Int.land instr.InstructionBits PCRelMask == Int.land PCRelFixed PCRelMask

def IsAddSubShiftExtOp (instr : Instr) : Bool :=
  Int.land instr.InstructionBits AddSubShiftExtMask == Int.land AddSubShiftExtFixed AddSubShiftExtMask

def IsLogicalShiftOp (instr : Instr) : Bool :=
  Int.land instr.InstructionBits LogicalShiftMask == Int.land LogicalShiftFixed LogicalShiftMask

def IsShift (instr : Instr) : Bool :=
  instr.IsLogicalShiftOp || (instr.Bit kAddShiftExtendShift == 0)

def IsExtend (instr : Instr) : Bool :=
  !instr.IsLogicalShiftOp && (instr.Bit kAddShiftExtendShift == 1)

def ShiftAmountField (instr : Instr) : Int := instr.Imm6Field
def ExtShiftAmountField (instr : Instr) : Int := instr.Imm3Field

def HasS (instr : Instr) : Bool := instr.SField == 1

/-- `RdMode()`: whether an `Rd` field of 31 denotes SP or ZR. -/
def RdMode (instr : Instr) : R31Type :=
  if instr.IsAddSubImmOp || (instr.IsAddSubShiftExtOp && instr.IsExtend) then
    if instr.HasS then R31Type.R31IsZR else R31Type.R31IsSP
  else
    R31Type.R31IsZR

/-- `RnMode()`: whether an `Rn` field of 31 denotes SP or ZR. -/
def RnMode (instr : Instr) : R31Type :=
  if instr.IsLoadStoreOp || instr.IsAddSubImmOp
      || (instr.IsAddSubShiftExtOp && instr.IsExtend) then
    R31Type.R31IsSP
  else
    R31Type.R31IsZR

end Instr

/-! ## Helper functions for decoding logical immediates -/

/-- Conversion of an integer to `uint8_t`. -/
def toUint8 (x : Int) : Nat := (x % 256).toNat

/-- `RotateRight(value, rotate, width)`.  The result is `none` when the `ASSERT`
fails or when `width - rotate`, the count of the left shift, would be negative.
When `rotate` is 0 the left shift has count `width` and operand 0, so it
contributes 0 whatever a machine does with a count of 64. -/
def RotateRight (value rotate width : Nat) : Option Nat :=
  if width ≤ 64 then
    let rotate := rotate &&& 63
    if rotate ≤ width then
      some (shl64 (value &&& sub64 (shl64 1 rotate) 1) (width - rotate) ||| (value >>> rotate))
    else none
  else none

/-- The loop of `RepeatBitsAcrossReg`,
`for (unsigned i = width; i < reg_size; i *= 2) result |= (result << i);`,
run for at most `fuel` iterations; `none` when the fuel does not suffice. -/
def RepeatBitsLoop (reg_size : Nat) : Nat → Nat → Nat → Option Nat
  | 0, i, result => if i < reg_size then none else some result
  | fuel + 1, i, result =>
    if i < reg_size then
      RepeatBitsLoop reg_size fuel ((i * 2) % 0x100000000) (result ||| shl64 result i)
    else some result

/-- `RepeatBitsAcrossReg(reg_size, value, width)`; `none` when an `ASSERT` fails. -/
def RepeatBitsAcrossReg (reg_size value width : Nat) : Option Nat :=
  if (width = 2 ∨ width = 4 ∨ width = 8 ∨ width = 16 ∨ width = 32)
      ∧ (reg_size = kWRegSizeInBits ∨ reg_size = kXRegSizeInBits) then
    RepeatBitsLoop reg_size reg_size width (value &&& sub64 (shl64 1 width) 1)
  else none

/-- The loop of `ImmLogical`, `for (int width = 0x20; width >= 0x2; width >>= 1)`,
entered with the current `width` and run for at most `fuel` further iterations.
Leaving the loop without a `return` reaches `UNREACHABLE()`, which is `none`. -/
def ImmLogicalLoop (reg_size : Nat) (imm_s imm_r : Int) : Nat → Int → Option Nat
  | fuel, width =>
    if width ≥ 2 then
      if Int.land imm_s width = 0 then
        let mask := width - 1
        if Int.land imm_s mask = mask then
          some 0
        else
          let bits := sub64 (shl64 1 (Int.land imm_s mask + 1).toNat) 1
          (RotateRight bits (toUint8 (Int.land imm_r mask)) (toUint8 width)).bind
            fun v => RepeatBitsAcrossReg reg_size v (toUint8 width)
      else
        match fuel with
        | 0 => none
        | fuel + 1 => ImmLogicalLoop reg_size imm_s imm_r fuel (width >>> (1 : Nat))
    else none

/-- The body of `ImmLogical()` after its four field reads, as a function of
`SFField()`, `NField()`, `ImmSField()` and `ImmRField()`. -/
def ImmLogicalOfFields (sf n imm_s imm_r : Int) : Option Nat :=
  let reg_size := if sf = 1 then kXRegSizeInBits else kWRegSizeInBits
  if n = 1 then
    if imm_s = 0x3F then
      some 0
    else
      let bits := sub64 (shl64 1 (imm_s + 1).toNat) 1
      RotateRight bits (toUint8 imm_r) 64
  else
    if imm_s >>> (1 : Nat) = 0x1F then
      some 0
    else
      ImmLogicalLoop reg_size imm_s imm_r 5 0x20

/-- `Instr::ImmLogical()`: the value of a logical immediate, 0 for an encoding
whose `imm_s` constraints are not met. -/
def Instr.ImmLogical (instr : Instr) : Option Nat :=
  ImmLogicalOfFields instr.SFField instr.NField instr.ImmSField instr.ImmRField

/-! ## The decoder with its faults told apart

The same three functions, returning an `Outcome` that says why no value was
produced, and with every shift of a 64-bit operand checked: C++ leaves a shift of
a `uint64_t` by a count outside 0..63 undefined. -/

/-- How a run of the decoder ends. -/
inductive Outcome where
  | ok (value : Nat)
  | assertFailed
  | unreachable
  | shiftOutOfRange
  | outOfFuel
  deriving DecidableEq, Repr

/-- Sequencing: the first fault ends the run. -/
def Outcome.bind (o : Outcome) (f : Nat → Outcome) : Outcome :=
  match o with
  | Outcome.ok v => f v
  | Outcome.assertFailed => Outcome.assertFailed
  | Outcome.unreachable => Outcome.unreachable
  | Outcome.shiftOutOfRange => Outcome.shiftOutOfRange
  | Outcome.outOfFuel => Outcome.outOfFuel

/-- The outcome that corresponds to a result of the unchecked decoder. -/
def Outcome.ofOption (o : Option Nat) : Outcome :=
  match o with
  | some v => Outcome.ok v
  | none => Outcome.unreachable

/-- `x << n` on `uint64_t`, defined only for a count in 0..63. -/
def shl64Checked (x : Nat) (n : Int) : Outcome :=
  if 0 ≤ n ∧ n < 64 then Outcome.ok (shl64 x n.toNat) else Outcome.shiftOutOfRange

/-- `x >> n` on `uint64_t`, defined only for a count in 0..63. -/
def shr64Checked (x : Nat) (n : Int) : Outcome :=
  if 0 ≤ n ∧ n < 64 then Outcome.ok (x >>> n.toNat) else Outcome.shiftOutOfRange

/-- `RotateRight(value, rotate, width)` with its `ASSERT` and its three shifts
`1UL << rotate`, `... << (width - rotate)` and `value >> rotate` checked. -/
def RotateRightChecked (value rotate width : Nat) : Outcome :=
  if width ≤ 64 then
    let rotate := rotate &&& 63
    (shl64Checked 1 (rotate : Int)).bind fun one =>
    (shl64Checked (value &&& sub64 one 1) ((width : Int) - (rotate : Int))).bind fun high =>
    (shr64Checked value (rotate : Int)).bind fun low =>
    Outcome.ok (high ||| low)
  else Outcome.assertFailed

/-- The loop of `RepeatBitsAcrossReg` with `result << i` checked. -/
def RepeatBitsLoopChecked (reg_size : Nat) : Nat → Nat → Nat → Outcome
  | 0, i, result => if i < reg_size then Outcome.outOfFuel else Outcome.ok result
  | fuel + 1, i, result =>
    if i < reg_size then
      (shl64Checked result (i : Int)).bind fun shifted =>
      RepeatBitsLoopChecked reg_size fuel ((i * 2) % 0x100000000) (result ||| shifted)
    else Outcome.ok result

/-- `RepeatBitsAcrossReg(reg_size, value, width)` with its two `ASSERT`s and the
shift `1UL << width` checked. -/
def RepeatBitsAcrossRegChecked (reg_size value width : Nat) : Outcome :=
  if (width = 2 ∨ width = 4 ∨ width = 8 ∨ width = 16 ∨ width = 32)
      ∧ (reg_size = kWRegSizeInBits ∨ reg_size = kXRegSizeInBits) then
    (shl64Checked 1 (width : Int)).bind fun one =>
    RepeatBitsLoopChecked reg_size reg_size width (value &&& sub64 one 1)
  else Outcome.assertFailed

/-- The loop of `ImmLogical` with `1UL << ((imm_s & mask) + 1)` checked. -/
def ImmLogicalLoopChecked (reg_size : Nat) (imm_s imm_r : Int) : Nat → Int → Outcome
  | fuel, width =>
    if width ≥ 2 then
      if Int.land imm_s width = 0 then
        let mask := width - 1
        if Int.land imm_s mask = mask then
          Outcome.ok 0
        else
          (shl64Checked 1 (Int.land imm_s mask + 1)).bind fun one =>
          let bits := sub64 one 1
          (RotateRightChecked bits (toUint8 (Int.land imm_r mask)) (toUint8 width)).bind
            fun v => RepeatBitsAcrossRegChecked reg_size v (toUint8 width)
      else
        match fuel with
        | 0 => Outcome.outOfFuel
        | fuel + 1 => ImmLogicalLoopChecked reg_size imm_s imm_r fuel (width >>> (1 : Nat))
    else Outcome.unreachable

/-- The body of `ImmLogical()` with `1UL << (imm_s + 1)` checked. -/
def ImmLogicalOfFieldsChecked (sf n imm_s imm_r : Int) : Outcome :=
  let reg_size := if sf = 1 then kXRegSizeInBits else kWRegSizeInBits
  if n = 1 then
    if imm_s = 0x3F then
      Outcome.ok 0
    else
      (shl64Checked 1 (imm_s + 1)).bind fun one =>
      let bits := sub64 one 1
      RotateRightChecked bits (toUint8 imm_r) 64
  else
    if imm_s >>> (1 : Nat) = 0x1F then
      Outcome.ok 0
    else
      ImmLogicalLoopChecked reg_size imm_s imm_r 5 0x20

/-- `Instr::ImmLogical()` with its faults told apart. -/
def Instr.ImmLogicalChecked (instr : Instr) : Outcome :=
  ImmLogicalOfFieldsChecked instr.SFField instr.NField instr.ImmSField instr.ImmRField

/-! ## Reference notions used to state the properties of the decoder -/

/-- The number of set bits among the low `w` bits of `x`. -/
def popCount (w x : Nat) : Nat := ((Finset.range w).filter fun i => x.testBit i = true).card

/-- The active element width of an `N = 0` encoding: the first of 32, 16, 8, 4, 2
whose bit in `immS` is zero. -/
def activeWidth (immS : Nat) : Option Nat :=
  [32, 16, 8, 4, 2].find? fun w => immS &&& w == 0

/-- The `w`-bit pattern whose bit `i` is bit `(i + r) mod w` of `x`: `x` rotated
right by `r` within `w` bits. -/
def rotrBits (w x r : Nat) : Nat :=
  ((List.range w).map fun i => if x.testBit ((i + r) % w) then 2 ^ i else 0).sum

/-- The value made of `copies` copies of the `w`-bit pattern `pat`, laid end to end
from bit 0. -/
def repeatPattern (copies w pat : Nat) : Nat :=
  ((List.range copies).map fun j => pat * 2 ^ (j * w)).sum

/-- The register width selected by the SF bit. -/
def regSizeOf (instr : Instr) : Nat := if instr.SFField = 1 then 64 else 32

/-- The instruction word holding the `int32_t` `value`, as `SetInstructionBits(value)`
leaves it. -/
def Instr.ofBits (value : Int) : Instr :=
  ⟨pattern32 value, by
    have h := Int.emod_lt_of_pos value (show (0 : Int) < 0x100000000 by decide)
    have h0 := Int.emod_nonneg value (show (0x100000000 : Int) ≠ 0 by decide)
    unfold pattern32
    omega⟩

/-- An instruction word assembled from its unsigned 32-bit pattern. -/
def Instr.ofWord (w : Nat) : Instr := ⟨w % 0x100000000, Nat.mod_lt _ (by decide)⟩

/-- An AND-immediate word carrying the given `sf`, `N`, `immr` and `imms` fields,
with `Rn` and `Rd` zero. -/
def logicalImmWord (sf n immr imms : Nat) : Instr :=
  Instr.ofWord (sf * 0x80000000 + 0x12000000 + n * 0x400000 + immr * 0x10000 + imms * 0x400)

/-! ## Bit extraction: the signed word and its unsigned reading -/

theorem mask32_eq : ∀ count : Nat, count < 32 →
    sub32 (shl32 1 count) 1 = ((2 ^ count - 1 : Nat) : Int) := by
  decide

theorem Instr.land_shiftRight_mask (instr : Instr) (s c : Nat) (h : s + c ≤ 32) :
    Int.land (instr.InstructionBits >>> s) ((2 ^ c - 1 : Nat) : Int)
      = (((instr.word / 2 ^ s) % 2 ^ c : Nat) : Int) := by
  unfold Instr.InstructionBits
  split_ifs with hw
  · show Int.land (Int.ofNat (instr.word >>> s)) (Int.ofNat (2 ^ c - 1)) = _
    show ((instr.word >>> s &&& (2 ^ c - 1) : Nat) : Int) = _
    rw [Nat.and_pow_two_sub_one_eq_mod, Nat.shiftRight_eq_div_pow]
  · have hlt := instr.lt
    have e : (instr.word : Int) - 0x100000000 = Int.negSucc (2 ^ 32 - (instr.word + 1)) := by
      rw [Int.negSucc_eq]
      omega
    rw [e]
    show ((Nat.ldiff (2 ^ c - 1) ((2 ^ 32 - (instr.word + 1)) >>> s) : Nat) : Int) = _
    congr 1
    apply Nat.eq_of_testBit_eq
    intro i
    rw [Nat.testBit_ldiff, Nat.testBit_two_pow_sub_one, Nat.testBit_shiftRight,
      Nat.testBit_two_pow_sub_succ hlt, Nat.testBit_mod_two_pow, ← Nat.shiftRight_eq_div_pow,
      Nat.testBit_shiftRight]
    by_cases hi : i < c
    · have : s + i < 32 := by omega
      simp [hi, this, Nat.add_comm]
    · simp [hi]

theorem Instr.Bit_eq (instr : Instr) (nr : Nat) (h : nr ≤ 31) :
    instr.Bit nr = (((instr.word / 2 ^ nr) % 2 : Nat) : Int) := by
  have := instr.land_shiftRight_mask nr 1 (by omega)
  simpa [Instr.Bit] using this

theorem Instr.Bits_eq (instr : Instr) (shift count : Nat) (hc : count ≤ 31)
    (h : shift + count ≤ 32) :
    instr.Bits shift count = (((instr.word / 2 ^ shift) % 2 ^ count : Nat) : Int) := by
  unfold Instr.Bits
  rw [mask32_eq count (by omega)]
  exact instr.land_shiftRight_mask shift count h

/-- A field of `count ≤ 31` bits is the cast of a natural number below `2 ^ count`. -/
theorem Instr.Bits_nat (instr : Instr) (shift count : Nat) (hc : count ≤ 31)
    (h : shift + count ≤ 32) :
    ∃ k : Nat, k < 2 ^ count ∧ instr.Bits shift count = (k : Int) :=
  ⟨_, Nat.mod_lt _ (by positivity), instr.Bits_eq shift count hc h⟩

/-! ## Sign extension -/

theorem signExtend9 (k : Nat) (hk : k < 2 ^ 9) :
    (shl32 (k : Int) 23) >>> (23 : Nat) = if k < 2 ^ 8 then (k : Int) else (k : Int) - 2 ^ 9 := by
  rw [Int.shiftRight_eq_div_pow]
  simp only [shl32, wrap32]
  norm_num at hk ⊢
  split_ifs <;> omega

theorem signExtend14 (k : Nat) (hk : k < 2 ^ 14) :
    (shl32 (k : Int) 18) >>> (18 : Nat) = if k < 2 ^ 13 then (k : Int) else (k : Int) - 2 ^ 14 := by
  rw [Int.shiftRight_eq_div_pow]
  simp only [shl32, wrap32]
  norm_num at hk ⊢
  split_ifs <;> omega

theorem signExtend19 (k : Nat) (hk : k < 2 ^ 19) :
    (shl32 (k : Int) 13) >>> (13 : Nat) = if k < 2 ^ 18 then (k : Int) else (k : Int) - 2 ^ 19 := by
  rw [Int.shiftRight_eq_div_pow]
  simp only [shl32, wrap32]
  norm_num at hk ⊢
  split_ifs <;> omega

theorem signExtend26 (k : Nat) (hk : k < 2 ^ 26) :
    (shl32 (k : Int) 6) >>> (6 : Nat) = if k < 2 ^ 25 then (k : Int) else (k : Int) - 2 ^ 26 := by
  rw [Int.shiftRight_eq_div_pow]
  simp only [shl32, wrap32]
  norm_num at hk ⊢
  split_ifs <;> omega

/-- The shape shared by the four signed immediates: the K-bit field `u` and its
sign extension `v`. -/
theorem twosComplement_facts (K : Nat) (k : Nat) (u v : Int) (hk : k < 2 ^ (K + 1)) (hu : u = k)
    (hv : v = if k < 2 ^ K then (k : Int) else (k : Int) - 2 ^ (K + 1)) :
    (0 ≤ u ∧ u < 2 ^ (K + 1)) ∧ v = (if u < 2 ^ K then u else u - 2 ^ (K + 1))
      ∧ -2 ^ K ≤ v ∧ v < 2 ^ K ∧ v % 2 ^ (K + 1) = u := by
  subst hu
  have h2 : (2 : Int) ^ (K + 1) = 2 * 2 ^ K := by ring
  have hk' : (k : Int) < 2 ^ (K + 1) := by exact_mod_cast hk
  have hpos : (0 : Int) < 2 ^ K := by positivity
  have hk0 : (0 : Int) ≤ k := Int.ofNat_nonneg k
  by_cases hlt : k < 2 ^ K
  · have hlt' : (k : Int) < 2 ^ K := by exact_mod_cast hlt
    rw [if_pos hlt] at hv
    subst hv
    refine ⟨⟨hk0, hk'⟩, by rw [if_pos hlt'], by omega, hlt', ?_⟩
    exact Int.emod_eq_of_lt hk0 hk'
  · have hge : (2 : Int) ^ K ≤ k := by
      have : 2 ^ K ≤ k := Nat.le_of_not_lt hlt
      exact_mod_cast this
    rw [if_neg hlt] at hv
    subst hv
    refine ⟨⟨hk0, hk'⟩, by rw [if_neg (by omega)], by omega, by omega, ?_⟩
    rw [Int.sub_emod, Int.emod_self, sub_zero, Int.emod_emod_of_dvd _ (dvd_refl _)]
    exact Int.emod_eq_of_lt hk0 hk'

/-- C9. Sign extension: each of `SImm9Field`, `SImm14Field`, `SImm19Field` and
`SImm26Field` is the two's-complement reading of the unsigned K-bit field next to
it (the field itself below `2^(K-1)`, the field minus `2^K` otherwise), so it
lies in `[-2^(K-1), 2^(K-1))` and is congruent to the field modulo `2^K`; for
K = 9 the raw fields 0x1FF, 0x100 and 0x0FF give -1, -256 and 255. -/
theorem SImmField_twos_complement (instr : Instr) :
    ((0 ≤ instr.Imm9Field ∧ instr.Imm9Field < 2 ^ 9)
      ∧ instr.SImm9Field
          = (if instr.Imm9Field < 2 ^ 8 then instr.Imm9Field else instr.Imm9Field - 2 ^ 9)
      ∧ -2 ^ 8 ≤ instr.SImm9Field ∧ instr.SImm9Field < 2 ^ 8
      ∧ instr.SImm9Field % 2 ^ 9 = instr.Imm9Field)
    ∧ ((0 ≤ instr.Imm14Field ∧ instr.Imm14Field < 2 ^ 14)
      ∧ instr.SImm14Field
          = (if instr.Imm14Field < 2 ^ 13 then instr.Imm14Field else instr.Imm14Field - 2 ^ 14)
      ∧ -2 ^ 13 ≤ instr.SImm14Field ∧ instr.SImm14Field < 2 ^ 13
      ∧ instr.SImm14Field % 2 ^ 14 = instr.Imm14Field)
    ∧ ((0 ≤ instr.Imm19Field ∧ instr.Imm19Field < 2 ^ 19)
      ∧ instr.SImm19Field
          = (if instr.Imm19Field < 2 ^ 18 then instr.Imm19Field else instr.Imm19Field - 2 ^ 19)
      ∧ -2 ^ 18 ≤ instr.SImm19Field ∧ instr.SImm19Field < 2 ^ 18
      ∧ instr.SImm19Field % 2 ^ 19 = instr.Imm19Field)
    ∧ ((0 ≤ instr.Imm26Field ∧ instr.Imm26Field < 2 ^ 26)
      ∧ instr.SImm26Field
          = (if instr.Imm26Field < 2 ^ 25 then instr.Imm26Field else instr.Imm26Field - 2 ^ 26)
      ∧ -2 ^ 25 ≤ instr.SImm26Field ∧ instr.SImm26Field < 2 ^ 25
      ∧ instr.SImm26Field % 2 ^ 26 = instr.Imm26Field)
    ∧ (instr.Imm9Field = 0x1FF → instr.SImm9Field = -1)
    ∧ (instr.Imm9Field = 0x100 → instr.SImm9Field = -256)
    ∧ (instr.Imm9Field = 0x0FF → instr.SImm9Field = 255) := by
  obtain ⟨k9, h9, e9⟩ := instr.Bits_nat kImm9Shift kImm9Bits (by decide) (by decide)
  obtain ⟨k14, h14, e14⟩ := instr.Bits_nat kImm14Shift kImm14Bits (by decide) (by decide)
  obtain ⟨k19, h19, e19⟩ := instr.Bits_nat kImm19Shift kImm19Bits (by decide) (by decide)
  obtain ⟨k26, h26, e26⟩ := instr.Bits_nat kImm26Shift kImm26Bits (by decide) (by decide)
  have s9 : instr.SImm9Field = _ := (congrArg (fun x => shl32 x 23 >>> (23 : Nat)) e9).trans
    (signExtend9 k9 h9)
  have s14 : instr.SImm14Field = _ := (congrArg (fun x => shl32 x 18 >>> (18 : Nat)) e14).trans
    (signExtend14 k14 h14)
  have s19 : instr.SImm19Field = _ := (congrArg (fun x => shl32 x 13 >>> (13 : Nat)) e19).trans
    (signExtend19 k19 h19)
  have s26 : instr.SImm26Field = _ := (congrArg (fun x => shl32 x 6 >>> (6 : Nat)) e26).trans
    (signExtend26 k26 h26)
  have f9 := twosComplement_facts 8 k9 instr.Imm9Field instr.SImm9Field h9 e9 s9
  refine ⟨f9, twosComplement_facts 13 k14 _ _ h14 e14 s14,
    twosComplement_facts 18 k19 _ _ h19 e19 s19,
    twosComplement_facts 25 k26 _ _ h26 e26 s26, ?_, ?_, ?_⟩
  · intro h
    rw [f9.2.1, h]
    decide
  · intro h
    rw [f9.2.1, h]
    decide
  · intro h
    rw [f9.2.1, h]
    decide

/-- Witness for C9: the words 0x001FF000, 0x00100000 and 0x000FF000 carry the raw
9-bit fields 0x1FF, 0x100 and 0x0FF. -/
theorem SImmField_twos_complement_witness :
    ((Instr.ofWord 0x001FF000).Imm9Field = 0x1FF ∧ (Instr.ofWord 0x001FF000).SImm9Field = -1)
    ∧ ((Instr.ofWord 0x00100000).Imm9Field = 0x100
        ∧ (Instr.ofWord 0x00100000).SImm9Field = -256)
    ∧ ((Instr.ofWord 0x000FF000).Imm9Field = 0x0FF
        ∧ (Instr.ofWord 0x000FF000).SImm9Field = 255) :=
  ⟨⟨by decide, (SImmField_twos_complement _).2.2.2.2.1 (by decide)⟩,
   ⟨by decide, (SImmField_twos_complement _).2.2.2.2.2.1 (by decide)⟩,
   ⟨by decide, (SImmField_twos_complement _).2.2.2.2.2.2 (by decide)⟩⟩

/-! ## `Bit` and `Bits` against the unsigned reading of the word -/

/-- C10, as stated, fails for a field of all 32 bits (shift 0, count 32). The mask
`(1 << 32) - 1` shifts an `int` by 32, a count outside 0..31, so `Bits(0, 32)` has
no defined value; and on the word 0x80000000 the claimed value
`floor(u / 2^0) mod 2^32` is 2^31, which no `int` equals, whatever the shift
yields. -/
theorem Bits_count_32_counterexample :
    1 ≤ 32 ∧ 0 + 32 ≤ 32
    ∧ (Instr.ofWord 0x80000000).BitsChecked 0 32 = none
    ∧ ((Instr.ofWord 0x80000000).word / 2 ^ 0) % 2 ^ 32 = 0x80000000
    ∧ (∀ r : Int, wrap32 r
        ≠ ((((Instr.ofWord 0x80000000).word / 2 ^ 0) % 2 ^ 32 : Nat) : Int)) := by
  have hv : ((Instr.ofWord 0x80000000).word / 2 ^ 0) % 2 ^ 32 = 0x80000000 := by decide
  refine ⟨by decide, by decide, by decide, hv, ?_⟩
  intro r
  rw [hv]
  unfold wrap32
  push_cast
  omega

/-- C10, amended. For every word `u`: `Bit(n)` is `floor(u / 2^n) mod 2` (0 or 1)
for n in 0..31, and `Bits(shift, count)` is `floor(u / 2^shift) mod 2^count`,
non-negative and below `2^count`, whenever `1 ≤ count ≤ 31` and
`shift + count ≤ 32`, also when bit 31 of the word is set; both shift counts are
then in 0..31, so the value is a defined one. -/
theorem Bit_Bits_unsigned (instr : Instr) :
    (∀ n : Nat, n ≤ 31 →
      instr.Bit n = (((instr.word / 2 ^ n) % 2 : Nat) : Int)
        ∧ (instr.Bit n = 0 ∨ instr.Bit n = 1))
    ∧ (∀ shift count : Nat, 1 ≤ count → count ≤ 31 → shift + count ≤ 32 →
      instr.Bits shift count = (((instr.word / 2 ^ shift) % 2 ^ count : Nat) : Int)
        ∧ 0 ≤ instr.Bits shift count ∧ instr.Bits shift count < 2 ^ count
        ∧ instr.BitsChecked shift count = some (instr.Bits shift count)) := by
  constructor
  · intro n hn
    have e := instr.Bit_eq n hn
    refine ⟨e, ?_⟩
    rw [e]
    rcases Nat.mod_two_eq_zero_or_one (instr.word / 2 ^ n) with h | h
    · left; rw [h]; rfl
    · right; rw [h]; rfl
  · intro shift count h1 hc h
    have e := instr.Bits_eq shift count hc h
    refine ⟨e, ?_, ?_, ?_⟩
    · rw [e]; exact Int.ofNat_nonneg _
    · rw [e]
      have : (instr.word / 2 ^ shift) % 2 ^ count < 2 ^ count := Nat.mod_lt _ (by positivity)
      exact_mod_cast this
    · unfold Instr.BitsChecked
      rw [if_pos ⟨by omega, hc⟩]
      rfl

/-- Witness for C10 (amended): the all-ones word, bit 31 and the 31-bit field
starting at bit 1. -/
theorem Bit_Bits_unsigned_witness :
    (31 ≤ 31 ∧
      ((Instr.ofWord 0xFFFFFFFF).Bit 31
          = (((((Instr.ofWord 0xFFFFFFFF).word / 2 ^ 31) % 2 : Nat)) : Int)
        ∧ ((Instr.ofWord 0xFFFFFFFF).Bit 31 = 0 ∨ (Instr.ofWord 0xFFFFFFFF).Bit 31 = 1)))
    ∧ (1 ≤ 31 ∧ 31 ≤ 31 ∧ 1 + 31 ≤ 32 ∧
      ((Instr.ofWord 0xFFFFFFFF).Bits 1 31
          = (((((Instr.ofWord 0xFFFFFFFF).word / 2 ^ 1) % 2 ^ 31 : Nat)) : Int)
        ∧ 0 ≤ (Instr.ofWord 0xFFFFFFFF).Bits 1 31
        ∧ (Instr.ofWord 0xFFFFFFFF).Bits 1 31 < 2 ^ 31
        ∧ (Instr.ofWord 0xFFFFFFFF).BitsChecked 1 31
            = some ((Instr.ofWord 0xFFFFFFFF).Bits 1 31))) :=
  ⟨⟨by decide, (Bit_Bits_unsigned _).1 31 (by decide)⟩,
   ⟨by decide, by decide, by decide,
    (Bit_Bits_unsigned _).2 1 31 (by decide) (by decide) (by decide)⟩⟩

/-! ## Register-role resolution -/

theorem Instr.addSubShiftExt_not_logicalShift (instr : Instr)
    (h : instr.IsAddSubShiftExtOp = true) : instr.IsLogicalShiftOp = false := by
  simp only [Instr.IsAddSubShiftExtOp, beq_iff_eq] at h
  simp only [Instr.IsLogicalShiftOp, beq_eq_false_iff_ne, ne_eq]
  intro h2
  have h3 : Int.land instr.InstructionBits LogicalShiftMask
      = Int.land instr.InstructionBits AddSubShiftExtMask := rfl
  rw [h3, h] at h2
  revert h2
  decide

/-- Masking the signed word with a non-negative 32-bit constant is masking its
unsigned reading. -/
theorem Instr.land_mask (instr : Instr) (m : Nat) (hm : m < 2 ^ 32) :
    Int.land instr.InstructionBits (m : Int) = ((instr.word &&& m : Nat) : Int) := by
  unfold Instr.InstructionBits
  split_ifs with hw
  · rfl
  · have hlt := instr.lt
    have e : (instr.word : Int) - 0x100000000 = Int.negSucc (2 ^ 32 - (instr.word + 1)) := by
      rw [Int.negSucc_eq]
      omega
    rw [e]
    show ((Nat.ldiff m (2 ^ 32 - (instr.word + 1)) : Nat) : Int) = _
    congr 1
    apply Nat.eq_of_testBit_eq
    intro i
    rw [Nat.testBit_ldiff, Nat.testBit_two_pow_sub_succ hlt, Nat.testBit_and]
    by_cases hi : i < 32
    · simp [hi, Bool.and_comm]
    · have : m.testBit i = false :=
        Nat.testBit_eq_false_of_lt (lt_of_lt_of_le hm (Nat.pow_le_pow_right (by decide) (by omega)))
      simp [this]

theorem Instr.logicalImm_not_addSub (instr : Instr) (h : instr.IsLogicalImmOp = true) :
    instr.IsAddSubImmOp = false ∧ instr.IsAddSubShiftExtOp = false := by
  simp only [Instr.IsLogicalImmOp, beq_iff_eq] at h
  have h0 : Int.land instr.InstructionBits ((0x1f800000 : Nat) : Int)
      = ((0x12000000 : Nat) : Int) := h
  rw [instr.land_mask _ (by decide)] at h0
  have h0' : instr.word &&& 0x1f800000 = 0x12000000 := by exact_mod_cast h0
  have h1 : Int.land instr.InstructionBits ((0x1f000000 : Nat) : Int)
      = ((0x12000000 : Nat) : Int) := by
    rw [instr.land_mask _ (by decide)]
    congr 1
    have e : (0x1f000000 : Nat) = 0x1f800000 &&& 0x1f000000 := by decide
    rw [e, ← Nat.and_assoc, h0']
    decide
  constructor
  · simp only [Instr.IsAddSubImmOp, beq_eq_false_iff_ne, ne_eq]
    intro h2
    have h3 : Int.land instr.InstructionBits AddSubImmMask
        = Int.land instr.InstructionBits ((0x1f000000 : Nat) : Int) := rfl
    rw [h3, h1] at h2
    revert h2
    decide
  · simp only [Instr.IsAddSubShiftExtOp, beq_eq_false_iff_ne, ne_eq]
    intro h2
    have h3 : Int.land instr.InstructionBits AddSubShiftExtMask
        = Int.land instr.InstructionBits ((0x1f000000 : Nat) : Int) := rfl
    rw [h3, h1] at h2
    revert h2
    decide

theorem Instr.Bit_zero_or_one (instr : Instr) (nr : Nat) (h : nr ≤ 31) :
    instr.Bit nr = 0 ∨ instr.Bit nr = 1 := by
  rw [instr.Bit_eq nr h]
  rcases Nat.mod_two_eq_zero_or_one (instr.word / 2 ^ nr) with h | h
  · left; rw [h]; rfl
  · right; rw [h]; rfl

/-- On an add/sub (shifted or extended register) word, `IsExtend` is bit 21. -/
theorem Instr.isExtend_of_addSubShiftExt (instr : Instr)
    (h : instr.IsAddSubShiftExtOp = true) :
    instr.IsExtend = true ↔ instr.Bit 21 = 1 := by
  simp [Instr.IsExtend, instr.addSubShiftExt_not_logicalShift h, kAddShiftExtendShift]

theorem Instr.hasS_iff (instr : Instr) : instr.HasS = true ↔ instr.Bit 29 ≠ 0 := by
  simp only [Instr.HasS, Instr.SField, kSShift, beq_iff_eq]
  rcases instr.Bit_zero_or_one 29 (by decide) with h | h <;> simp [h]

/-- The condition under which both resolvers consider SP at all. -/
theorem Instr.spForm_iff (instr : Instr) :
    (instr.IsAddSubImmOp || (instr.IsAddSubShiftExtOp && instr.IsExtend)) = true
      ↔ (instr.IsAddSubImmOp = true
          ∨ (instr.IsAddSubShiftExtOp = true ∧ instr.Bit 21 = 1)) := by
  rw [Bool.or_eq_true, Bool.and_eq_true]
  constructor
  · rintro (h | ⟨h1, h2⟩)
    · exact Or.inl h
    · exact Or.inr ⟨h1, (instr.isExtend_of_addSubShiftExt h1).1 h2⟩
  · rintro (h | ⟨h1, h2⟩)
    · exact Or.inl h
    · exact Or.inr ⟨h1, (instr.isExtend_of_addSubShiftExt h1).2 h2⟩

/-- C7. `RdMode` returns `R31IsSP` exactly when the S bit (bit 29) is clear and
the word is an AddSubImm word or an AddSubShiftExt word with bit 21 set; in every
other case it returns `R31IsZR`, in particular for add/sub words with the S bit
set and for all logical-immediate words. -/
theorem RdMode_SP_iff (instr : Instr) :
    (instr.RdMode = R31Type.R31IsSP ↔
      instr.Bit 29 = 0 ∧ (instr.IsAddSubImmOp = true
        ∨ (instr.IsAddSubShiftExtOp = true ∧ instr.Bit 21 = 1)))
    ∧ (instr.RdMode ≠ R31Type.R31IsSP → instr.RdMode = R31Type.R31IsZR)
    ∧ (instr.Bit 29 = 1 → instr.RdMode = R31Type.R31IsZR)
    ∧ (instr.IsLogicalImmOp = true → instr.RdMode = R31Type.R31IsZR) := by
  have hform := instr.spForm_iff
  have hS := instr.hasS_iff
  have key : instr.RdMode = R31Type.R31IsSP ↔
      instr.Bit 29 = 0 ∧ (instr.IsAddSubImmOp = true
        ∨ (instr.IsAddSubShiftExtOp = true ∧ instr.Bit 21 = 1)) := by
    unfold Instr.RdMode
    by_cases hf : (instr.IsAddSubImmOp || (instr.IsAddSubShiftExtOp && instr.IsExtend)) = true
    · rw [if_pos hf]
      by_cases hs : instr.HasS = true
      · rw [if_pos hs]
        have : instr.Bit 29 ≠ 0 := hS.1 hs
        constructor
        · intro h; cases h
        · intro h; exact absurd h.1 this
      · rw [if_neg hs]
        have : instr.Bit 29 = 0 := by
          by_contra hne
          exact hs (hS.2 hne)
        exact ⟨fun _ => ⟨this, hform.1 hf⟩, fun _ => rfl⟩
    · rw [if_neg hf]
      constructor
      · intro h; cases h
      · intro h; exact absurd (hform.2 h.2) hf
  have total : instr.RdMode ≠ R31Type.R31IsSP → instr.RdMode = R31Type.R31IsZR := by
    unfold Instr.RdMode
    split_ifs <;> simp
  refine ⟨key, total, ?_, ?_⟩
  · intro h1
    apply total
    intro hsp
    have h0 := (key.1 hsp).1
    rw [h0] at h1
    exact absurd h1 (by decide)
  · intro hl
    apply total
    intro hsp
    obtain ⟨h1, h2⟩ := instr.logicalImm_not_addSub hl
    rcases (key.1 hsp).2 with h | ⟨h, _⟩
    · rw [h1] at h; cases h
    · rw [h2] at h; cases h

/-- Witness for C7: the ADDI word with Rd = 31 (0x1100001F) resolves to SP, the
same word with the S bit set (0x3100001F) resolves to ZR. -/
theorem RdMode_SP_iff_witness :
    ((Instr.ofWord 0x1100001F).IsAddSubImmOp = true ∧ (Instr.ofWord 0x1100001F).RdField = 31
      ∧ (Instr.ofWord 0x1100001F).Bit 29 = 0
      ∧ (Instr.ofWord 0x1100001F).RdMode = R31Type.R31IsSP)
    ∧ ((Instr.ofWord 0x3100001F).IsAddSubImmOp = true ∧ (Instr.ofWord 0x3100001F).RdField = 31
      ∧ (Instr.ofWord 0x3100001F).Bit 29 = 1
      ∧ (Instr.ofWord 0x3100001F).RdMode = R31Type.R31IsZR) :=
  ⟨⟨by decide, by decide, by decide,
      (RdMode_SP_iff (Instr.ofWord 0x1100001F)).1.2 ⟨by decide, Or.inl (by decide)⟩⟩,
   ⟨by decide, by decide, by decide,
      (RdMode_SP_iff (Instr.ofWord 0x3100001F)).2.2.1 (by decide)⟩⟩

/-- C8. `RnMode` returns `R31IsSP` exactly when the word satisfies `IsLoadStoreOp`,
or `IsAddSubImmOp`, or `IsAddSubShiftExtOp` with bit 21 set, and `R31IsZR`
otherwise; a load/store word resolves to SP whatever its bits outside
`LoadStoreMask` are, the S bit included. -/
theorem RnMode_SP_iff (instr : Instr) :
    (instr.RnMode = R31Type.R31IsSP ↔
      (instr.IsLoadStoreOp = true ∨ instr.IsAddSubImmOp = true
        ∨ (instr.IsAddSubShiftExtOp = true ∧ instr.Bit 21 = 1)))
    ∧ (instr.RnMode ≠ R31Type.R31IsSP → instr.RnMode = R31Type.R31IsZR)
    ∧ (instr.IsLoadStoreOp = true → instr.RnMode = R31Type.R31IsSP)
    ∧ (∀ other : Instr, other.IsLoadStoreOp = true →
        Int.land instr.InstructionBits LoadStoreMask
          = Int.land other.InstructionBits LoadStoreMask →
        instr.RnMode = R31Type.R31IsSP) := by
  have hform := instr.spForm_iff
  have key : instr.RnMode = R31Type.R31IsSP ↔
      (instr.IsLoadStoreOp = true ∨ instr.IsAddSubImmOp = true
        ∨ (instr.IsAddSubShiftExtOp = true ∧ instr.Bit 21 = 1)) := by
    unfold Instr.RnMode
    rw [← hform]
    by_cases hf : (instr.IsLoadStoreOp || instr.IsAddSubImmOp
        || (instr.IsAddSubShiftExtOp && instr.IsExtend)) = true
    · rw [if_pos hf]
      simpa [Bool.or_assoc] using hf
    · rw [if_neg hf]
      constructor
      · intro h; cases h
      · intro h
        apply absurd _ hf
        simpa [Bool.or_assoc] using h
  have total : instr.RnMode ≠ R31Type.R31IsSP → instr.RnMode = R31Type.R31IsZR := by
    unfold Instr.RnMode
    split_ifs <;> simp
  refine ⟨key, total, fun h => key.2 (Or.inl h), ?_⟩
  intro other ho hagree
  apply key.2
  left
  simp only [Instr.IsLoadStoreOp, beq_iff_eq] at ho ⊢
  rw [hagree, ho]

/-- Witness for C8: the LDR word with Rn = 31 (0x384003E0, S bit set) and the
same word with bit 29 cleared (0x184003E0) both resolve Rn to SP. -/
theorem RnMode_SP_iff_witness :
    ((Instr.ofWord 0x384003E0).IsLoadStoreOp = true ∧ (Instr.ofWord 0x384003E0).RnField = 31
      ∧ (Instr.ofWord 0x384003E0).Bit 29 = 1
      ∧ (Instr.ofWord 0x384003E0).RnMode = R31Type.R31IsSP)
    ∧ ((Instr.ofWord 0x184003E0).RnField = 31 ∧ (Instr.ofWord 0x184003E0).Bit 29 = 0
      ∧ (Instr.ofWord 0x184003E0).RnMode = R31Type.R31IsSP) :=
  ⟨⟨by decide, by decide, by decide,
      (RnMode_SP_iff (Instr.ofWord 0x384003E0)).2.2.1 (by decide)⟩,
   ⟨by decide, by decide,
      (RnMode_SP_iff (Instr.ofWord 0x184003E0)).2.2.2 (Instr.ofWord 0x384003E0)
        (by decide) (by decide)⟩⟩

/-! ## Rotation and replication as bit patterns -/

theorem bitSum_spec (f : Nat → Bool) (n : Nat) :
    ((List.range n).map fun i => if f i then 2 ^ i else 0).sum < 2 ^ n
    ∧ ∀ j, (((List.range n).map fun i => if f i then 2 ^ i else 0).sum).testBit j
        = (decide (j < n) && f j) := by
  induction n with
  | zero => simp
  | succ n ih =>
    obtain ⟨hlt, hbit⟩ := ih
    rw [List.range_succ, List.map_append, List.sum_append]
    simp only [List.map_cons, List.map_nil, List.sum_cons, List.sum_nil, Nat.add_zero]
    by_cases hf : f n = true
    · rw [if_pos hf]
      constructor
      · rw [Nat.pow_succ]; omega
      · intro j
        have e := Nat.testBit_mul_pow_two_add 1 hlt j
        rw [Nat.mul_one, Nat.add_comm] at e
        rw [e]
        by_cases hj : j < n
        · rw [if_pos hj, hbit j]
          simp [hj, Nat.lt_succ_of_lt hj]
        · rw [if_neg hj]
          by_cases hjn : j = n
          · subst hjn; simp [hf]
          · have h1 : ¬ j < n + 1 := by omega
            have h2 : j - n ≠ 0 := by omega
            have h3 : Nat.testBit 1 (j - n) = false := by
              rw [← Bool.not_eq_true, Nat.testBit_one_eq_true_iff_self_eq_zero]
              exact h2
            simp [h1, h3]
    · rw [if_neg hf, Nat.add_zero]
      constructor
      · rw [Nat.pow_succ]; omega
      · intro j
        rw [hbit j]
        by_cases hjn : j = n
        · subst hjn; simp [hf]
        · by_cases hj : j < n
          · simp [hj, Nat.lt_succ_of_lt hj]
          · have h1 : ¬ j < n + 1 := by omega
            simp [hj, h1]

theorem rotrBits_lt (w x r : Nat) : rotrBits w x r < 2 ^ w :=
  (bitSum_spec (fun i => x.testBit ((i + r) % w)) w).1

theorem testBit_rotrBits (w x r j : Nat) :
    (rotrBits w x r).testBit j = (decide (j < w) && x.testBit ((j + r) % w)) :=
  (bitSum_spec (fun i => x.testBit ((i + r) % w)) w).2 j

/-- Rotation by arithmetic: the low `r` bits move to the top of the `w`-bit lane. -/
theorem rotrBits_eq (w x r : Nat) (hx : x < 2 ^ w) (hr : r < w) :
    rotrBits w x r = x / 2 ^ r + x % 2 ^ r * 2 ^ (w - r) := by
  apply Nat.eq_of_testBit_eq
  intro j
  have hq : x / 2 ^ r < 2 ^ (w - r) := by
    rw [Nat.div_lt_iff_lt_mul (by positivity), ← Nat.pow_add]
    have : w - r + r = w := by omega
    rw [this]; exact hx
  have en : x / 2 ^ r + x % 2 ^ r * 2 ^ (w - r) = 2 ^ (w - r) * (x % 2 ^ r) + x / 2 ^ r := by
    ring
  rw [en, Nat.testBit_mul_pow_two_add (x % 2 ^ r) hq j, testBit_rotrBits]
  by_cases h1 : j < w - r
  · have h2 : j < w := by omega
    have h3 : (j + r) % w = r + j := by rw [Nat.mod_eq_of_lt (by omega)]; omega
    rw [if_pos h1, ← Nat.shiftRight_eq_div_pow, Nat.testBit_shiftRight, h3]
    simp [h2]
  · rw [if_neg h1, Nat.testBit_mod_two_pow]
    by_cases h2 : j < w
    · have h3 : (j + r) % w = j - (w - r) := by
        rw [Nat.mod_eq_sub_mod (by omega), Nat.mod_eq_of_lt (by omega)]; omega
      have h4 : j - (w - r) < r := by omega
      simp [h2, h3, h4]
    · have h4 : ¬ j - (w - r) < r := by omega
      simp [h2, h4]

theorem repeatPattern_succ (c w pat : Nat) :
    repeatPattern (c + 1) w pat = repeatPattern c w pat + pat * 2 ^ (c * w) := by
  simp [repeatPattern, List.range_succ, List.map_append, List.sum_append]

theorem repeatPattern_spec (w pat : Nat) (hw : 0 < w) (hp : pat < 2 ^ w) (c : Nat) :
    repeatPattern c w pat < 2 ^ (c * w)
    ∧ ∀ j, (repeatPattern c w pat).testBit j = (decide (j < c * w) && pat.testBit (j % w)) := by
  induction c with
  | zero => simp [repeatPattern]
  | succ c ih =>
    obtain ⟨hlt, hbit⟩ := ih
    rw [repeatPattern_succ]
    have e1 : (c + 1) * w = c * w + w := by ring
    constructor
    · rw [e1, Nat.pow_add]
      calc repeatPattern c w pat + pat * 2 ^ (c * w)
          < 2 ^ (c * w) + pat * 2 ^ (c * w) := by omega
        _ = (pat + 1) * 2 ^ (c * w) := by ring
        _ ≤ 2 ^ w * 2 ^ (c * w) := Nat.mul_le_mul_right _ hp
        _ = 2 ^ (c * w) * 2 ^ w := by ring
    · intro j
      have en : repeatPattern c w pat + pat * 2 ^ (c * w)
          = 2 ^ (c * w) * pat + repeatPattern c w pat := by ring
      rw [en, Nat.testBit_mul_pow_two_add pat hlt j]
      by_cases h1 : j < c * w
      · have h2 : j < (c + 1) * w := by omega
        rw [if_pos h1, hbit j]
        simp [h1, h2]
      · rw [if_neg h1]
        by_cases h2 : j < (c + 1) * w
        · have h3 : j % w = j - c * w := by
            have : j = (j - c * w) + c * w := by omega
            conv_lhs => rw [this]
            rw [Nat.add_mul_mod_self_right, Nat.mod_eq_of_lt (by omega)]
          simp [h2, h3]
        · have h3 : pat.testBit (j - c * w) = false :=
            Nat.testBit_eq_false_of_lt
              (lt_of_lt_of_le hp (Nat.pow_le_pow_right (by decide) (by omega)))
          simp [h2, h3]

/-- Replication by arithmetic: `c` copies of a `w`-bit pattern are the pattern
times `1 + 2^w + ... + 2^((c-1) w)`. -/
theorem repeatPattern_eq (c w pat : Nat) (hw : 0 < w) :
    repeatPattern c w pat = pat * ((2 ^ (c * w) - 1) / (2 ^ w - 1)) := by
  have h2 : 2 ≤ 2 ^ w := by
    calc 2 = 2 ^ 1 := by norm_num
      _ ≤ 2 ^ w := Nat.pow_le_pow_right (by decide) hw
  have e : (2 : Nat) ^ (c * w) = (2 ^ w) ^ c := by rw [Nat.mul_comm, Nat.pow_mul]
  rw [e, ← Nat.geomSum_eq h2 c]
  clear e
  induction c with
  | zero => simp [repeatPattern]
  | succ c ih =>
    rw [repeatPattern_succ, Finset.sum_range_succ, Nat.mul_add, ← ih]
    congr 2
    rw [Nat.mul_comm, Nat.pow_mul]

/-! ## The fields read by `ImmLogical` -/

theorem Instr.logical_fields (instr : Instr) :
    ∃ a b s r : Nat, a < 2 ∧ b < 2 ∧ s < 64 ∧ r < 64
      ∧ instr.SFField = (a : Int) ∧ instr.NField = (b : Int)
      ∧ instr.ImmSField = (s : Int) ∧ instr.ImmRField = (r : Int) := by
  obtain ⟨s, hs, es⟩ := instr.Bits_nat kImmSShift kImmSBits (by decide) (by decide)
  obtain ⟨r, hr, er⟩ := instr.Bits_nat kImmRShift kImmRBits (by decide) (by decide)
  exact ⟨_, _, s, r, Nat.mod_lt _ (by decide), Nat.mod_lt _ (by decide), hs, hr,
    instr.Bit_eq 31 (by decide), instr.Bit_eq 22 (by decide), es, er⟩

/-- The fields of a word assembled by `logicalImmWord` are the ones it was given. -/
theorem logicalImmWord_fields (sf n immr imms : Nat) (h1 : sf < 2) (h2 : n < 2)
    (h3 : immr < 64) (h4 : imms < 64) :
    (logicalImmWord sf n immr imms).SFField = (sf : Int)
    ∧ (logicalImmWord sf n immr imms).NField = (n : Int)
    ∧ (logicalImmWord sf n immr imms).ImmSField = (imms : Int)
    ∧ (logicalImmWord sf n immr imms).ImmRField = (immr : Int) := by
  have hw : (logicalImmWord sf n immr imms).word
      = sf * 0x80000000 + 0x12000000 + n * 0x400000 + immr * 0x10000 + imms * 0x400 := by
    show (_ % 0x100000000 = _)
    omega
  refine ⟨?_, ?_, ?_, ?_⟩
  · rw [Instr.SFField, Instr.Bit_eq _ _ (by decide), hw]
    norm_num [kSFShift]
    omega
  · rw [Instr.NField, Instr.Bit_eq _ _ (by decide), hw]
    norm_num
    omega
  · rw [Instr.ImmSField, Instr.Bits_eq _ _ _ (by decide) (by decide), hw]
    norm_num [kImmSShift, kImmSBits]
    omega
  · rw [Instr.ImmRField, Instr.Bits_eq _ _ _ (by decide) (by decide), hw]
    norm_num [kImmRShift, kImmRBits]
    omega

theorem activeWidth_mem {s w : Nat} (h : activeWidth s = some w) : w ∈ [32, 16, 8, 4, 2] :=
  List.mem_of_find?_eq_some h

theorem activeWidth_pos {s w : Nat} (h : activeWidth s = some w) : 0 < w := by
  have := activeWidth_mem h
  simp only [List.mem_cons, List.mem_singleton, List.not_mem_nil, or_false] at this
  omega

theorem regSize_div_mul (a : Nat) {w : Nat} (h : w ∈ [32, 16, 8, 4, 2]) :
    (if (a : Int) = 1 then 64 else 32) / w * w = if (a : Int) = 1 then 64 else 32 := by
  simp only [List.mem_cons, List.mem_singleton, List.not_mem_nil, or_false] at h
  rcases h with rfl | rfl | rfl | rfl | rfl <;> split_ifs <;> rfl

/-! ## The decoder on every combination of its four fields

The decoder depends on the word only through `SF`, `N`, `immS` and `immR`, so
each statement below is checked on all combinations of the values concerned. -/

set_option maxRecDepth 100000 in
theorem immLogical_n0_core : ∀ a : Nat, a < 2 → ∀ s : Nat, s < 62 → ∀ r : Nat, r < 64 →
    ∀ w ∈ [32, 16, 8, 4, 2], activeWidth s = some w →
      s &&& (w - 1) ≠ w - 1 →
      ImmLogicalOfFields (a : Int) 0 (s : Int) (r : Int)
        = some (((2 ^ ((s &&& (w - 1)) + 1) - 1) / 2 ^ (r &&& (w - 1))
              + (2 ^ ((s &&& (w - 1)) + 1) - 1) % 2 ^ (r &&& (w - 1))
                  * 2 ^ (w - (r &&& (w - 1))))
            * ((2 ^ ((if (a : Int) = 1 then 64 else 32) / w * w) - 1) / (2 ^ w - 1))) := by
  decide!

set_option maxRecDepth 100000 in
theorem immLogical_n1_core : ∀ a : Nat, a < 2 → ∀ s : Nat, s < 63 → ∀ r : Nat, r < 64 →
    ImmLogicalOfFields (a : Int) 1 (s : Int) (r : Int)
      = some ((2 ^ (s + 1) - 1) / 2 ^ r + (2 ^ (s + 1) - 1) % 2 ^ r * 2 ^ (64 - r)) := by
  decide!

/-- The value of an accepted `N = 0` encoding. -/
theorem immLogical_n0_value (instr : Instr) (s r w : Nat)
    (hN : instr.NField = 0) (hs : instr.ImmSField = (s : Int))
    (hr : instr.ImmRField = (r : Int)) (hlt : s < 62) (hw : activeWidth s = some w)
    (hS : s &&& (w - 1) ≠ w - 1) :
    instr.ImmLogical = some (repeatPattern (regSizeOf instr / w) w
      (rotrBits w (2 ^ ((s &&& (w - 1)) + 1) - 1) (r &&& (w - 1)))) := by
  obtain ⟨a, b, s', r', ha, _, _, hr', eSF, _, _, eR⟩ := instr.logical_fields
  have er : r = r' := by
    have : (r : Int) = (r' : Int) := hr.symm.trans eR
    exact_mod_cast this
  subst er
  have hwpos := activeWidth_pos hw
  have hSle : s &&& (w - 1) ≤ w - 1 := Nat.and_le_right
  have hRle : r &&& (w - 1) ≤ w - 1 := Nat.and_le_right
  have hx : 2 ^ ((s &&& (w - 1)) + 1) - 1 < 2 ^ w := by
    have h1 : (2 : Nat) ^ ((s &&& (w - 1)) + 1) ≤ 2 ^ w :=
      Nat.pow_le_pow_right (by decide) (by omega)
    have h2 : 0 < (2 : Nat) ^ ((s &&& (w - 1)) + 1) := by positivity
    omega
  unfold Instr.ImmLogical regSizeOf
  rw [eSF, hN, hs, hr, immLogical_n0_core a ha s hlt r hr' w (activeWidth_mem hw) hw hS,
    repeatPattern_eq _ _ _ hwpos, rotrBits_eq _ _ _ hx (by omega)]

theorem activeWidth_of_largest : ∀ s : Nat, s < 64 → ∀ w ∈ [32, 16, 8, 4, 2],
    s &&& w = 0 → (∀ w' ∈ [32, 16, 8, 4, 2], w < w' → s &&& w' ≠ 0) →
    activeWidth s = some w := by
  decide

/-- C1. For a word with N = 0 and immS < 62, let `w` be the largest of 32, 16, 8,
4, 2 with `immS & w = 0`, `S = immS & (w-1)`, `R = immR & (w-1)` and `reg_size` 64
or 32 by SF. If `S ≠ w-1`, `ImmLogical` returns the `reg_size`-bit value made of
`reg_size / w` copies of the `w`-bit pattern `2^(S+1) - 1` rotated right by `R`
within `w` bits. -/
theorem ImmLogical_N0_copies (instr : Instr) (s r w : Nat)
    (hN : instr.NField = 0) (hs : instr.ImmSField = (s : Int))
    (hr : instr.ImmRField = (r : Int)) (hlt : s < 62)
    (hmem : w ∈ [32, 16, 8, 4, 2]) (hbit : s &&& w = 0)
    (hmax : ∀ w' ∈ [32, 16, 8, 4, 2], w < w' → s &&& w' ≠ 0)
    (hS : s &&& (w - 1) ≠ w - 1) :
    instr.ImmLogical = some (repeatPattern (regSizeOf instr / w) w
      (rotrBits w (2 ^ ((s &&& (w - 1)) + 1) - 1) (r &&& (w - 1)))) :=
  immLogical_n0_value instr s r w hN hs hr hlt
    (activeWidth_of_largest s (by omega) w hmem hbit hmax) hS

/-- Witness for C1: the word 0x12010C00 (SF = 0, N = 0, immR = 1, immS = 3) has
active width 32 and decodes to 0x80000007. -/
theorem ImmLogical_N0_copies_witness :
    (Instr.ofWord 0x12010C00).NField = 0
    ∧ (Instr.ofWord 0x12010C00).ImmSField = ((3 : Nat) : Int)
    ∧ (Instr.ofWord 0x12010C00).ImmRField = ((1 : Nat) : Int)
    ∧ 3 < 62 ∧ 3 &&& 32 = 0 ∧ 3 &&& (32 - 1) ≠ 32 - 1
    ∧ (Instr.ofWord 0x12010C00).ImmLogical = some (repeatPattern
        (regSizeOf (Instr.ofWord 0x12010C00) / 32) 32
        (rotrBits 32 (2 ^ ((3 &&& (32 - 1)) + 1) - 1) (1 &&& (32 - 1))))
    ∧ (Instr.ofWord 0x12010C00).ImmLogical = some 0x80000007 :=
  ⟨by decide, by decide, by decide, by decide, by decide, by decide,
    ImmLogical_N0_copies (Instr.ofWord 0x12010C00) 3 1 32 (by decide) (by decide) (by decide)
      (by decide) (by decide) (by decide) (by decide) (by decide),
    by decide⟩

/-- C2, as stated, fails when SF = 0: the word 0x12410C00 (SF = 0, N = 1,
immR = 1, immS = 3) decodes to 0x8000000000000007, the run 0xF rotated within 64
bits, and not to 0x80000007, its rotation within the 32-bit register width. -/
theorem ImmLogical_N1_SF0_counterexample :
    (Instr.ofWord 0x12410C00).NField = 1
    ∧ (Instr.ofWord 0x12410C00).ImmSField = 3
    ∧ (Instr.ofWord 0x12410C00).ImmRField = 1
    ∧ regSizeOf (Instr.ofWord 0x12410C00) = 32
    ∧ rotrBits 32 (2 ^ (3 + 1) - 1) 1 = 0x80000007
    ∧ (Instr.ofWord 0x12410C00).ImmLogical = some 0x8000000000000007
    ∧ (Instr.ofWord 0x12410C00).ImmLogical
        ≠ some (rotrBits (regSizeOf (Instr.ofWord 0x12410C00)) (2 ^ (3 + 1) - 1) 1) := by
  decide

/-- C2, amended. For a word with N = 1 and immS ≠ 0x3F, `ImmLogical` returns the
run of immS + 1 low set bits, `(1 << (immS+1)) - 1`, rotated right by immR within
64 bits, whatever the SF bit. -/
theorem ImmLogical_N1_rotates_in_64 (instr : Instr) (s r : Nat)
    (hN : instr.NField = 1) (hs : instr.ImmSField = (s : Int))
    (hr : instr.ImmRField = (r : Int)) (hne : s ≠ 0x3F) :
    instr.ImmLogical = some (rotrBits 64 (2 ^ (s + 1) - 1) r) := by
  obtain ⟨a, b, s', r', ha, _, hs', hr', eSF, _, eS, eR⟩ := instr.logical_fields
  have er : r = r' := by
    have : (r : Int) = (r' : Int) := hr.symm.trans eR
    exact_mod_cast this
  have es : s = s' := by
    have : (s : Int) = (s' : Int) := hs.symm.trans eS
    exact_mod_cast this
  subst er es
  have hx : 2 ^ (s + 1) - 1 < 2 ^ 64 := by
    have h1 : (2 : Nat) ^ (s + 1) ≤ 2 ^ 64 := Nat.pow_le_pow_right (by decide) (by omega)
    have h2 : 0 < (2 : Nat) ^ (s + 1) := by positivity
    omega
  unfold Instr.ImmLogical
  rw [eSF, hN, hs, hr, rotrBits_eq _ _ _ hx hr']
  exact immLogical_n1_core a ha s (by omega) r hr'

/-- Witness for C2 (amended): the word 0x12410C00 (SF = 0, N = 1, immR = 1,
immS = 3). -/
theorem ImmLogical_N1_rotates_in_64_witness :
    (Instr.ofWord 0x12410C00).NField = 1
    ∧ (Instr.ofWord 0x12410C00).ImmSField = ((3 : Nat) : Int)
    ∧ (Instr.ofWord 0x12410C00).ImmRField = ((1 : Nat) : Int)
    ∧ 3 ≠ 0x3F
    ∧ (Instr.ofWord 0x12410C00).ImmLogical = some (rotrBits 64 (2 ^ (3 + 1) - 1) 1) :=
  ⟨by decide, by decide, by decide, by decide,
    ImmLogical_N1_rotates_in_64 (Instr.ofWord 0x12410C00) 3 1 (by decide) (by decide)
      (by decide) (by decide)⟩

set_option maxRecDepth 100000 in
theorem immLogical_reject_core : ∀ a : Nat, a < 2 → ∀ r : Nat, r < 64 →
    ImmLogicalOfFields (a : Int) 1 ((63 : Nat) : Int) (r : Int) = some 0
    ∧ ∀ s : Nat, s < 64 → ∀ w ∈ [32, 16, 8, 4, 2], activeWidth s = some w →
        s &&& (w - 1) = w - 1 →
        ImmLogicalOfFields (a : Int) 0 (s : Int) (r : Int) = some 0 := by
  decide!

/-- C3. `ImmLogical` returns the zero sentinel on the rejection set: every word
with N = 1 and immS = 0b111111, and every word with N = 0 whose immS masked to its
active element width `w` is all-ones, for either SF and every immR. -/
theorem ImmLogical_rejection_set (instr : Instr) (s : Nat)
    (hs : instr.ImmSField = (s : Int)) :
    (instr.NField = 1 → s = 0x3F → instr.ImmLogical = some 0)
    ∧ (instr.NField = 0 → ∀ w : Nat, activeWidth s = some w → s &&& (w - 1) = w - 1 →
        instr.ImmLogical = some 0) := by
  obtain ⟨a, b, s', r, ha, _, hs', hr, eSF, _, eS, eR⟩ := instr.logical_fields
  have es : s = s' := by
    have : (s : Int) = (s' : Int) := hs.symm.trans eS
    exact_mod_cast this
  subst es
  have core := immLogical_reject_core a ha r hr
  constructor
  · intro hN h63
    subst h63
    unfold Instr.ImmLogical
    rw [eSF, hN, hs, eR]
    exact core.1
  · intro hN w hw hS
    unfold Instr.ImmLogical
    rw [eSF, hN, hs, eR]
    exact core.2 s hs' w (activeWidth_mem hw) hw hS

/-- Witness for C3: 0x1240FC00 (N = 1, immS = 63) and 0x12007C00 (N = 0,
immS = 0b011111, active width 32). -/
theorem ImmLogical_rejection_set_witness :
    ((Instr.ofWord 0x1240FC00).ImmSField = ((0x3F : Nat) : Int)
      ∧ (Instr.ofWord 0x1240FC00).NField = 1
      ∧ (Instr.ofWord 0x1240FC00).ImmLogical = some 0)
    ∧ ((Instr.ofWord 0x12007C00).ImmSField = ((31 : Nat) : Int)
      ∧ (Instr.ofWord 0x12007C00).NField = 0
      ∧ activeWidth 31 = some 32 ∧ 31 &&& (32 - 1) = 32 - 1
      ∧ (Instr.ofWord 0x12007C00).ImmLogical = some 0) :=
  ⟨⟨by decide, by decide,
      (ImmLogical_rejection_set (Instr.ofWord 0x1240FC00) 0x3F (by decide)).1
        (by decide) (by decide)⟩,
   ⟨by decide, by decide, by decide, by decide,
      (ImmLogical_rejection_set (Instr.ofWord 0x12007C00) 31 (by decide)).2
        (by decide) 32 (by decide) (by decide)⟩⟩

set_option synthInstance.maxSize 1000 in
set_option maxRecDepth 100000 in
theorem immLogical_zero_core : ∀ a : Nat, a < 2 → ∀ b : Nat, b < 2 → ∀ s : Nat, s < 64 →
    ∀ r : Nat, r < 64 →
    (ImmLogicalOfFields (a : Int) (b : Int) (s : Int) (r : Int)).isSome = true
    ∧ (ImmLogicalOfFields (a : Int) (b : Int) (s : Int) (r : Int) = some 0 →
        (b = 1 ∧ s = 0x3F)
        ∨ (b = 0 ∧ (0x3E ≤ s
            ∨ ∃ w ∈ [32, 16, 8, 4, 2], activeWidth s = some w ∧ s &&& (w - 1) = w - 1))) := by
  decide!

/-- C4. Zero is an unambiguous failure sentinel: if `ImmLogical` returns 0 the
word is a rejected encoding, (N = 1 and immS = 0x3F) or (N = 0 and (immS ≥ 0x3E or
immS masked to its active width is all-ones)); every other word decodes to a
non-zero value. -/
theorem ImmLogical_zero_only_if_rejected (instr : Instr) (s : Nat)
    (hs : instr.ImmSField = (s : Int)) :
    (instr.ImmLogical = some 0 →
      (instr.NField = 1 ∧ s = 0x3F)
      ∨ (instr.NField = 0
          ∧ (0x3E ≤ s ∨ ∃ w : Nat, activeWidth s = some w ∧ s &&& (w - 1) = w - 1)))
    ∧ (¬ ((instr.NField = 1 ∧ s = 0x3F)
          ∨ (instr.NField = 0
              ∧ (0x3E ≤ s ∨ ∃ w : Nat, activeWidth s = some w ∧ s &&& (w - 1) = w - 1))) →
        ∃ v : Nat, instr.ImmLogical = some v ∧ v ≠ 0) := by
  obtain ⟨a, b, s', r, ha, hb, hs', hr, eSF, eN, eS, eR⟩ := instr.logical_fields
  have es : s = s' := by
    have : (s : Int) = (s' : Int) := hs.symm.trans eS
    exact_mod_cast this
  subst es
  obtain ⟨hsome, hzero⟩ := immLogical_zero_core a ha b hb s hs' r hr
  have hval : instr.ImmLogical = ImmLogicalOfFields (a : Int) (b : Int) (s : Int) (r : Int) := by
    unfold Instr.ImmLogical
    rw [eSF, eN, hs, eR]
  have key : instr.ImmLogical = some 0 →
      (instr.NField = 1 ∧ s = 0x3F)
      ∨ (instr.NField = 0
          ∧ (0x3E ≤ s ∨ ∃ w : Nat, activeWidth s = some w ∧ s &&& (w - 1) = w - 1)) := by
    intro h0
    rw [hval] at h0
    rcases hzero h0 with ⟨hb1, h63⟩ | ⟨hb0, hrest⟩
    · left
      exact ⟨by rw [eN, hb1]; rfl, h63⟩
    · right
      refine ⟨by rw [eN, hb0]; rfl, ?_⟩
      rcases hrest with h | ⟨w, _, hw, hS⟩
      · exact Or.inl h
      · exact Or.inr ⟨w, hw, hS⟩
  refine ⟨key, ?_⟩
  intro hnot
  rw [hval, Option.isSome_iff_exists] at *
  obtain ⟨v, hv⟩ := hsome
  refine ⟨v, hv, ?_⟩
  intro hv0
  subst hv0
  exact hnot (key (hval.trans hv))

/-- Witness for C4: 0x1240FC00 decodes to 0 and is rejected (N = 1, immS = 0x3F);
0x12010C00 (N = 0, immS = 3) is accepted and decodes to a non-zero value. -/
theorem ImmLogical_zero_only_if_rejected_witness :
    ((Instr.ofWord 0x1240FC00).ImmSField = ((0x3F : Nat) : Int)
      ∧ (Instr.ofWord 0x1240FC00).ImmLogical = some 0
      ∧ (((Instr.ofWord 0x1240FC00).NField = 1 ∧ 0x3F = 0x3F)
          ∨ ((Instr.ofWord 0x1240FC00).NField = 0
              ∧ (0x3E ≤ 0x3F
                  ∨ ∃ w : Nat, activeWidth 0x3F = some w ∧ 0x3F &&& (w - 1) = w - 1))))
    ∧ ((Instr.ofWord 0x12010C00).ImmSField = ((3 : Nat) : Int)
      ∧ ∃ v : Nat, (Instr.ofWord 0x12010C00).ImmLogical = some v ∧ v ≠ 0) :=
  ⟨⟨by decide, by decide,
      (ImmLogical_zero_only_if_rejected (Instr.ofWord 0x1240FC00) 0x3F (by decide)).1
        (by decide)⟩,
   ⟨by decide,
      (ImmLogical_zero_only_if_rejected (Instr.ofWord 0x12010C00) 3 (by decide)).2 (by
        rintro (⟨h, _⟩ | ⟨_, h | ⟨w, hw, hS⟩⟩)
        · exact absurd h (by decide)
        · exact absurd h (by decide)
        · have e : activeWidth 3 = some 32 := by decide
          rw [e] at hw
          cases hw
          exact absurd hS (by decide))⟩⟩

/-- C5. Replication: for a word with N = 0 that is not rejected, with active
element width `w`, the value `v` returned by `ImmLogical` has bit `i` equal to bit
`i mod w` for every `i` below the register width. -/
theorem ImmLogical_replication (instr : Instr) (s w : Nat)
    (hN : instr.NField = 0) (hs : instr.ImmSField = (s : Int)) (hlt : s < 0x3E)
    (hw : activeWidth s = some w) (hS : s &&& (w - 1) ≠ w - 1) :
    ∃ v : Nat, instr.ImmLogical = some v
      ∧ ∀ i : Nat, i < regSizeOf instr → v.testBit i = v.testBit (i % w) := by
  obtain ⟨a, b, s', r, ha, _, _, hr, eSF, _, _, eR⟩ := instr.logical_fields
  have hwpos := activeWidth_pos hw
  refine ⟨_, immLogical_n0_value instr s r w hN hs eR hlt hw hS, ?_⟩
  intro i hi
  have hcw : regSizeOf instr / w * w = regSizeOf instr := by
    unfold regSizeOf
    rw [eSF]
    exact regSize_div_mul a (activeWidth_mem hw)
  have spec := (repeatPattern_spec w (rotrBits w (2 ^ ((s &&& (w - 1)) + 1) - 1) (r &&& (w - 1)))
    hwpos (rotrBits_lt _ _ _) (regSizeOf instr / w)).2
  have hmod : i % w < w := Nat.mod_lt _ hwpos
  have hle : w ≤ regSizeOf instr := by
    have hc : 0 < regSizeOf instr / w := by
      rcases Nat.eq_zero_or_pos (regSizeOf instr / w) with h0 | h0
      · rw [h0, Nat.zero_mul] at hcw; omega
      · exact h0
    calc w = 1 * w := (Nat.one_mul w).symm
      _ ≤ regSizeOf instr / w * w := Nat.mul_le_mul_right w hc
      _ = regSizeOf instr := hcw
  rw [spec i, spec (i % w), hcw, Nat.mod_mod]
  have h1 : i % w < regSizeOf instr := by omega
  simp [hi, h1]

/-- Witness for C5: the word 0x1201F000 (SF = 0, N = 0, immS = 0b111100, active
width 2) decodes to the alternating pattern 0xAAAAAAAA. -/
theorem ImmLogical_replication_witness :
    (Instr.ofWord 0x1201F000).NField = 0
    ∧ (Instr.ofWord 0x1201F000).ImmSField = ((0x3C : Nat) : Int)
    ∧ 0x3C < 0x3E ∧ activeWidth 0x3C = some 2 ∧ 0x3C &&& (2 - 1) ≠ 2 - 1
    ∧ (Instr.ofWord 0x1201F000).ImmLogical = some 0xAAAAAAAA
    ∧ ∃ v : Nat, (Instr.ofWord 0x1201F000).ImmLogical = some v
        ∧ ∀ i : Nat, i < regSizeOf (Instr.ofWord 0x1201F000) →
            v.testBit i = v.testBit (i % 2) :=
  ⟨by decide, by decide, by decide, by decide, by decide, by decide,
    ImmLogical_replication (Instr.ofWord 0x1201F000) 0x3C 2 (by decide) (by decide)
      (by decide) (by decide) (by decide)⟩

set_option synthInstance.maxSize 1000 in
set_option maxRecDepth 100000 in
theorem immLogical_onto_core : ∀ a : Nat, a < 2 → ∀ e ∈ [2, 4, 8, 16, 32, 64],
    e ≤ (if (a : Int) = 1 then 64 else 32) → ∀ k : Nat, k < e → 1 ≤ k → ∀ r : Nat, r < e →
    (if e = 64 then k - 1 else 64 - 2 * e + (k - 1)) < 64
    ∧ ImmLogicalOfFields (a : Int) (((if e = 64 then 1 else 0 : Nat)) : Int)
        (((if e = 64 then k - 1 else 64 - 2 * e + (k - 1) : Nat)) : Int) (r : Int)
      = some (((2 ^ k - 1) / 2 ^ r + (2 ^ k - 1) % 2 ^ r * 2 ^ (e - r))
          * ((2 ^ ((if (a : Int) = 1 then 64 else 32) / e * e) - 1) / (2 ^ e - 1)))
    ∧ ((2 ^ k - 1) / 2 ^ r + (2 ^ k - 1) % 2 ^ r * 2 ^ (e - r))
          * ((2 ^ ((if (a : Int) = 1 then 64 else 32) / e * e) - 1) / (2 ^ e - 1)) ≠ 0 := by
  decide!

/-- The decoder reaches every repeated rotated run: stated with the SF bit `a`. -/
theorem immLogical_onto (a e k r : Nat) (ha : a < 2) (he : e ∈ [2, 4, 8, 16, 32, 64])
    (heW : e ≤ (if (a : Int) = 1 then 64 else 32)) (hk1 : 1 ≤ k) (hk : k < e) (hr : r < e) :
    ∃ N immS immR : Nat, N < 2 ∧ immS < 64 ∧ immR < 64
      ∧ (∃ instr : Instr, instr.SFField = (a : Int) ∧ instr.NField = (N : Int)
          ∧ instr.ImmSField = (immS : Int) ∧ instr.ImmRField = (immR : Int))
      ∧ ∀ instr : Instr, instr.SFField = (a : Int) → instr.NField = (N : Int) →
          instr.ImmSField = (immS : Int) → instr.ImmRField = (immR : Int) →
          instr.ImmLogical = some (repeatPattern ((if (a : Int) = 1 then 64 else 32) / e) e
              (rotrBits e (2 ^ k - 1) r))
          ∧ repeatPattern ((if (a : Int) = 1 then 64 else 32) / e) e
              (rotrBits e (2 ^ k - 1) r) ≠ 0 := by
  obtain ⟨hS, hval, hne⟩ := immLogical_onto_core a ha e he heW k hk hk1 r hr
  have he64 : e ≤ 64 := by
    simp only [List.mem_cons, List.mem_singleton, List.not_mem_nil, or_false] at he
    omega
  have hepos : 0 < e := by omega
  have hN : (if e = 64 then 1 else 0 : Nat) < 2 := by split_ifs <;> decide
  have hx : 2 ^ k - 1 < 2 ^ e := by
    have h1 : (2 : Nat) ^ k ≤ 2 ^ e := Nat.pow_le_pow_right (by decide) (by omega)
    have h2 : 0 < (2 : Nat) ^ k := by positivity
    omega
  have hrw : repeatPattern ((if (a : Int) = 1 then 64 else 32) / e) e (rotrBits e (2 ^ k - 1) r)
      = ((2 ^ k - 1) / 2 ^ r + (2 ^ k - 1) % 2 ^ r * 2 ^ (e - r))
          * ((2 ^ ((if (a : Int) = 1 then 64 else 32) / e * e) - 1) / (2 ^ e - 1)) := by
    rw [repeatPattern_eq _ _ _ hepos, rotrBits_eq _ _ _ hx hr]
  refine ⟨(if e = 64 then 1 else 0), (if e = 64 then k - 1 else 64 - 2 * e + (k - 1)), r,
    hN, hS, by omega, 
    ⟨logicalImmWord a (if e = 64 then 1 else 0) r
      (if e = 64 then k - 1 else 64 - 2 * e + (k - 1)), ?_⟩, ?_⟩
  · exact logicalImmWord_fields a _ r _ ha hN (by omega) hS
  · intro instr eSF eN eS eR
    rw [hrw]
    refine ⟨?_, hne⟩
    unfold Instr.ImmLogical
    rw [eSF, eN, eS, eR]
    exact hval

/-- C6. Decoder surjectivity: for each register width W in {32, 64}, element size
`e` in {2, 4, 8, 16, 32, 64} with `e ≤ W`, run length `1 ≤ k < e` and rotation
`r < e`, there are field values (N, immS, immR), carried by some word, such that
`ImmLogical` of any word carrying them and the SF bit for W returns the W-bit value
made of `W / e` copies of `2^k - 1` rotated right by `r` within `e` bits, and that
value is non-zero. -/
theorem ImmLogical_surjective (W e k r : Nat) (hW : W = 32 ∨ W = 64)
    (he : e ∈ [2, 4, 8, 16, 32, 64]) (heW : e ≤ W) (hk1 : 1 ≤ k) (hk : k < e) (hr : r < e) :
    ∃ N immS immR : Nat, N < 2 ∧ immS < 64 ∧ immR < 64
      ∧ (∃ instr : Instr, regSizeOf instr = W ∧ instr.NField = (N : Int)
          ∧ instr.ImmSField = (immS : Int) ∧ instr.ImmRField = (immR : Int))
      ∧ ∀ instr : Instr, regSizeOf instr = W → instr.NField = (N : Int) →
          instr.ImmSField = (immS : Int) → instr.ImmRField = (immR : Int) →
          instr.ImmLogical = some (repeatPattern (W / e) e (rotrBits e (2 ^ k - 1) r))
          ∧ repeatPattern (W / e) e (rotrBits e (2 ^ k - 1) r) ≠ 0 := by
  have hsf : ∀ instr : Instr, ∀ a : Nat, a < 2 → (if (a : Int) = 1 then 64 else 32) = W →
      (regSizeOf instr = W ↔ instr.SFField = (a : Int)) := by
    intro instr a ha haW
    unfold regSizeOf
    rcases instr.Bit_zero_or_one 31 (by decide) with h | h
    · have h' : instr.SFField = 0 := h
      rw [h']
      interval_cases a <;> rcases hW with rfl | rfl <;> simp_all
    · have h' : instr.SFField = 1 := h
      rw [h']
      interval_cases a <;> rcases hW with rfl | rfl <;> simp_all
  have main : ∀ a : Nat, a < 2 → (if (a : Int) = 1 then 64 else 32) = W → _ := fun a ha haW =>
    immLogical_onto a e k r ha he (by rw [haW]; exact heW) hk1 hk hr
  have pick : ∃ a : Nat, a < 2 ∧ (if (a : Int) = 1 then 64 else 32) = W := by
    rcases hW with rfl | rfl
    · exact ⟨0, by decide, by decide⟩
    · exact ⟨1, by decide, by decide⟩
  obtain ⟨a, ha, haW⟩ := pick
  obtain ⟨N, immS, immR, h1, h2, h3, ⟨i0, f1, f2, f3, f4⟩, hall⟩ := main a ha haW
  refine ⟨N, immS, immR, h1, h2, h3, ⟨i0, (hsf i0 a ha haW).2 f1, f2, f3, f4⟩, ?_⟩
  intro instr g1 g2 g3 g4
  have := hall instr ((hsf instr a ha haW).1 g1) g2 g3 g4
  rw [haW] at this
  exact this

/-- Witness for C6: W = 32, element size 8, run length 3, rotation 1. -/
theorem ImmLogical_surjective_witness :
    (32 = 32 ∨ 32 = 64) ∧ 8 ∈ [2, 4, 8, 16, 32, 64] ∧ 8 ≤ 32 ∧ 1 ≤ 3 ∧ 3 < 8 ∧ 1 < 8
    ∧ ∃ N immS immR : Nat, N < 2 ∧ immS < 64 ∧ immR < 64
      ∧ (∃ instr : Instr, regSizeOf instr = 32 ∧ instr.NField = (N : Int)
          ∧ instr.ImmSField = (immS : Int) ∧ instr.ImmRField = (immR : Int))
      ∧ ∀ instr : Instr, regSizeOf instr = 32 → instr.NField = (N : Int) →
          instr.ImmSField = (immS : Int) → instr.ImmRField = (immR : Int) →
          instr.ImmLogical = some (repeatPattern (32 / 8) 8 (rotrBits 8 (2 ^ 3 - 1) 1))
          ∧ repeatPattern (32 / 8) 8 (rotrBits 8 (2 ^ 3 - 1) 1) ≠ 0 :=
  ⟨by decide, by decide, by decide, by decide, by decide, by decide,
    ImmLogical_surjective 32 8 3 1 (by decide) (by decide) (by decide) (by decide)
      (by decide) (by decide)⟩

/-! ## 32-bit patterns of integers -/

theorem pattern32_lt (x : Int) : pattern32 x < 2 ^ 32 := by
  have h := Int.emod_lt_of_pos x (show (0 : Int) < 0x100000000 by decide)
  have h0 := Int.emod_nonneg x (show (0x100000000 : Int) ≠ 0 by decide)
  unfold pattern32
  omega

theorem testBit_pattern32 (x : Int) (i : Nat) :
    (pattern32 x).testBit i = (decide (i < 32) && x.testBit i) := by
  cases x with
  | ofNat n =>
    have e : pattern32 (Int.ofNat n) = n % 2 ^ 32 := by
      unfold pattern32
      have : (Int.ofNat n) % 0x100000000 = ((n % 2 ^ 32 : Nat) : Int) := by
        simp
      rw [this]
      rfl
    rw [e, Nat.testBit_mod_two_pow]
    rfl
  | negSucc n =>
    have hlt : n % 2 ^ 32 < 2 ^ 32 := Nat.mod_lt _ (by positivity)
    have e : pattern32 (Int.negSucc n) = 2 ^ 32 - (n % 2 ^ 32 + 1) := by
      unfold pattern32
      have : (Int.negSucc n) % 0x100000000 = ((2 ^ 32 - (n % 2 ^ 32 + 1) : Nat) : Int) := by
        rw [Int.negSucc_eq]
        omega
      rw [this]
      rfl
    rw [e, Nat.testBit_two_pow_sub_succ hlt, Nat.testBit_mod_two_pow]
    show _ = (decide (i < 32) && !n.testBit i)
    by_cases hi : i < 32 <;> simp [hi]

theorem pattern32_lor (a b : Int) : pattern32 (Int.lor a b) = pattern32 a ||| pattern32 b := by
  apply Nat.eq_of_testBit_eq
  intro i
  rw [Nat.testBit_or, testBit_pattern32, testBit_pattern32, testBit_pattern32, Int.testBit_lor]
  by_cases hi : i < 32 <;> simp [hi]

/-- Masking an integer with a non-negative 32-bit constant is masking its 32-bit
pattern. -/
theorem land_natCast (x : Int) (m : Nat) (hm : m < 2 ^ 32) :
    Int.land x (m : Int) = ((pattern32 x &&& m : Nat) : Int) := by
  have hex : ∃ k : Nat, Int.land x (m : Int) = (k : Int) := by
    cases x with
    | ofNat n => exact ⟨n &&& m, rfl⟩
    | negSucc n => exact ⟨Nat.ldiff m n, rfl⟩
  obtain ⟨k, hk⟩ := hex
  rw [hk]
  congr 1
  apply Nat.eq_of_testBit_eq
  intro i
  have h1 : (Int.land x (m : Int)).testBit i = (x.testBit i && (m : Int).testBit i) :=
    Int.testBit_land x m i
  rw [hk] at h1
  have h2 : ((k : Nat) : Int).testBit i = k.testBit i := rfl
  have h3 : ((m : Nat) : Int).testBit i = m.testBit i := rfl
  rw [h2, h3] at h1
  rw [h1, Nat.testBit_and, testBit_pattern32]
  by_cases hi : i < 32
  · simp [hi]
  · have : m.testBit i = false :=
      Nat.testBit_eq_false_of_lt (lt_of_lt_of_le hm (Nat.pow_le_pow_right (by decide) (by omega)))
    simp [this]

theorem pattern32_wrap32 (x : Int) : pattern32 (wrap32 x) = pattern32 x := by
  unfold pattern32 wrap32
  omega

theorem Instr.pattern32_InstructionBits (instr : Instr) :
    pattern32 instr.InstructionBits = instr.word := by
  have := instr.lt
  unfold pattern32 Instr.InstructionBits
  split_ifs <;> omega

theorem Instr.word_ofBits (value : Int) : (Instr.ofBits value).word = pattern32 value := rfl

/-- The test made by `IS_OP`, on the unsigned reading of the word. -/
theorem Instr.isOp_eq (instr : Instr) (fixed : Int) (m : Nat) (hm : m < 2 ^ 32) :
    (Int.land instr.InstructionBits (m : Int) == Int.land fixed (m : Int))
      = decide (instr.word &&& m = pattern32 fixed &&& m) := by
  rw [land_natCast _ m hm, land_natCast _ m hm, instr.pattern32_InstructionBits]
  by_cases h : instr.word &&& m = pattern32 fixed &&& m
  · simp [h]
  · have : ¬ (((instr.word &&& m : Nat) : Int) = ((pattern32 fixed &&& m : Nat) : Int)) := by
      intro h2
      exact h (by exact_mod_cast h2)
    simp [h, this]

theorem pattern32_natCast (n : Nat) : pattern32 (n : Int) = n % 0x100000000 := by
  unfold pattern32
  omega

theorem B31_eq : B31 = -2147483648 := by decide

theorem pattern32_B31 : pattern32 B31 = 0x80000000 := by
  rw [B31_eq]
  decide

/-! ## The 32-bit patterns of the opcode constants -/

theorem pattern32_B0 : pattern32 B0 = 0x00000001 := by decide
theorem pattern32_B1 : pattern32 B1 = 0x00000002 := by decide
theorem pattern32_B2 : pattern32 B2 = 0x00000004 := by decide
theorem pattern32_B3 : pattern32 B3 = 0x00000008 := by decide
theorem pattern32_B4 : pattern32 B4 = 0x00000010 := by decide
theorem pattern32_B13 : pattern32 B13 = 0x00002000 := by decide
theorem pattern32_B16 : pattern32 B16 = 0x00010000 := by decide
theorem pattern32_B17 : pattern32 B17 = 0x00020000 := by decide
theorem pattern32_B18 : pattern32 B18 = 0x00040000 := by decide
theorem pattern32_B19 : pattern32 B19 = 0x00080000 := by decide
theorem pattern32_B20 : pattern32 B20 = 0x00100000 := by decide
theorem pattern32_B21 : pattern32 B21 = 0x00200000 := by decide
theorem pattern32_B22 : pattern32 B22 = 0x00400000 := by decide
theorem pattern32_B23 : pattern32 B23 = 0x00800000 := by decide
theorem pattern32_B24 : pattern32 B24 = 0x01000000 := by decide
theorem pattern32_B25 : pattern32 B25 = 0x02000000 := by decide
theorem pattern32_B26 : pattern32 B26 = 0x04000000 := by decide
theorem pattern32_B27 : pattern32 B27 = 0x08000000 := by decide
theorem pattern32_B28 : pattern32 B28 = 0x10000000 := by decide
theorem pattern32_B29 : pattern32 B29 = 0x20000000 := by decide
theorem pattern32_B30 : pattern32 B30 = 0x40000000 := by decide

theorem pattern32_DPImmediateFixed : pattern32 DPImmediateFixed = 0x10000000 := by
  have h : DPImmediateFixed = B28 := rfl
  rw [h, pattern32_B28]

theorem pattern32_CompareBranchFixed : pattern32 CompareBranchFixed = 0x14000000 := by
  have h : CompareBranchFixed = Int.lor B28 B26 := rfl
  rw [h]
  simp only [pattern32_lor, pattern32_B28, pattern32_B26]
  decide

theorem pattern32_LoadStoreFixed : pattern32 LoadStoreFixed = 0x08000000 := by
  have h : LoadStoreFixed = B27 := rfl
  rw [h, pattern32_B27]

theorem pattern32_DPRegisterFixed : pattern32 DPRegisterFixed = 0x0a000000 := by
  have h : DPRegisterFixed = Int.lor B27 B25 := rfl
  rw [h]
  simp only [pattern32_lor, pattern32_B27, pattern32_B25]
  decide

theorem pattern32_DPSimd1Fixed : pattern32 DPSimd1Fixed = 0x0e000000 := by
  have h : DPSimd1Fixed = Int.lor (Int.lor B27 B26) B25 := rfl
  rw [h]
  simp only [pattern32_lor, pattern32_B27, pattern32_B26, pattern32_B25]
  decide

theorem pattern32_DPSimd2Fixed : pattern32 DPSimd2Fixed = 0x1e000000 := by
  have h : DPSimd2Fixed = Int.lor B28 DPSimd1Fixed := rfl
  rw [h]
  simp only [pattern32_lor, pattern32_B28, pattern32_DPSimd1Fixed]
  decide

theorem pattern32_CompareAndBranchFixed : pattern32 CompareAndBranchFixed = 0x34000000 := by
  have h : CompareAndBranchFixed = Int.lor CompareBranchFixed B29 := rfl
  rw [h]
  simp only [pattern32_lor, pattern32_CompareBranchFixed, pattern32_B29]
  decide

theorem pattern32_CBZ : pattern32 CBZ = 0x14000000 := by
  have h : CBZ = CompareBranchFixed := rfl
  rw [h, pattern32_CompareBranchFixed]

theorem pattern32_CBNZ : pattern32 CBNZ = 0x15000000 := by
  have h : CBNZ = Int.lor CompareBranchFixed B24 := rfl
  rw [h]
  simp only [pattern32_lor, pattern32_CompareBranchFixed, pattern32_B24]
  decide

theorem pattern32_ConditionalBranchFixed : pattern32 ConditionalBranchFixed = 0x54000000 := by
  have h : ConditionalBranchFixed = Int.lor CompareBranchFixed B30 := rfl
  rw [h]
  simp only [pattern32_lor, pattern32_CompareBranchFixed, pattern32_B30]
  decide

theorem pattern32_BCOND : pattern32 BCOND = 0x54000000 := by
  have h : BCOND = ConditionalBranchFixed := rfl
  rw [h, pattern32_ConditionalBranchFixed]

theorem pattern32_ExceptionGenFixed : pattern32 ExceptionGenFixed = 0xd4000000 := by
  have h : ExceptionGenFixed = Int.lor (Int.lor CompareBranchFixed B31) B30 := rfl
  rw [h]
  simp only [pattern32_lor, pattern32_CompareBranchFixed, pattern32_B31, pattern32_B30]
  decide

theorem pattern32_SVC : pattern32 SVC = 0xd4000001 := by
  have h : SVC = Int.lor ExceptionGenFixed B0 := rfl
  rw [h]
  simp only [pattern32_lor, pattern32_ExceptionGenFixed, pattern32_B0]
  decide

theorem pattern32_BRK : pattern32 BRK = 0xd4200000 := by
  have h : BRK = Int.lor ExceptionGenFixed B21 := rfl
  rw [h]
  simp only [pattern32_lor, pattern32_ExceptionGenFixed, pattern32_B21]
  decide

theorem pattern32_HLT : pattern32 HLT = 0xd4400000 := by
  have h : HLT = Int.lor ExceptionGenFixed B22 := rfl
  rw [h]
  simp only [pattern32_lor, pattern32_ExceptionGenFixed, pattern32_B22]
  decide

theorem pattern32_SystemFixed : pattern32 SystemFixed = 0xd5000000 := by
  have h : SystemFixed = Int.lor (Int.lor (Int.lor CompareBranchFixed B31) B30) B24 := rfl
  rw [h]
  simp only [pattern32_lor, pattern32_CompareBranchFixed, pattern32_B31, pattern32_B30, pattern32_B24]
  decide

theorem pattern32_HINT : pattern32 HINT = 0xd503201f := by
  have h : HINT = Int.lor (Int.lor (Int.lor (Int.lor (Int.lor (Int.lor (Int.lor (Int.lor SystemFixed B17) B16) B13) B4) B3) B2) B1) B0 := rfl
  rw [h]
  simp only [pattern32_lor, pattern32_SystemFixed, pattern32_B17, pattern32_B16, pattern32_B13, pattern32_B4, pattern32_B3, pattern32_B2, pattern32_B1, pattern32_B0]
  decide

theorem pattern32_TestAndBranchFixed : pattern32 TestAndBranchFixed = 0x36000000 := by
  have h : TestAndBranchFixed = Int.lor (Int.lor CompareBranchFixed B29) B25 := rfl
  rw [h]
  simp only [pattern32_lor, pattern32_CompareBranchFixed, pattern32_B29, pattern32_B25]
  decide

theorem pattern32_TBZ : pattern32 TBZ = 0x36000000 := by
  have h : TBZ = TestAndBranchFixed := rfl
  rw [h, pattern32_TestAndBranchFixed]

theorem pattern32_TBNZ : pattern32 TBNZ = 0x37000000 := by
  have h : TBNZ = Int.lor TestAndBranchFixed B24 := rfl
  rw [h]
  simp only [pattern32_lor, pattern32_TestAndBranchFixed, pattern32_B24]
  decide

theorem pattern32_UnconditionalBranchFixed : pattern32 UnconditionalBranchFixed = 0x14000000 := by
  have h : UnconditionalBranchFixed = CompareBranchFixed := rfl
  rw [h, pattern32_CompareBranchFixed]

theorem pattern32_B : pattern32 B = 0x14000000 := by
  have h : B = UnconditionalBranchFixed := rfl
  rw [h, pattern32_UnconditionalBranchFixed]

theorem pattern32_BL : pattern32 BL = 0x94000000 := by
  have h : BL = Int.lor UnconditionalBranchFixed B31 := rfl
  rw [h]
  simp only [pattern32_lor, pattern32_UnconditionalBranchFixed, pattern32_B31]
  decide

theorem pattern32_UnconditionalBranchRegFixed : pattern32 UnconditionalBranchRegFixed = 0xd6000000 := by
  have h : UnconditionalBranchRegFixed = Int.lor (Int.lor (Int.lor CompareBranchFixed B31) B30) B25 := rfl
  rw [h]
  simp only [pattern32_lor, pattern32_CompareBranchFixed, pattern32_B31, pattern32_B30, pattern32_B25]
  decide

theorem pattern32_BR : pattern32 BR = 0xd61f0000 := by
  have h : BR = Int.lor (Int.lor (Int.lor (Int.lor (Int.lor UnconditionalBranchRegFixed B20) B19) B18) B17) B16 := rfl
  rw [h]
  simp only [pattern32_lor, pattern32_UnconditionalBranchRegFixed, pattern32_B20, pattern32_B19, pattern32_B18, pattern32_B17, pattern32_B16]
  decide

theorem pattern32_BLR : pattern32 BLR = 0xd63f0000 := by
  have h : BLR = Int.lor BR B21 := rfl
  rw [h]
  simp only [pattern32_lor, pattern32_BR, pattern32_B21]
  decide

theorem pattern32_RET : pattern32 RET = 0xd65f0000 := by
  have h : RET = Int.lor BR B22 := rfl
  rw [h]
  simp only [pattern32_lor, pattern32_BR, pattern32_B22]
  decide

theorem pattern32_LoadStoreRegFixed : pattern32 LoadStoreRegFixed = 0x38000000 := by
  have h : LoadStoreRegFixed = Int.lor (Int.lor LoadStoreFixed B29) B28 := rfl
  rw [h]
  simp only [pattern32_lor, pattern32_LoadStoreFixed, pattern32_B29, pattern32_B28]
  decide

theorem pattern32_STR : pattern32 STR = 0x38000000 := by
  have h : STR = LoadStoreRegFixed := rfl
  rw [h, pattern32_LoadStoreRegFixed]

theorem pattern32_LDR : pattern32 LDR = 0x38400000 := by
  have h : LDR = Int.lor LoadStoreRegFixed B22 := rfl
  rw [h]
  simp only [pattern32_lor, pattern32_LoadStoreRegFixed, pattern32_B22]
  decide

theorem pattern32_AddSubImmFixed : pattern32 AddSubImmFixed = 0x11000000 := by
  have h : AddSubImmFixed = Int.lor DPImmediateFixed B24 := rfl
  rw [h]
  simp only [pattern32_lor, pattern32_DPImmediateFixed, pattern32_B24]
  decide

theorem pattern32_ADDI : pattern32 ADDI = 0x11000000 := by
  have h : ADDI = AddSubImmFixed := rfl
  rw [h, pattern32_AddSubImmFixed]

theorem pattern32_SUBI : pattern32 SUBI = 0x51000000 := by
  have h : SUBI = Int.lor AddSubImmFixed B30 := rfl
  rw [h]
  simp only [pattern32_lor, pattern32_AddSubImmFixed, pattern32_B30]
  decide

theorem pattern32_LogicalImmFixed : pattern32 LogicalImmFixed = 0x12000000 := by
  have h : LogicalImmFixed = Int.lor DPImmediateFixed B25 := rfl
  rw [h]
  simp only [pattern32_lor, pattern32_DPImmediateFixed, pattern32_B25]
  decide

theorem pattern32_ANDI : pattern32 ANDI = 0x12000000 := by
  have h : ANDI = LogicalImmFixed := rfl
  rw [h, pattern32_LogicalImmFixed]

theorem pattern32_ORRI : pattern32 ORRI = 0x32000000 := by
  have h : ORRI = Int.lor LogicalImmFixed B29 := rfl
  rw [h]
  simp only [pattern32_lor, pattern32_LogicalImmFixed, pattern32_B29]
  decide

theorem pattern32_EORI : pattern32 EORI = 0x52000000 := by
  have h : EORI = Int.lor LogicalImmFixed B30 := rfl
  rw [h]
  simp only [pattern32_lor, pattern32_LogicalImmFixed, pattern32_B30]
  decide

theorem pattern32_ANDIS : pattern32 ANDIS = 0x72000000 := by
  have h : ANDIS = Int.lor (Int.lor LogicalImmFixed B30) B29 := rfl
  rw [h]
  simp only [pattern32_lor, pattern32_LogicalImmFixed, pattern32_B30, pattern32_B29]
  decide

theorem pattern32_MoveWideFixed : pattern32 MoveWideFixed = 0x12800000 := by
  have h : MoveWideFixed = Int.lor (Int.lor DPImmediateFixed B25) B23 := rfl
  rw [h]
  simp only [pattern32_lor, pattern32_DPImmediateFixed, pattern32_B25, pattern32_B23]
  decide

theorem pattern32_MOVN : pattern32 MOVN = 0x12800000 := by
  have h : MOVN = MoveWideFixed := rfl
  rw [h, pattern32_MoveWideFixed]

theorem pattern32_MOVZ : pattern32 MOVZ = 0x52800000 := by
  have h : MOVZ = Int.lor MoveWideFixed B30 := rfl
  rw [h]
  simp only [pattern32_lor, pattern32_MoveWideFixed, pattern32_B30]
  decide

theorem pattern32_MOVK : pattern32 MOVK = 0x72800000 := by
  have h : MOVK = Int.lor (Int.lor MoveWideFixed B30) B29 := rfl
  rw [h]
  simp only [pattern32_lor, pattern32_MoveWideFixed, pattern32_B30, pattern32_B29]
  decide

theorem pattern32_PCRelFixed : pattern32 PCRelFixed = 0x10000000 := by
  have h : PCRelFixed = DPImmediateFixed := rfl
  rw [h, pattern32_DPImmediateFixed]

theorem pattern32_ADR : pattern32 ADR = 0x10000000 := by
  have h : ADR = PCRelFixed := rfl
  rw [h, pattern32_PCRelFixed]

theorem pattern32_ADRP : pattern32 ADRP = 0x90000000 := by
  have h : ADRP = Int.lor PCRelFixed B31 := rfl
  rw [h]
  simp only [pattern32_lor, pattern32_PCRelFixed, pattern32_B31]
  decide

theorem pattern32_AddSubShiftExtFixed : pattern32 AddSubShiftExtFixed = 0x0b000000 := by
  have h : AddSubShiftExtFixed = Int.lor DPRegisterFixed B24 := rfl
  rw [h]
  simp only [pattern32_lor, pattern32_DPRegisterFixed, pattern32_B24]
  decide

theorem pattern32_ADD : pattern32 ADD = 0x0b000000 := by
  have h : ADD = AddSubShiftExtFixed := rfl
  rw [h, pattern32_AddSubShiftExtFixed]

theorem pattern32_SUB : pattern32 SUB = 0x4b000000 := by
  have h : SUB = Int.lor AddSubShiftExtFixed B30 := rfl
  rw [h]
  simp only [pattern32_lor, pattern32_AddSubShiftExtFixed, pattern32_B30]
  decide

theorem pattern32_LogicalShiftFixed : pattern32 LogicalShiftFixed = 0x0a000000 := by
  have h : LogicalShiftFixed = DPRegisterFixed := rfl
  rw [h, pattern32_DPRegisterFixed]

theorem pattern32_AND : pattern32 AND = 0x0a000000 := by
  have h : AND = LogicalShiftFixed := rfl
  rw [h, pattern32_LogicalShiftFixed]

theorem pattern32_BIC : pattern32 BIC = 0x0a200000 := by
  have h : BIC = Int.lor LogicalShiftFixed B21 := rfl
  rw [h]
  simp only [pattern32_lor, pattern32_LogicalShiftFixed, pattern32_B21]
  decide

theorem pattern32_ORR : pattern32 ORR = 0x2a000000 := by
  have h : ORR = Int.lor LogicalShiftFixed B29 := rfl
  rw [h]
  simp only [pattern32_lor, pattern32_LogicalShiftFixed, pattern32_B29]
  decide

theorem pattern32_ORN : pattern32 ORN = 0x2a200000 := by
  have h : ORN = Int.lor (Int.lor LogicalShiftFixed B29) B21 := rfl
  rw [h]
  simp only [pattern32_lor, pattern32_LogicalShiftFixed, pattern32_B29, pattern32_B21]
  decide

theorem pattern32_EOR : pattern32 EOR = 0x4a000000 := by
  have h : EOR = Int.lor LogicalShiftFixed B30 := rfl
  rw [h]
  simp only [pattern32_lor, pattern32_LogicalShiftFixed, pattern32_B30]
  decide

theorem pattern32_EON : pattern32 EON = 0x4a200000 := by
  have h : EON = Int.lor (Int.lor LogicalShiftFixed B30) B21 := rfl
  rw [h]
  simp only [pattern32_lor, pattern32_LogicalShiftFixed, pattern32_B30, pattern32_B21]
  decide

theorem pattern32_ANDS : pattern32 ANDS = 0x6a000000 := by
  have h : ANDS = Int.lor (Int.lor LogicalShiftFixed B30) B29 := rfl
  rw [h]
  simp only [pattern32_lor, pattern32_LogicalShiftFixed, pattern32_B30, pattern32_B29]
  decide

theorem pattern32_BICS : pattern32 BICS = 0x6a200000 := by
  have h : BICS = Int.lor (Int.lor (Int.lor LogicalShiftFixed B30) B29) B21 := rfl
  rw [h]
  simp only [pattern32_lor, pattern32_LogicalShiftFixed, pattern32_B30, pattern32_B29, pattern32_B21]
  decide

/-! ## The family predicates on the unsigned reading of the word -/

theorem Instr.IsDPImmediateOp_eq (instr : Instr) :
    instr.IsDPImmediateOp = decide (instr.word &&& 0x1c000000 = 0x10000000) := by
  have hm : DPImmediateMask = ((0x1c000000 : Nat) : Int) := by decide
  have h := instr.isOp_eq DPImmediateFixed 0x1c000000 (by decide)
  rw [pattern32_DPImmediateFixed] at h
  rw [Instr.IsDPImmediateOp, hm]
  exact h

theorem Instr.IsCompareBranchOp_eq (instr : Instr) :
    instr.IsCompareBranchOp = decide (instr.word &&& 0x1c000000 = 0x14000000) := by
  have hm : CompareBranchMask = ((0x1c000000 : Nat) : Int) := by decide
  have h := instr.isOp_eq CompareBranchFixed 0x1c000000 (by decide)
  rw [pattern32_CompareBranchFixed] at h
  rw [Instr.IsCompareBranchOp, hm]
  exact h

theorem Instr.IsLoadStoreOp_eq (instr : Instr) :
    instr.IsLoadStoreOp = decide (instr.word &&& 0x0a000000 = 0x08000000) := by
  have hm : LoadStoreMask = ((0x0a000000 : Nat) : Int) := by decide
  have h := instr.isOp_eq LoadStoreFixed 0x0a000000 (by decide)
  rw [pattern32_LoadStoreFixed] at h
  rw [Instr.IsLoadStoreOp, hm]
  exact h

theorem Instr.IsDPRegisterOp_eq (instr : Instr) :
    instr.IsDPRegisterOp = decide (instr.word &&& 0x0e000000 = 0x0a000000) := by
  have hm : DPRegisterMask = ((0x0e000000 : Nat) : Int) := by decide
  have h := instr.isOp_eq DPRegisterFixed 0x0e000000 (by decide)
  rw [pattern32_DPRegisterFixed] at h
  rw [Instr.IsDPRegisterOp, hm]
  exact h

theorem Instr.IsDPSimd1Op_eq (instr : Instr) :
    instr.IsDPSimd1Op = decide (instr.word &&& 0x1e000000 = 0x0e000000) := by
  have hm : DPSimd1Mask = ((0x1e000000 : Nat) : Int) := by decide
  have h := instr.isOp_eq DPSimd1Fixed 0x1e000000 (by decide)
  rw [pattern32_DPSimd1Fixed] at h
  rw [Instr.IsDPSimd1Op, hm]
  exact h

theorem Instr.IsDPSimd2Op_eq (instr : Instr) :
    instr.IsDPSimd2Op = decide (instr.word &&& 0x1e000000 = 0x1e000000) := by
  have hm : DPSimd2Mask = ((0x1e000000 : Nat) : Int) := by decide
  have h := instr.isOp_eq DPSimd2Fixed 0x1e000000 (by decide)
  rw [pattern32_DPSimd2Fixed] at h
  rw [Instr.IsDPSimd2Op, hm]
  exact h

theorem Instr.IsCompareAndBranchOp_eq (instr : Instr) :
    instr.IsCompareAndBranchOp = decide (instr.word &&& 0x7e000000 = 0x34000000) := by
  have hm : CompareAndBranchMask = ((0x7e000000 : Nat) : Int) := by decide
  have h := instr.isOp_eq CompareAndBranchFixed 0x7e000000 (by decide)
  rw [pattern32_CompareAndBranchFixed] at h
  rw [Instr.IsCompareAndBranchOp, hm]
  exact h

theorem Instr.IsConditionalBranchOp_eq (instr : Instr) :
    instr.IsConditionalBranchOp = decide (instr.word &&& 0xfe000000 = 0x54000000) := by
  have hm : ConditionalBranchMask = ((0xfe000000 : Nat) : Int) := by decide
  have h := instr.isOp_eq ConditionalBranchFixed 0xfe000000 (by decide)
  rw [pattern32_ConditionalBranchFixed] at h
  rw [Instr.IsConditionalBranchOp, hm]
  exact h

theorem Instr.IsExceptionGenOp_eq (instr : Instr) :
    instr.IsExceptionGenOp = decide (instr.word &&& 0xff000000 = 0xd4000000) := by
  have hm : ExceptionGenMask = ((0xff000000 : Nat) : Int) := by decide
  have h := instr.isOp_eq ExceptionGenFixed 0xff000000 (by decide)
  rw [pattern32_ExceptionGenFixed] at h
  rw [Instr.IsExceptionGenOp, hm]
  exact h

theorem Instr.IsSystemOp_eq (instr : Instr) :
    instr.IsSystemOp = decide (instr.word &&& 0xffc00000 = 0xd5000000) := by
  have hm : SystemMask = ((0xffc00000 : Nat) : Int) := by decide
  have h := instr.isOp_eq SystemFixed 0xffc00000 (by decide)
  rw [pattern32_SystemFixed] at h
  rw [Instr.IsSystemOp, hm]
  exact h

theorem Instr.IsTestAndBranchOp_eq (instr : Instr) :
    instr.IsTestAndBranchOp = decide (instr.word &&& 0x7e000000 = 0x36000000) := by
  have hm : TestAndBranchMask = ((0x7e000000 : Nat) : Int) := by decide
  have h := instr.isOp_eq TestAndBranchFixed 0x7e000000 (by decide)
  rw [pattern32_TestAndBranchFixed] at h
  rw [Instr.IsTestAndBranchOp, hm]
  exact h

theorem Instr.IsUnconditionalBranchOp_eq (instr : Instr) :
    instr.IsUnconditionalBranchOp = decide (instr.word &&& 0x7c000000 = 0x14000000) := by
  have hm : UnconditionalBranchMask = ((0x7c000000 : Nat) : Int) := by decide
  have h := instr.isOp_eq UnconditionalBranchFixed 0x7c000000 (by decide)
  rw [pattern32_UnconditionalBranchFixed] at h
  rw [Instr.IsUnconditionalBranchOp, hm]
  exact h

theorem Instr.IsUnconditionalBranchRegOp_eq (instr : Instr) :
    instr.IsUnconditionalBranchRegOp = decide (instr.word &&& 0xfe000000 = 0xd6000000) := by
  have hm : UnconditionalBranchRegMask = ((0xfe000000 : Nat) : Int) := by decide
  have h := instr.isOp_eq UnconditionalBranchRegFixed 0xfe000000 (by decide)
  rw [pattern32_UnconditionalBranchRegFixed] at h
  rw [Instr.IsUnconditionalBranchRegOp, hm]
  exact h

theorem Instr.IsLoadStoreRegOp_eq (instr : Instr) :
    instr.IsLoadStoreRegOp = decide (instr.word &&& 0x3a000000 = 0x38000000) := by
  have hm : LoadStoreRegMask = ((0x3a000000 : Nat) : Int) := by decide
  have h := instr.isOp_eq LoadStoreRegFixed 0x3a000000 (by decide)
  rw [pattern32_LoadStoreRegFixed] at h
  rw [Instr.IsLoadStoreRegOp, hm]
  exact h

theorem Instr.IsAddSubImmOp_eq (instr : Instr) :
    instr.IsAddSubImmOp = decide (instr.word &&& 0x1f000000 = 0x11000000) := by
  have hm : AddSubImmMask = ((0x1f000000 : Nat) : Int) := by decide
  have h := instr.isOp_eq AddSubImmFixed 0x1f000000 (by decide)
  rw [pattern32_AddSubImmFixed] at h
  rw [Instr.IsAddSubImmOp, hm]
  exact h

theorem Instr.IsLogicalImmOp_eq (instr : Instr) :
    instr.IsLogicalImmOp = decide (instr.word &&& 0x1f800000 = 0x12000000) := by
  have hm : LogicalImmMask = ((0x1f800000 : Nat) : Int) := by decide
  have h := instr.isOp_eq LogicalImmFixed 0x1f800000 (by decide)
  rw [pattern32_LogicalImmFixed] at h
  rw [Instr.IsLogicalImmOp, hm]
  exact h

theorem Instr.IsMoveWideOp_eq (instr : Instr) :
    instr.IsMoveWideOp = decide (instr.word &&& 0x1f800000 = 0x12800000) := by
  have hm : MoveWideMask = ((0x1f800000 : Nat) : Int) := by decide
  have h := instr.isOp_eq MoveWideFixed 0x1f800000 (by decide)
  rw [pattern32_MoveWideFixed] at h
  rw [Instr.IsMoveWideOp, hm]
  exact h

theorem Instr.IsPCRelOp_eq (instr : Instr) :
    instr.IsPCRelOp = decide (instr.word &&& 0x1f000000 = 0x10000000) := by
  have hm : PCRelMask = ((0x1f000000 : Nat) : Int) := by decide
  have h := instr.isOp_eq PCRelFixed 0x1f000000 (by decide)
  rw [pattern32_PCRelFixed] at h
  rw [Instr.IsPCRelOp, hm]
  exact h

theorem Instr.IsAddSubShiftExtOp_eq (instr : Instr) :
    instr.IsAddSubShiftExtOp = decide (instr.word &&& 0x1f000000 = 0x0b000000) := by
  have hm : AddSubShiftExtMask = ((0x1f000000 : Nat) : Int) := by decide
  have h := instr.isOp_eq AddSubShiftExtFixed 0x1f000000 (by decide)
  rw [pattern32_AddSubShiftExtFixed] at h
  rw [Instr.IsAddSubShiftExtOp, hm]
  exact h

theorem Instr.IsLogicalShiftOp_eq (instr : Instr) :
    instr.IsLogicalShiftOp = decide (instr.word &&& 0x1f000000 = 0x0a000000) := by
  have hm : LogicalShiftMask = ((0x1f000000 : Nat) : Int) := by decide
  have h := instr.isOp_eq LogicalShiftFixed 0x1f000000 (by decide)
  rw [pattern32_LogicalShiftFixed] at h
  rw [Instr.IsLogicalShiftOp, hm]
  exact h

/-! ## Shift form and extend form -/

/-- C11. For every instruction word exactly one of `IsShift` and `IsExtend` is
true (`IsExtend = not IsShift`); a word satisfying `IsLogicalShiftOp` is in shift
form whatever bit 21 is; for a word not satisfying `IsLogicalShiftOp`, `IsShift`
holds iff bit 21 is 0 and `IsExtend` holds iff bit 21 is 1. -/
theorem IsShift_xor_IsExtend (instr : Instr) :
    instr.IsExtend = (!instr.IsShift)
    ∧ (instr.IsShift = true ∨ instr.IsExtend = true)
    ∧ ¬ (instr.IsShift = true ∧ instr.IsExtend = true)
    ∧ (instr.IsLogicalShiftOp = true → instr.IsShift = true ∧ instr.IsExtend = false)
    ∧ (instr.IsLogicalShiftOp = false →
        (instr.IsShift = true ↔ instr.Bit 21 = 0)
        ∧ (instr.IsExtend = true ↔ instr.Bit 21 = 1)) := by
  have hb := instr.Bit_zero_or_one 21 (by decide)
  unfold Instr.IsShift Instr.IsExtend
  simp only [kAddShiftExtendShift]
  rcases hb with h | h <;> cases hl : instr.IsLogicalShiftOp <;> simp [h]

/-- Witness for C11: the BIC word 0x0A200000 (logical shift, bit 21 set) is in
shift form; the add/sub word 0x0B200000 (bit 21 set) is in extend form and
0x0B000000 (bit 21 clear) in shift form. -/
theorem IsShift_xor_IsExtend_witness :
    ((Instr.ofWord 0x0A200000).IsLogicalShiftOp = true ∧ (Instr.ofWord 0x0A200000).Bit 21 = 1
      ∧ (Instr.ofWord 0x0A200000).IsShift = true ∧ (Instr.ofWord 0x0A200000).IsExtend = false)
    ∧ ((Instr.ofWord 0x0B200000).IsLogicalShiftOp = false
      ∧ (Instr.ofWord 0x0B200000).Bit 21 = 1 ∧ (Instr.ofWord 0x0B200000).IsExtend = true)
    ∧ ((Instr.ofWord 0x0B000000).IsLogicalShiftOp = false
      ∧ (Instr.ofWord 0x0B000000).Bit 21 = 0 ∧ (Instr.ofWord 0x0B000000).IsShift = true) :=
  ⟨⟨by decide, by decide,
      ((IsShift_xor_IsExtend (Instr.ofWord 0x0A200000)).2.2.2.1 (by decide)).1,
      ((IsShift_xor_IsExtend (Instr.ofWord 0x0A200000)).2.2.2.1 (by decide)).2⟩,
   ⟨by decide, by decide,
      ((IsShift_xor_IsExtend (Instr.ofWord 0x0B200000)).2.2.2.2 (by decide)).2.2 (by decide)⟩,
   ⟨by decide, by decide,
      ((IsShift_xor_IsExtend (Instr.ofWord 0x0B000000)).2.2.2.2 (by decide)).1.2 (by decide)⟩⟩

/-! ## Shift amount and extend amount -/

theorem Instr.ShiftAmountField_eq (instr : Instr) :
    instr.ShiftAmountField = (((instr.word / 2 ^ 10) % 2 ^ 6 : Nat) : Int) :=
  instr.Bits_eq kImm6Shift kImm6Bits (by decide) (by decide)

theorem Instr.ExtShiftAmountField_eq (instr : Instr) :
    instr.ExtShiftAmountField = (((instr.word / 2 ^ 10) % 2 ^ 3 : Nat) : Int) :=
  instr.Bits_eq kImm3Shift kImm3Bits (by decide) (by decide)

/-- C12, as stated, fails: the words 0x00000000 and 0x00000400 differ only in
bit 10, which belongs to the shift-amount field (bits 10..15), and their extend
amounts are 0 and 1; both fields start at bit 10. -/
theorem ExtShiftAmount_overlap_counterexample :
    kImm3Shift = kImm6Shift
    ∧ (∀ i : Nat, ¬ (kImm6Shift ≤ i ∧ i < kImm6Shift + kImm6Bits) →
        (Instr.ofWord 0x00000000).word.testBit i = (Instr.ofWord 0x00000400).word.testBit i)
    ∧ (Instr.ofWord 0x00000000).ExtShiftAmountField = 0
    ∧ (Instr.ofWord 0x00000400).ExtShiftAmountField = 1
    ∧ (Instr.ofWord 0x00000000).ExtShiftAmountField
        ≠ (Instr.ofWord 0x00000400).ExtShiftAmountField := by
  refine ⟨rfl, ?_, by decide, by decide, by decide⟩
  intro i hi
  have e0 : (Instr.ofWord 0x00000000).word = 0 := by decide
  have e1 : (Instr.ofWord 0x00000400).word = 2 ^ 10 := by decide
  rw [e0, e1, Nat.zero_testBit, Nat.testBit_two_pow]
  have : ¬ (10 = i) := by
    intro h
    subst h
    exact hi (by decide)
  simp [this]

/-- C12, amended. The 3-bit extend amount is read from bits 10..12, the low three
bits of the 6-bit shift-amount field (bits 10..15): `ExtShiftAmountField` is
`ShiftAmountField mod 8`, and two words that differ only in bits 13..15 have the
same extend amount. -/
theorem ExtShiftAmount_low_bits_of_ShiftAmount (w1 w2 : Instr) :
    kImm3Shift = kImm6Shift
    ∧ w1.ShiftAmountField = (((w1.word / 2 ^ 10) % 2 ^ 6 : Nat) : Int)
    ∧ w1.ExtShiftAmountField = (((w1.word / 2 ^ 10) % 2 ^ 3 : Nat) : Int)
    ∧ w1.ExtShiftAmountField = w1.ShiftAmountField % 8
    ∧ ((∀ i : Nat, ¬ (13 ≤ i ∧ i < 16) → w1.word.testBit i = w2.word.testBit i) →
        w1.ExtShiftAmountField = w2.ExtShiftAmountField) := by
  refine ⟨rfl, w1.ShiftAmountField_eq, w1.ExtShiftAmountField_eq, ?_, ?_⟩
  · rw [w1.ShiftAmountField_eq, w1.ExtShiftAmountField_eq]
    norm_num
  · intro h
    rw [w1.ExtShiftAmountField_eq, w2.ExtShiftAmountField_eq]
    congr 1
    apply Nat.eq_of_testBit_eq
    intro j
    rw [Nat.testBit_mod_two_pow, Nat.testBit_mod_two_pow, ← Nat.shiftRight_eq_div_pow,
      ← Nat.shiftRight_eq_div_pow, Nat.testBit_shiftRight, Nat.testBit_shiftRight]
    by_cases hj : j < 3
    · rw [h (10 + j) (by omega)]
    · simp [hj]

/-- Witness for C12 (amended): the words 0x00000000 and 0x00002000 differ only in
bit 13. -/
theorem ExtShiftAmount_low_bits_of_ShiftAmount_witness :
    (∀ i : Nat, ¬ (13 ≤ i ∧ i < 16) →
        (Instr.ofWord 0x00000000).word.testBit i = (Instr.ofWord 0x00002000).word.testBit i)
    ∧ (Instr.ofWord 0x00000000).ShiftAmountField ≠ (Instr.ofWord 0x00002000).ShiftAmountField
    ∧ (Instr.ofWord 0x00000000).ExtShiftAmountField
        = (Instr.ofWord 0x00002000).ExtShiftAmountField :=
  have hyp : ∀ i : Nat, ¬ (13 ≤ i ∧ i < 16) →
      (Instr.ofWord 0x00000000).word.testBit i = (Instr.ofWord 0x00002000).word.testBit i := by
    intro i hi
    have e0 : (Instr.ofWord 0x00000000).word = 0 := by decide
    have e1 : (Instr.ofWord 0x00002000).word = 2 ^ 13 := by decide
    rw [e0, e1, Nat.zero_testBit, Nat.testBit_two_pow]
    have : ¬ (13 = i) := by
      intro h
      subst h
      exact hi (by decide)
    simp [this]
  ⟨hyp, by decide,
    (ExtShiftAmount_low_bits_of_ShiftAmount (Instr.ofWord 0x00000000)
      (Instr.ofWord 0x00002000)).2.2.2.2 hyp⟩

/-! ## Mutual exclusion of the family predicates -/

/-- Two mask tests that disagree on a bit common to both masks cannot both pass. -/
theorem mask_conflict (w : Nat) (a b : Nat × Nat) (hne : a.2 &&& b.1 ≠ b.2 &&& a.1) :
    ¬ (decide (w &&& a.1 = a.2) = true ∧ decide (w &&& b.1 = b.2) = true) := by
  rintro ⟨h1, h2⟩
  have h1 := of_decide_eq_true h1
  have h2 := of_decide_eq_true h2
  apply hne
  rw [← h1, ← h2]
  apply Nat.eq_of_testBit_eq
  intro i
  simp only [Nat.testBit_and]
  cases w.testBit i <;> cases a.1.testBit i <;> cases b.1.testBit i <;> rfl

theorem pairwise_mask_tests (w : Nat) (table : List (Nat × Nat))
    (h : List.Pairwise (fun a b : Nat × Nat => a.2 &&& b.1 ≠ b.2 &&& a.1) table) :
    List.Pairwise (fun a b : Bool => ¬ (a = true ∧ b = true))
      (table.map fun mf => decide (w &&& mf.1 = mf.2)) := by
  rw [List.pairwise_map]
  exact h.imp fun {a b} hne => mask_conflict w a b hne

/-- C13. The six top-level family predicates are pairwise mutually exclusive: no
word satisfies two different predicates among `IsDPImmediateOp`,
`IsCompareBranchOp`, `IsLoadStoreOp`, `IsDPRegisterOp`, `IsDPSimd1Op` and
`IsDPSimd2Op`. -/
theorem top_level_families_exclusive (instr : Instr) :
    List.Pairwise (fun a b : Bool => ¬ (a = true ∧ b = true))
      [instr.IsDPImmediateOp, instr.IsCompareBranchOp, instr.IsLoadStoreOp,
       instr.IsDPRegisterOp, instr.IsDPSimd1Op, instr.IsDPSimd2Op] := by
  rw [instr.IsDPImmediateOp_eq, instr.IsCompareBranchOp_eq, instr.IsLoadStoreOp_eq,
    instr.IsDPRegisterOp_eq, instr.IsDPSimd1Op_eq, instr.IsDPSimd2Op_eq]
  exact pairwise_mask_tests instr.word
    [(0x1c000000, 0x10000000), (0x1c000000, 0x14000000), (0x0a000000, 0x08000000),
     (0x0e000000, 0x0a000000), (0x1e000000, 0x0e000000), (0x1e000000, 0x1e000000)]
    (by decide)

/-- C14. The fourteen operation-level predicates are pairwise mutually exclusive:
no word satisfies two different predicates among `IsCompareAndBranchOp`,
`IsConditionalBranchOp`, `IsExceptionGenOp`, `IsSystemOp`, `IsTestAndBranchOp`,
`IsUnconditionalBranchOp`, `IsUnconditionalBranchRegOp`, `IsLoadStoreRegOp`,
`IsAddSubImmOp`, `IsLogicalImmOp`, `IsMoveWideOp`, `IsPCRelOp`,
`IsAddSubShiftExtOp` and `IsLogicalShiftOp`. -/
theorem operation_predicates_exclusive (instr : Instr) :
    List.Pairwise (fun a b : Bool => ¬ (a = true ∧ b = true))
      [instr.IsCompareAndBranchOp, instr.IsConditionalBranchOp, instr.IsExceptionGenOp,
       instr.IsSystemOp, instr.IsTestAndBranchOp, instr.IsUnconditionalBranchOp,
       instr.IsUnconditionalBranchRegOp, instr.IsLoadStoreRegOp, instr.IsAddSubImmOp,
       instr.IsLogicalImmOp, instr.IsMoveWideOp, instr.IsPCRelOp,
       instr.IsAddSubShiftExtOp, instr.IsLogicalShiftOp] := by
  rw [instr.IsCompareAndBranchOp_eq, instr.IsConditionalBranchOp_eq,
    instr.IsExceptionGenOp_eq, instr.IsSystemOp_eq, instr.IsTestAndBranchOp_eq,
    instr.IsUnconditionalBranchOp_eq, instr.IsUnconditionalBranchRegOp_eq,
    instr.IsLoadStoreRegOp_eq, instr.IsAddSubImmOp_eq, instr.IsLogicalImmOp_eq,
    instr.IsMoveWideOp_eq, instr.IsPCRelOp_eq, instr.IsAddSubShiftExtOp_eq,
    instr.IsLogicalShiftOp_eq]
  exact pairwise_mask_tests instr.word
    [(0x7e000000, 0x34000000), (0xfe000000, 0x54000000), (0xff000000, 0xd4000000),
     (0xffc00000, 0xd5000000), (0x7e000000, 0x36000000), (0x7c000000, 0x14000000),
     (0xfe000000, 0xd6000000), (0x3a000000, 0x38000000), (0x1f000000, 0x11000000),
     (0x1f800000, 0x12000000), (0x1f800000, 0x12800000), (0x1f000000, 0x10000000),
     (0x1f000000, 0x0b000000), (0x1f000000, 0x0a000000)]
    (by decide)

/-! ## The RET form -/

/-- Masking with a shifted mask is masking after the shift. -/
theorem and_shiftLeft_mask (w m k : Nat) : w &&& (m <<< k) = ((w >>> k) &&& m) <<< k := by
  apply Nat.eq_of_testBit_eq
  intro i
  rw [Nat.testBit_and, Nat.testBit_shiftLeft, Nat.testBit_shiftLeft, Nat.testBit_and,
    Nat.testBit_shiftRight]
  by_cases hi : i ≥ k
  · have : k + (i - k) = i := by omega
    simp [hi, this]
  · simp [hi]

/-- C15. Every word whose bits 31..25 equal those of
`UnconditionalBranchRegFixed | B22` (0xD6400000), whatever its remaining bits,
satisfies `IsUnconditionalBranchRegOp` and does not satisfy
`IsCompareAndBranchOp`. -/
theorem RET_form_is_branch_reg (instr : Instr)
    (h : instr.word / 2 ^ 25 = 0xD6400000 / 2 ^ 25) :
    pattern32 (Int.lor UnconditionalBranchRegFixed B22) = 0xD6400000
    ∧ instr.IsUnconditionalBranchRegOp = true
    ∧ instr.IsCompareAndBranchOp = false := by
  have hs : instr.word >>> 25 = 0x6B := by
    rw [Nat.shiftRight_eq_div_pow, h]
    decide
  have e1 : (0xfe000000 : Nat) = 0x7f <<< 25 := by decide
  have e2 : (0x7e000000 : Nat) = 0x3f <<< 25 := by decide
  refine ⟨?_, ?_, ?_⟩
  · rw [pattern32_lor, pattern32_UnconditionalBranchRegFixed, pattern32_B22]
    decide
  · rw [instr.IsUnconditionalBranchRegOp_eq, e1, and_shiftLeft_mask, hs]
    decide
  · rw [instr.IsCompareAndBranchOp_eq, e2, and_shiftLeft_mask, hs]
    decide

/-- Witness for C15: the word holding `UnconditionalBranchRegFixed | B22` and the
word holding the RET constant (0xD65F0000). -/
theorem RET_form_is_branch_reg_witness :
    ((Instr.ofBits (Int.lor UnconditionalBranchRegFixed B22)).word = 0xD6400000
      ∧ (Instr.ofBits (Int.lor UnconditionalBranchRegFixed B22)).IsUnconditionalBranchRegOp
          = true
      ∧ (Instr.ofBits (Int.lor UnconditionalBranchRegFixed B22)).IsCompareAndBranchOp = false)
    ∧ ((Instr.ofBits RET).word = 0xD65F0000
      ∧ (Instr.ofBits RET).IsUnconditionalBranchRegOp = true
      ∧ (Instr.ofBits RET).IsCompareAndBranchOp = false) :=
  have p1 : (Instr.ofBits (Int.lor UnconditionalBranchRegFixed B22)).word = 0xD6400000 := by
    rw [Instr.word_ofBits, pattern32_lor, pattern32_UnconditionalBranchRegFixed, pattern32_B22]
    decide
  have p2 : (Instr.ofBits RET).word = 0xD65F0000 := by
    rw [Instr.word_ofBits, pattern32_RET]
  ⟨⟨p1, (RET_form_is_branch_reg _ (by rw [p1])).2⟩,
   ⟨p2, (RET_form_is_branch_reg _ (by rw [p2]; decide)).2⟩⟩

/-! ## The canonical no-op and breakpoint instructions -/

theorem Instr.ofBits_congr {a b : Int} (h : pattern32 a = pattern32 b) :
    Instr.ofBits a = Instr.ofBits b := by
  have : ∀ (x y : Instr), x.word = y.word → x = y := by
    intro x y hxy
    cases x
    cases y
    cases hxy
    rfl
  exact this _ _ h

theorem pattern32_kNopInstruction : pattern32 Instr.kNopInstruction = 0xD503201F := by
  rw [Instr.kNopInstruction, pattern32_wrap32, pattern32_HINT]

/-- C16. The canonical no-op constant `kNopInstruction` is the 32-bit pattern
0xD503201F: it satisfies `IsSystemOp`, its hint CRm and hint op2 fields are both
0, and `HINT | (CRm << kHintCRmShift) | (op2 << kHintOp2Shift)` built from the
decoded fields is the identical 32-bit word. -/
theorem kNopInstruction_reencodes :
    pattern32 Instr.kNopInstruction = 0xD503201F
    ∧ (Instr.ofBits Instr.kNopInstruction).IsSystemOp = true
    ∧ (Instr.ofBits Instr.kNopInstruction).Bits kHintCRmShift kHintCRmBits = 0
    ∧ (Instr.ofBits Instr.kNopInstruction).Bits kHintOp2Shift kHintOp2Bits = 0
    ∧ Instr.ofBits (Int.lor (Int.lor HINT
          (shl32 ((Instr.ofBits Instr.kNopInstruction).Bits kHintCRmShift kHintCRmBits)
            kHintCRmShift))
          (shl32 ((Instr.ofBits Instr.kNopInstruction).Bits kHintOp2Shift kHintOp2Bits)
            kHintOp2Shift))
        = Instr.ofBits Instr.kNopInstruction := by
  have hp := pattern32_kNopInstruction
  have hcrm : (Instr.ofBits Instr.kNopInstruction).Bits kHintCRmShift kHintCRmBits = 0 := by
    rw [Instr.Bits_eq _ _ _ (by decide) (by decide), Instr.word_ofBits, hp]
    decide
  have hop2 : (Instr.ofBits Instr.kNopInstruction).Bits kHintOp2Shift kHintOp2Bits = 0 := by
    rw [Instr.Bits_eq _ _ _ (by decide) (by decide), Instr.word_ofBits, hp]
    decide
  refine ⟨hp, ?_, hcrm, hop2, ?_⟩
  · rw [Instr.IsSystemOp_eq, Instr.word_ofBits, hp]
    decide
  · apply Instr.ofBits_congr
    have z1 : pattern32 (shl32 0 kHintCRmShift) = 0 := by decide
    have z2 : pattern32 (shl32 0 kHintOp2Shift) = 0 := by decide
    rw [hcrm, hop2, pattern32_lor, pattern32_lor, pattern32_HINT, z1, z2, hp]
    decide

theorem pattern32_kBreakPointInstruction :
    pattern32 Instr.kBreakPointInstruction = 0xD45BD600 := by
  rw [Instr.kBreakPointInstruction, pattern32_wrap32, pattern32_lor, pattern32_HLT,
    pattern32_natCast]
  decide

/-- C17. The canonical breakpoint constant `kBreakPointInstruction` is an HLT form
carrying the fixed payload: its 32-bit pattern is 0xD45BD600, it satisfies
`IsExceptionGenOp` and `IsCompareBranchOp` and not `IsSystemOp`, its `Imm16Field`
is `kImmExceptionIsDebug` (0xdeb0), clearing its 16-bit immediate field gives
exactly HLT, and `kBreakPointInstructionSize` is `kInstrSize`, 4. -/
theorem kBreakPointInstruction_is_HLT_form :
    pattern32 Instr.kBreakPointInstruction = 0xD45BD600
    ∧ (Instr.ofBits Instr.kBreakPointInstruction).IsExceptionGenOp = true
    ∧ (Instr.ofBits Instr.kBreakPointInstruction).IsCompareBranchOp = true
    ∧ (Instr.ofBits Instr.kBreakPointInstruction).IsSystemOp = false
    ∧ (Instr.ofBits Instr.kBreakPointInstruction).Imm16Field = (kImmExceptionIsDebug : Int)
    ∧ kImmExceptionIsDebug = 0xdeb0
    ∧ pattern32 Instr.kBreakPointInstruction &&& (0xFFFFFFFF ^^^ (0xFFFF <<< kImm16Shift))
        = pattern32 HLT
    ∧ Instr.kBreakPointInstructionSize = Instr.kInstrSize
    ∧ Instr.kInstrSize = 4 := by
  have hp := pattern32_kBreakPointInstruction
  refine ⟨hp, ?_, ?_, ?_, ?_, rfl, ?_, rfl, rfl⟩
  · rw [Instr.IsExceptionGenOp_eq, Instr.word_ofBits, hp]
    decide
  · rw [Instr.IsCompareBranchOp_eq, Instr.word_ofBits, hp]
    decide
  · rw [Instr.IsSystemOp_eq, Instr.word_ofBits, hp]
    decide
  · rw [Instr.Imm16Field, Instr.Bits_eq _ _ _ (by decide) (by decide), Instr.word_ofBits, hp]
    decide
  · rw [hp, pattern32_HLT]
    decide

/-! ## Registers -/

/-- C18 at the enumerator `V23`: its value is 24, the value of `V24`, so the 32
names are not pairwise distinct and no name has index 23; every other `Vn` has
value `n`. -/
theorem VRegister_V23_is_24 :
    V23 = 24 ∧ V23 = V24 ∧ V23 ≠ 23
    ∧ ¬ vRegisters.Nodup
    ∧ (23 : Int) ∉ vRegisters
    ∧ vRegisters.length = 32
    ∧ (∀ n : Nat, n < 32 → n ≠ 23 → vRegisters[n]? = some (n : Int)) := by
  decide

/-- C19. `ConcreteRegister` maps SP (32) and ZR (33) to R31 (31) and every other
register to itself; for every register value in 0..33 the result is in 0..31; and
`ConcreteRegister` is idempotent. -/
theorem ConcreteRegister_spec :
    (SP = 32 ∧ ZR = 33 ∧ R31 = 31 ∧ ConcreteRegister SP = R31 ∧ ConcreteRegister ZR = R31)
    ∧ (∀ r : Int, r ≠ SP → r ≠ ZR → ConcreteRegister r = r)
    ∧ (∀ r : Int, 0 ≤ r → r ≤ 33 → 0 ≤ ConcreteRegister r ∧ ConcreteRegister r ≤ 31)
    ∧ (∀ r : Int, ConcreteRegister (ConcreteRegister r) = ConcreteRegister r) := by
  refine ⟨⟨rfl, rfl, rfl, by decide, by decide⟩, ?_, ?_, ?_⟩
  · intro r h1 h2
    unfold ConcreteRegister
    rw [if_neg]
    rintro (h | h)
    · exact h2 h
    · exact h1 h
  · intro r h0 h33
    unfold ConcreteRegister SP ZR R31
    split_ifs with h
    · exact ⟨by decide, by decide⟩
    · constructor
      · exact h0
      · omega
  · intro r
    unfold ConcreteRegister
    by_cases h : r = ZR ∨ r = SP
    · rw [if_pos h]
      exact ite_self R31
    · rw [if_neg h, if_neg h]

/-- Witness for C19: the registers R5, R31, SP and ZR. -/
theorem ConcreteRegister_spec_witness :
    (R5 ≠ SP ∧ R5 ≠ ZR ∧ ConcreteRegister R5 = R5)
    ∧ ((0 : Int) ≤ ZR ∧ ZR ≤ 33 ∧ 0 ≤ ConcreteRegister ZR ∧ ConcreteRegister ZR ≤ 31)
    ∧ ((0 : Int) ≤ SP ∧ SP ≤ 33 ∧ 0 ≤ ConcreteRegister SP ∧ ConcreteRegister SP ≤ 31)
    ∧ ConcreteRegister R31 = R31 :=
  ⟨⟨by decide, by decide, ConcreteRegister_spec.2.1 R5 (by decide) (by decide)⟩,
   ⟨by decide, by decide, ConcreteRegister_spec.2.2.1 ZR (by decide) (by decide)⟩,
   ⟨by decide, by decide, ConcreteRegister_spec.2.2.1 SP (by decide) (by decide)⟩,
   ConcreteRegister_spec.2.1 R31 (by decide) (by decide)⟩

/-! ## The named operation constants -/

/-- C20 at the constants CBZ and CBNZ: they are built from `CompareBranchFixed`
(0x14000000), not from `CompareAndBranchFixed` (0x34000000), so the words holding
them do not satisfy `IsCompareAndBranchOp`; they satisfy `IsUnconditionalBranchOp`,
CBZ being the same value as B. Every other named operation constant satisfies its
own family's predicate. -/
theorem CBZ_CBNZ_not_compare_and_branch :
    pattern32 CBZ = 0x14000000
    ∧ pattern32 CBNZ = 0x15000000
    ∧ pattern32 CompareAndBranchFixed = 0x34000000
    ∧ pattern32 CBZ = pattern32 B
    ∧ (Instr.ofBits CBZ).IsUnconditionalBranchOp = true
    ∧ (Instr.ofBits CBNZ).IsUnconditionalBranchOp = true
    ∧ (Instr.ofBits CBZ).IsCompareAndBranchOp = false
    ∧ (Instr.ofBits CBNZ).IsCompareAndBranchOp = false
    ∧ (Instr.ofBits BCOND).IsConditionalBranchOp = true
    ∧ (Instr.ofBits SVC).IsExceptionGenOp = true
    ∧ (Instr.ofBits BRK).IsExceptionGenOp = true
    ∧ (Instr.ofBits HLT).IsExceptionGenOp = true
    ∧ (Instr.ofBits HINT).IsSystemOp = true
    ∧ (Instr.ofBits TBZ).IsTestAndBranchOp = true
    ∧ (Instr.ofBits TBNZ).IsTestAndBranchOp = true
    ∧ (Instr.ofBits B).IsUnconditionalBranchOp = true
    ∧ (Instr.ofBits BL).IsUnconditionalBranchOp = true
    ∧ (Instr.ofBits BR).IsUnconditionalBranchRegOp = true
    ∧ (Instr.ofBits BLR).IsUnconditionalBranchRegOp = true
    ∧ (Instr.ofBits RET).IsUnconditionalBranchRegOp = true
    ∧ (Instr.ofBits STR).IsLoadStoreRegOp = true
    ∧ (Instr.ofBits LDR).IsLoadStoreRegOp = true
    ∧ (Instr.ofBits ADDI).IsAddSubImmOp = true
    ∧ (Instr.ofBits SUBI).IsAddSubImmOp = true
    ∧ (Instr.ofBits ANDI).IsLogicalImmOp = true
    ∧ (Instr.ofBits ORRI).IsLogicalImmOp = true
    ∧ (Instr.ofBits EORI).IsLogicalImmOp = true
    ∧ (Instr.ofBits ANDIS).IsLogicalImmOp = true
    ∧ (Instr.ofBits MOVN).IsMoveWideOp = true
    ∧ (Instr.ofBits MOVZ).IsMoveWideOp = true
    ∧ (Instr.ofBits MOVK).IsMoveWideOp = true
    ∧ (Instr.ofBits ADR).IsPCRelOp = true
    ∧ (Instr.ofBits ADRP).IsPCRelOp = true
    ∧ (Instr.ofBits ADD).IsAddSubShiftExtOp = true
    ∧ (Instr.ofBits SUB).IsAddSubShiftExtOp = true
    ∧ (Instr.ofBits AND).IsLogicalShiftOp = true
    ∧ (Instr.ofBits BIC).IsLogicalShiftOp = true
    ∧ (Instr.ofBits ORR).IsLogicalShiftOp = true
    ∧ (Instr.ofBits ORN).IsLogicalShiftOp = true
    ∧ (Instr.ofBits EOR).IsLogicalShiftOp = true
    ∧ (Instr.ofBits EON).IsLogicalShiftOp = true
    ∧ (Instr.ofBits ANDS).IsLogicalShiftOp = true
    ∧ (Instr.ofBits BICS).IsLogicalShiftOp = true := by
  refine ⟨?_, ?_, ?_, ?_, ?_, ?_, ?_, ?_, ?_, ?_, ?_, ?_, ?_, ?_, ?_, ?_, ?_, ?_, ?_, ?_, ?_, ?_, ?_, ?_, ?_, ?_, ?_, ?_, ?_, ?_, ?_, ?_, ?_, ?_, ?_, ?_, ?_, ?_, ?_, ?_, ?_, ?_, ?_⟩
  · exact pattern32_CBZ
  · exact pattern32_CBNZ
  · exact pattern32_CompareAndBranchFixed
  · rw [pattern32_CBZ, pattern32_B]
  · rw [Instr.IsUnconditionalBranchOp_eq, Instr.word_ofBits, pattern32_CBZ]
    decide
  · rw [Instr.IsUnconditionalBranchOp_eq, Instr.word_ofBits, pattern32_CBNZ]
    decide
  · rw [Instr.IsCompareAndBranchOp_eq, Instr.word_ofBits, pattern32_CBZ]
    decide
  · rw [Instr.IsCompareAndBranchOp_eq, Instr.word_ofBits, pattern32_CBNZ]
    decide
  · rw [Instr.IsConditionalBranchOp_eq, Instr.word_ofBits, pattern32_BCOND]
    decide
  · rw [Instr.IsExceptionGenOp_eq, Instr.word_ofBits, pattern32_SVC]
    decide
  · rw [Instr.IsExceptionGenOp_eq, Instr.word_ofBits, pattern32_BRK]
    decide
  · rw [Instr.IsExceptionGenOp_eq, Instr.word_ofBits, pattern32_HLT]
    decide
  · rw [Instr.IsSystemOp_eq, Instr.word_ofBits, pattern32_HINT]
    decide
  · rw [Instr.IsTestAndBranchOp_eq, Instr.word_ofBits, pattern32_TBZ]
    decide
  · rw [Instr.IsTestAndBranchOp_eq, Instr.word_ofBits, pattern32_TBNZ]
    decide
  · rw [Instr.IsUnconditionalBranchOp_eq, Instr.word_ofBits, pattern32_B]
    decide
  · rw [Instr.IsUnconditionalBranchOp_eq, Instr.word_ofBits, pattern32_BL]
    decide
  · rw [Instr.IsUnconditionalBranchRegOp_eq, Instr.word_ofBits, pattern32_BR]
    decide
  · rw [Instr.IsUnconditionalBranchRegOp_eq, Instr.word_ofBits, pattern32_BLR]
    decide
  · rw [Instr.IsUnconditionalBranchRegOp_eq, Instr.word_ofBits, pattern32_RET]
    decide
  · rw [Instr.IsLoadStoreRegOp_eq, Instr.word_ofBits, pattern32_STR]
    decide
  · rw [Instr.IsLoadStoreRegOp_eq, Instr.word_ofBits, pattern32_LDR]
    decide
  · rw [Instr.IsAddSubImmOp_eq, Instr.word_ofBits, pattern32_ADDI]
    decide
  · rw [Instr.IsAddSubImmOp_eq, Instr.word_ofBits, pattern32_SUBI]
    decide
  · rw [Instr.IsLogicalImmOp_eq, Instr.word_ofBits, pattern32_ANDI]
    decide
  · rw [Instr.IsLogicalImmOp_eq, Instr.word_ofBits, pattern32_ORRI]
    decide
  · rw [Instr.IsLogicalImmOp_eq, Instr.word_ofBits, pattern32_EORI]
    decide
  · rw [Instr.IsLogicalImmOp_eq, Instr.word_ofBits, pattern32_ANDIS]
    decide
  · rw [Instr.IsMoveWideOp_eq, Instr.word_ofBits, pattern32_MOVN]
    decide
  · rw [Instr.IsMoveWideOp_eq, Instr.word_ofBits, pattern32_MOVZ]
    decide
  · rw [Instr.IsMoveWideOp_eq, Instr.word_ofBits, pattern32_MOVK]
    decide
  · rw [Instr.IsPCRelOp_eq, Instr.word_ofBits, pattern32_ADR]
    decide
  · rw [Instr.IsPCRelOp_eq, Instr.word_ofBits, pattern32_ADRP]
    decide
  · rw [Instr.IsAddSubShiftExtOp_eq, Instr.word_ofBits, pattern32_ADD]
    decide
  · rw [Instr.IsAddSubShiftExtOp_eq, Instr.word_ofBits, pattern32_SUB]
    decide
  · rw [Instr.IsLogicalShiftOp_eq, Instr.word_ofBits, pattern32_AND]
    decide
  · rw [Instr.IsLogicalShiftOp_eq, Instr.word_ofBits, pattern32_BIC]
    decide
  · rw [Instr.IsLogicalShiftOp_eq, Instr.word_ofBits, pattern32_ORR]
    decide
  · rw [Instr.IsLogicalShiftOp_eq, Instr.word_ofBits, pattern32_ORN]
    decide
  · rw [Instr.IsLogicalShiftOp_eq, Instr.word_ofBits, pattern32_EOR]
    decide
  · rw [Instr.IsLogicalShiftOp_eq, Instr.word_ofBits, pattern32_EON]
    decide
  · rw [Instr.IsLogicalShiftOp_eq, Instr.word_ofBits, pattern32_ANDS]
    decide
  · rw [Instr.IsLogicalShiftOp_eq, Instr.word_ofBits, pattern32_BICS]
    decide

/-! ## Operations and their families -/

/-- A mask test on more bits decides a mask test on fewer of them. -/
theorem mask_narrow (w m1 f1 m2 f2 : Nat) (h : w &&& m1 = f1) (hm : m1 &&& m2 = m2)
    (hf : f1 &&& m2 = f2) : w &&& m2 = f2 := by
  rw [← hf, ← h, Nat.and_assoc, hm]

/-- C21. Each operation-level predicate implies its parent top-level family:
`IsCompareAndBranchOp`, `IsConditionalBranchOp`, `IsExceptionGenOp`, `IsSystemOp`,
`IsTestAndBranchOp`, `IsUnconditionalBranchOp` and `IsUnconditionalBranchRegOp`
imply `IsCompareBranchOp`; `IsLoadStoreRegOp` implies `IsLoadStoreOp`;
`IsAddSubImmOp`, `IsLogicalImmOp`, `IsMoveWideOp` and `IsPCRelOp` imply
`IsDPImmediateOp`; `IsAddSubShiftExtOp` and `IsLogicalShiftOp` imply
`IsDPRegisterOp`. -/
theorem operation_implies_family (instr : Instr) :
    (instr.IsCompareAndBranchOp = true → instr.IsCompareBranchOp = true)
    ∧ (instr.IsConditionalBranchOp = true → instr.IsCompareBranchOp = true)
    ∧ (instr.IsExceptionGenOp = true → instr.IsCompareBranchOp = true)
    ∧ (instr.IsSystemOp = true → instr.IsCompareBranchOp = true)
    ∧ (instr.IsTestAndBranchOp = true → instr.IsCompareBranchOp = true)
    ∧ (instr.IsUnconditionalBranchOp = true → instr.IsCompareBranchOp = true)
    ∧ (instr.IsUnconditionalBranchRegOp = true → instr.IsCompareBranchOp = true)
    ∧ (instr.IsLoadStoreRegOp = true → instr.IsLoadStoreOp = true)
    ∧ (instr.IsAddSubImmOp = true → instr.IsDPImmediateOp = true)
    ∧ (instr.IsLogicalImmOp = true → instr.IsDPImmediateOp = true)
    ∧ (instr.IsMoveWideOp = true → instr.IsDPImmediateOp = true)
    ∧ (instr.IsPCRelOp = true → instr.IsDPImmediateOp = true)
    ∧ (instr.IsAddSubShiftExtOp = true → instr.IsDPRegisterOp = true)
    ∧ (instr.IsLogicalShiftOp = true → instr.IsDPRegisterOp = true) := by
  refine ⟨?_, ?_, ?_, ?_, ?_, ?_, ?_, ?_, ?_, ?_, ?_, ?_, ?_, ?_⟩
  · rw [instr.IsCompareAndBranchOp_eq, instr.IsCompareBranchOp_eq]
    intro h
    exact decide_eq_true (mask_narrow instr.word 0x7e000000 0x34000000 0x1c000000 0x14000000
      (of_decide_eq_true h) (by decide) (by decide))
  · rw [instr.IsConditionalBranchOp_eq, instr.IsCompareBranchOp_eq]
    intro h
    exact decide_eq_true (mask_narrow instr.word 0xfe000000 0x54000000 0x1c000000 0x14000000
      (of_decide_eq_true h) (by decide) (by decide))
  · rw [instr.IsExceptionGenOp_eq, instr.IsCompareBranchOp_eq]
    intro h
    exact decide_eq_true (mask_narrow instr.word 0xff000000 0xd4000000 0x1c000000 0x14000000
      (of_decide_eq_true h) (by decide) (by decide))
  · rw [instr.IsSystemOp_eq, instr.IsCompareBranchOp_eq]
    intro h
    exact decide_eq_true (mask_narrow instr.word 0xffc00000 0xd5000000 0x1c000000 0x14000000
      (of_decide_eq_true h) (by decide) (by decide))
  · rw [instr.IsTestAndBranchOp_eq, instr.IsCompareBranchOp_eq]
    intro h
    exact decide_eq_true (mask_narrow instr.word 0x7e000000 0x36000000 0x1c000000 0x14000000
      (of_decide_eq_true h) (by decide) (by decide))
  · rw [instr.IsUnconditionalBranchOp_eq, instr.IsCompareBranchOp_eq]
    intro h
    exact decide_eq_true (mask_narrow instr.word 0x7c000000 0x14000000 0x1c000000 0x14000000
      (of_decide_eq_true h) (by decide) (by decide))
  · rw [instr.IsUnconditionalBranchRegOp_eq, instr.IsCompareBranchOp_eq]
    intro h
    exact decide_eq_true (mask_narrow instr.word 0xfe000000 0xd6000000 0x1c000000 0x14000000
      (of_decide_eq_true h) (by decide) (by decide))
  · rw [instr.IsLoadStoreRegOp_eq, instr.IsLoadStoreOp_eq]
    intro h
    exact decide_eq_true (mask_narrow instr.word 0x3a000000 0x38000000 0x0a000000 0x08000000
      (of_decide_eq_true h) (by decide) (by decide))
  · rw [instr.IsAddSubImmOp_eq, instr.IsDPImmediateOp_eq]
    intro h
    exact decide_eq_true (mask_narrow instr.word 0x1f000000 0x11000000 0x1c000000 0x10000000
      (of_decide_eq_true h) (by decide) (by decide))
  · rw [instr.IsLogicalImmOp_eq, instr.IsDPImmediateOp_eq]
    intro h
    exact decide_eq_true (mask_narrow instr.word 0x1f800000 0x12000000 0x1c000000 0x10000000
      (of_decide_eq_true h) (by decide) (by decide))
  · rw [instr.IsMoveWideOp_eq, instr.IsDPImmediateOp_eq]
    intro h
    exact decide_eq_true (mask_narrow instr.word 0x1f800000 0x12800000 0x1c000000 0x10000000
      (of_decide_eq_true h) (by decide) (by decide))
  · rw [instr.IsPCRelOp_eq, instr.IsDPImmediateOp_eq]
    intro h
    exact decide_eq_true (mask_narrow instr.word 0x1f000000 0x10000000 0x1c000000 0x10000000
      (of_decide_eq_true h) (by decide) (by decide))
  · rw [instr.IsAddSubShiftExtOp_eq, instr.IsDPRegisterOp_eq]
    intro h
    exact decide_eq_true (mask_narrow instr.word 0x1f000000 0x0b000000 0x0e000000 0x0a000000
      (of_decide_eq_true h) (by decide) (by decide))
  · rw [instr.IsLogicalShiftOp_eq, instr.IsDPRegisterOp_eq]
    intro h
    exact decide_eq_true (mask_narrow instr.word 0x1f000000 0x0a000000 0x0e000000 0x0a000000
      (of_decide_eq_true h) (by decide) (by decide))

/-- Witness for C21: for each of the fourteen operations, the word holding its
fixed pattern. -/
theorem operation_implies_family_witness :
    ((Instr.ofBits CompareAndBranchFixed).IsCompareAndBranchOp = true ∧ (Instr.ofBits CompareAndBranchFixed).IsCompareBranchOp = true)
    ∧ ((Instr.ofBits ConditionalBranchFixed).IsConditionalBranchOp = true ∧ (Instr.ofBits ConditionalBranchFixed).IsCompareBranchOp = true)
    ∧ ((Instr.ofBits ExceptionGenFixed).IsExceptionGenOp = true ∧ (Instr.ofBits ExceptionGenFixed).IsCompareBranchOp = true)
    ∧ ((Instr.ofBits SystemFixed).IsSystemOp = true ∧ (Instr.ofBits SystemFixed).IsCompareBranchOp = true)
    ∧ ((Instr.ofBits TestAndBranchFixed).IsTestAndBranchOp = true ∧ (Instr.ofBits TestAndBranchFixed).IsCompareBranchOp = true)
    ∧ ((Instr.ofBits UnconditionalBranchFixed).IsUnconditionalBranchOp = true ∧ (Instr.ofBits UnconditionalBranchFixed).IsCompareBranchOp = true)
    ∧ ((Instr.ofBits UnconditionalBranchRegFixed).IsUnconditionalBranchRegOp = true ∧ (Instr.ofBits UnconditionalBranchRegFixed).IsCompareBranchOp = true)
    ∧ ((Instr.ofBits LoadStoreRegFixed).IsLoadStoreRegOp = true ∧ (Instr.ofBits LoadStoreRegFixed).IsLoadStoreOp = true)
    ∧ ((Instr.ofBits AddSubImmFixed).IsAddSubImmOp = true ∧ (Instr.ofBits AddSubImmFixed).IsDPImmediateOp = true)
    ∧ ((Instr.ofBits LogicalImmFixed).IsLogicalImmOp = true ∧ (Instr.ofBits LogicalImmFixed).IsDPImmediateOp = true)
    ∧ ((Instr.ofBits MoveWideFixed).IsMoveWideOp = true ∧ (Instr.ofBits MoveWideFixed).IsDPImmediateOp = true)
    ∧ ((Instr.ofBits PCRelFixed).IsPCRelOp = true ∧ (Instr.ofBits PCRelFixed).IsDPImmediateOp = true)
    ∧ ((Instr.ofBits AddSubShiftExtFixed).IsAddSubShiftExtOp = true ∧ (Instr.ofBits AddSubShiftExtFixed).IsDPRegisterOp = true)
    ∧ ((Instr.ofBits LogicalShiftFixed).IsLogicalShiftOp = true ∧ (Instr.ofBits LogicalShiftFixed).IsDPRegisterOp = true) :=
  ⟨(have h : (Instr.ofBits CompareAndBranchFixed).IsCompareAndBranchOp = true := by
      rw [Instr.IsCompareAndBranchOp_eq, Instr.word_ofBits, pattern32_CompareAndBranchFixed]
      decide
    ⟨h, (operation_implies_family (Instr.ofBits CompareAndBranchFixed)).1 h⟩),
   (have h : (Instr.ofBits ConditionalBranchFixed).IsConditionalBranchOp = true := by
      rw [Instr.IsConditionalBranchOp_eq, Instr.word_ofBits, pattern32_ConditionalBranchFixed]
      decide
    ⟨h, (operation_implies_family (Instr.ofBits ConditionalBranchFixed)).2.1 h⟩),
   (have h : (Instr.ofBits ExceptionGenFixed).IsExceptionGenOp = true := by
      rw [Instr.IsExceptionGenOp_eq, Instr.word_ofBits, pattern32_ExceptionGenFixed]
      decide
    ⟨h, (operation_implies_family (Instr.ofBits ExceptionGenFixed)).2.2.1 h⟩),
   (have h : (Instr.ofBits SystemFixed).IsSystemOp = true := by
      rw [Instr.IsSystemOp_eq, Instr.word_ofBits, pattern32_SystemFixed]
      decide
    ⟨h, (operation_implies_family (Instr.ofBits SystemFixed)).2.2.2.1 h⟩),
   (have h : (Instr.ofBits TestAndBranchFixed).IsTestAndBranchOp = true := by
      rw [Instr.IsTestAndBranchOp_eq, Instr.word_ofBits, pattern32_TestAndBranchFixed]
      decide
    ⟨h, (operation_implies_family (Instr.ofBits TestAndBranchFixed)).2.2.2.2.1 h⟩),
   (have h : (Instr.ofBits UnconditionalBranchFixed).IsUnconditionalBranchOp = true := by
      rw [Instr.IsUnconditionalBranchOp_eq, Instr.word_ofBits, pattern32_UnconditionalBranchFixed]
      decide
    ⟨h, (operation_implies_family (Instr.ofBits UnconditionalBranchFixed)).2.2.2.2.2.1 h⟩),
   (have h : (Instr.ofBits UnconditionalBranchRegFixed).IsUnconditionalBranchRegOp = true := by
      rw [Instr.IsUnconditionalBranchRegOp_eq, Instr.word_ofBits, pattern32_UnconditionalBranchRegFixed]
      decide
    ⟨h, (operation_implies_family (Instr.ofBits UnconditionalBranchRegFixed)).2.2.2.2.2.2.1 h⟩),
   (have h : (Instr.ofBits LoadStoreRegFixed).IsLoadStoreRegOp = true := by
      rw [Instr.IsLoadStoreRegOp_eq, Instr.word_ofBits, pattern32_LoadStoreRegFixed]
      decide
    ⟨h, (operation_implies_family (Instr.ofBits LoadStoreRegFixed)).2.2.2.2.2.2.2.1 h⟩),
   (have h : (Instr.ofBits AddSubImmFixed).IsAddSubImmOp = true := by
      rw [Instr.IsAddSubImmOp_eq, Instr.word_ofBits, pattern32_AddSubImmFixed]
      decide
    ⟨h, (operation_implies_family (Instr.ofBits AddSubImmFixed)).2.2.2.2.2.2.2.2.1 h⟩),
   (have h : (Instr.ofBits LogicalImmFixed).IsLogicalImmOp = true := by
      rw [Instr.IsLogicalImmOp_eq, Instr.word_ofBits, pattern32_LogicalImmFixed]
      decide
    ⟨h, (operation_implies_family (Instr.ofBits LogicalImmFixed)).2.2.2.2.2.2.2.2.2.1 h⟩),
   (have h : (Instr.ofBits MoveWideFixed).IsMoveWideOp = true := by
      rw [Instr.IsMoveWideOp_eq, Instr.word_ofBits, pattern32_MoveWideFixed]
      decide
    ⟨h, (operation_implies_family (Instr.ofBits MoveWideFixed)).2.2.2.2.2.2.2.2.2.2.1 h⟩),
   (have h : (Instr.ofBits PCRelFixed).IsPCRelOp = true := by
      rw [Instr.IsPCRelOp_eq, Instr.word_ofBits, pattern32_PCRelFixed]
      decide
    ⟨h, (operation_implies_family (Instr.ofBits PCRelFixed)).2.2.2.2.2.2.2.2.2.2.2.1 h⟩),
   (have h : (Instr.ofBits AddSubShiftExtFixed).IsAddSubShiftExtOp = true := by
      rw [Instr.IsAddSubShiftExtOp_eq, Instr.word_ofBits, pattern32_AddSubShiftExtFixed]
      decide
    ⟨h, (operation_implies_family (Instr.ofBits AddSubShiftExtFixed)).2.2.2.2.2.2.2.2.2.2.2.2.1 h⟩),
   (have h : (Instr.ofBits LogicalShiftFixed).IsLogicalShiftOp = true := by
      rw [Instr.IsLogicalShiftOp_eq, Instr.word_ofBits, pattern32_LogicalShiftFixed]
      decide
    ⟨h, (operation_implies_family (Instr.ofBits LogicalShiftFixed)).2.2.2.2.2.2.2.2.2.2.2.2.2 h⟩)⟩

/-! ## The range of the decoded value -/

set_option maxRecDepth 100000 in
set_option synthInstance.maxSize 1000 in
theorem immLogical_bound_core : ∀ a : Nat, a < 2 → ∀ b : Nat, b < 2 → ∀ s : Nat, s < 64 →
    ∀ r : Nat, r < 64 →
    ∃ v ∈ ImmLogicalOfFields (a : Int) (b : Int) (s : Int) (r : Int),
      v < 0x10000000000000000 ∧ (a = 0 → b = 0 → v < 0x100000000) := by
  decide!

theorem Instr.natCast_field_eq_zero (n : Nat) (h : (n : Int) = 0) : n = 0 := by
  exact_mod_cast h

theorem Instr.natCast_field_eq_one (n : Nat) (h : (n : Int) = 1) : n = 1 := by
  exact_mod_cast h

/-- C22, as stated, fails when SF = 0 and N = 1: the word 0x12410C00 (SF = 0,
N = 1, immR = 1, immS = 3) decodes to 0x8000000000000007, which is not below
2^32, the width selected by its SF bit. -/
theorem ImmLogical_SF0_exceeds_32_counterexample :
    (Instr.ofWord 0x12410C00).SFField = 0
    ∧ regSizeOf (Instr.ofWord 0x12410C00) = 32
    ∧ (Instr.ofWord 0x12410C00).NField = 1
    ∧ (Instr.ofWord 0x12410C00).ImmLogical = some 0x8000000000000007
    ∧ ¬ (0x8000000000000007 < 2 ^ regSizeOf (Instr.ofWord 0x12410C00)) := by
  decide

/-- C22, amended. For every instruction word `ImmLogical` returns a value below
2^64, and for a word with SF = 0 and N = 0 the value is below 2^32. -/
theorem ImmLogical_fits (instr : Instr) :
    ∃ v, instr.ImmLogical = some v ∧ v < 2 ^ 64
      ∧ (instr.SFField = 0 → instr.NField = 0 → v < 2 ^ 32) := by
  obtain ⟨a, b, s, r, ha, hb, hs, hr, eSF, eN, eS, eR⟩ := instr.logical_fields
  obtain ⟨v, hv, h64, h32⟩ := immLogical_bound_core a ha b hb s hs r hr
  refine ⟨v, ?_, h64, ?_⟩
  · unfold Instr.ImmLogical
    rw [eSF, eN, eS, eR]
    exact hv
  · intro h0 hN
    rw [eSF] at h0
    rw [eN] at hN
    exact h32 (Instr.natCast_field_eq_zero a h0) (Instr.natCast_field_eq_zero b hN)

/-- Witness for C22 (amended): the word 0x12010C00 (SF = 0, N = 0, immR = 1,
immS = 3) decodes to 0x80000007, below 2^32. -/
theorem ImmLogical_fits_witness :
    (Instr.ofWord 0x12010C00).SFField = 0
    ∧ (Instr.ofWord 0x12010C00).NField = 0
    ∧ (Instr.ofWord 0x12010C00).ImmLogical = some 0x80000007
    ∧ ∃ v, (Instr.ofWord 0x12010C00).ImmLogical = some v ∧ v < 2 ^ 64
        ∧ ((Instr.ofWord 0x12010C00).SFField = 0 → (Instr.ofWord 0x12010C00).NField = 0
            → v < 2 ^ 32) :=
  ⟨by decide, by decide, by decide, ImmLogical_fits (Instr.ofWord 0x12010C00)⟩

/-! ## The all-ones value -/

set_option maxRecDepth 100000 in
set_option synthInstance.maxSize 10000 in
theorem immLogical_allOnes_core : ∀ a : Nat, a < 2 → ∀ b : Nat, b < 2 → ∀ s : Nat, s < 64 →
    ∀ r : Nat, r < 64 →
    ∀ v ∈ ImmLogicalOfFields (a : Int) (b : Int) (s : Int) (r : Int),
      v ≠ 0xFFFFFFFFFFFFFFFF
      ∧ (b = 0 → v ≠ 0xFFFFFFFF)
      ∧ (b = 1 → (v = 0xFFFFFFFF ↔ s = 31 ∧ r = 0)) := by
  decide!

/-- C23, as stated, fails when SF = 0 and N = 1: the word 0x12407C00 (SF = 0,
N = 1, immR = 0, immS = 31) decodes to 0x00000000FFFFFFFF, the all-ones value of
the 32-bit width selected by its SF bit. -/
theorem ImmLogical_SF0_all_ones_counterexample :
    (Instr.ofWord 0x12407C00).SFField = 0
    ∧ regSizeOf (Instr.ofWord 0x12407C00) = 32
    ∧ (Instr.ofWord 0x12407C00).NField = 1
    ∧ (Instr.ofWord 0x12407C00).ImmSField = 31
    ∧ (Instr.ofWord 0x12407C00).ImmRField = 0
    ∧ (Instr.ofWord 0x12407C00).ImmLogical = some 0x00000000FFFFFFFF
    ∧ (Instr.ofWord 0x12407C00).ImmLogical
        = some (2 ^ regSizeOf (Instr.ofWord 0x12407C00) - 1) := by
  decide

/-- C23, amended. `ImmLogical` never returns 0xFFFFFFFFFFFFFFFF; for a word with
N = 0 it never returns 0x00000000FFFFFFFF either, so for SF = 1 or N = 0 the
all-ones value of the register width is never returned; for a word with N = 1 it
returns 0x00000000FFFFFFFF exactly when immS = 31 and immR = 0, whatever the SF
bit. -/
theorem ImmLogical_all_ones (instr : Instr) :
    instr.ImmLogical ≠ some 0xFFFFFFFFFFFFFFFF
    ∧ (instr.NField = 0 → instr.ImmLogical ≠ some 0x00000000FFFFFFFF)
    ∧ (instr.SFField = 1 ∨ instr.NField = 0 →
        instr.ImmLogical ≠ some (2 ^ regSizeOf instr - 1))
    ∧ (instr.NField = 1 →
        (instr.ImmLogical = some 0x00000000FFFFFFFF
          ↔ instr.ImmSField = 31 ∧ instr.ImmRField = 0)) := by
  obtain ⟨a, b, s, r, ha, hb, hs, hr, eSF, eN, eS, eR⟩ := instr.logical_fields
  have core := immLogical_allOnes_core a ha b hb s hs r hr
  have e : instr.ImmLogical = ImmLogicalOfFields (a : Int) (b : Int) (s : Int) (r : Int) := by
    unfold Instr.ImmLogical
    rw [eSF, eN, eS, eR]
  have h64 : instr.ImmLogical ≠ some 0xFFFFFFFFFFFFFFFF := by
    intro h
    exact (core _ (e ▸ h)).1 rfl
  have h32 : instr.NField = 0 → instr.ImmLogical ≠ some 0x00000000FFFFFFFF := by
    intro hN h
    rw [eN] at hN
    exact (core _ (e ▸ h)).2.1 (Instr.natCast_field_eq_zero b hN) rfl
  refine ⟨h64, h32, ?_, ?_⟩
  · intro hor
    by_cases hsf : instr.SFField = 1
    · have : regSizeOf instr = 64 := by unfold regSizeOf; rw [if_pos hsf]
      rw [this]
      exact h64
    · have hN : instr.NField = 0 := hor.resolve_left hsf
      have : regSizeOf instr = 32 := by unfold regSizeOf; rw [if_neg hsf]
      rw [this]
      exact h32 hN
  · intro hN
    rw [eN] at hN
    have hb1 : b = 1 := Instr.natCast_field_eq_one b hN
    rw [eS, eR]
    constructor
    · intro h
      obtain ⟨h1, h2⟩ := ((core _ (e ▸ h)).2.2 hb1).1 rfl
      subst h1 h2
      exact ⟨rfl, rfl⟩
    · intro h
      obtain ⟨h1, h2⟩ := h
      have es : s = 31 := by exact_mod_cast h1
      have er : r = 0 := by exact_mod_cast h2
      obtain ⟨v, hv, _, _⟩ := immLogical_bound_core a ha b hb s hs r hr
      have hv2 : ImmLogicalOfFields (a : Int) (b : Int) (s : Int) (r : Int) = some v := hv
      rw [e, hv2]
      exact congrArg some (((core v hv).2.2 hb1).2 ⟨es, er⟩)

/-- Witness for C23 (amended): 0x12010C00 (SF = 0, N = 0) decodes to 0x80000007,
not to an all-ones value; 0x12407C00 (SF = 0, N = 1, immS = 31, immR = 0) decodes
to 0x00000000FFFFFFFF. -/
theorem ImmLogical_all_ones_witness :
    ((Instr.ofWord 0x12010C00).NField = 0
      ∧ (Instr.ofWord 0x12010C00).ImmLogical ≠ some 0x00000000FFFFFFFF
      ∧ (Instr.ofWord 0x12010C00).ImmLogical
          ≠ some (2 ^ regSizeOf (Instr.ofWord 0x12010C00) - 1))
    ∧ ((Instr.ofWord 0x12407C00).NField = 1
      ∧ (Instr.ofWord 0x12407C00).ImmSField = 31
      ∧ (Instr.ofWord 0x12407C00).ImmRField = 0
      ∧ (Instr.ofWord 0x12407C00).ImmLogical = some 0x00000000FFFFFFFF) :=
  ⟨⟨by decide,
      (ImmLogical_all_ones (Instr.ofWord 0x12010C00)).2.1 (by decide),
      (ImmLogical_all_ones (Instr.ofWord 0x12010C00)).2.2.1 (Or.inr (by decide))⟩,
   ⟨by decide, by decide, by decide,
      ((ImmLogical_all_ones (Instr.ofWord 0x12407C00)).2.2.2 (by decide)).2
        ⟨by decide, by decide⟩⟩⟩

/-! ## Faults of the decoder -/

set_option maxRecDepth 100000 in
set_option synthInstance.maxSize 1000 in
theorem immLogicalChecked_core : ∀ a : Nat, a < 2 → ∀ b : Nat, b < 2 → ∀ s : Nat, s < 64 →
    ∀ r : Nat, r < 64 →
    ImmLogicalOfFieldsChecked (a : Int) (b : Int) (s : Int) (r : Int)
      = if b = 1 ∧ s ≠ 63 ∧ r = 0 then Outcome.shiftOutOfRange
        else Outcome.ofOption (ImmLogicalOfFields (a : Int) (b : Int) (s : Int) (r : Int)) := by
  decide!

theorem activeWidth_found : ∀ s : Nat, s < 62 →
    ∃ w ∈ [32, 16, 8, 4, 2], activeWidth s = some w ∧ s &&& w = 0 := by
  decide

/-- The outcome of the checked decoder on a word: an out-of-range shift when
N = 1, immS ≠ 63 and immR = 0, and the value of the unchecked decoder otherwise. -/
theorem Instr.ImmLogicalChecked_eq (instr : Instr) :
    ∃ v, instr.ImmLogical = some v
      ∧ instr.ImmLogicalChecked
          = if instr.NField = 1 ∧ instr.ImmSField ≠ 0x3F ∧ instr.ImmRField = 0
            then Outcome.shiftOutOfRange else Outcome.ok v := by
  obtain ⟨a, b, s, r, ha, hb, hs, hr, eSF, eN, eS, eR⟩ := instr.logical_fields
  obtain ⟨v, hv, _, _⟩ := immLogical_bound_core a ha b hb s hs r hr
  have hv2 : ImmLogicalOfFields (a : Int) (b : Int) (s : Int) (r : Int) = some v := hv
  have core := immLogicalChecked_core a ha b hb s hs r hr
  rw [hv2] at core
  refine ⟨v, ?_, ?_⟩
  · unfold Instr.ImmLogical
    rw [eSF, eN, eS, eR]
    exact hv2
  · unfold Instr.ImmLogicalChecked
    rw [eSF, eN, eS, eR, core]
    have c1 : ((b : Int) = 1) ↔ b = 1 := by
      constructor
      · intro h; exact_mod_cast h
      · intro h; exact_mod_cast h
    have c2 : ((s : Int) ≠ 0x3F) ↔ s ≠ 63 := by
      constructor
      · intro h h2; apply h; exact_mod_cast h2
      · intro h h2; apply h; exact_mod_cast h2
    have c3 : ((r : Int) = 0) ↔ r = 0 := by
      constructor
      · intro h; exact_mod_cast h
      · intro h; exact_mod_cast h
    by_cases hc : b = 1 ∧ s ≠ 63 ∧ r = 0
    · rw [if_pos hc, if_pos ⟨c1.2 hc.1, c2.2 hc.2.1, c3.2 hc.2.2⟩]
    · rw [if_neg hc, if_neg (fun h => hc ⟨c1.1 h.1, c2.1 h.2.1, c3.1 h.2.2⟩)]
      rfl

/-- C24. On every instruction word `ImmLogical` returns a value from inside one
of its two branches: the run never ends at the trailing `UNREACHABLE()`, never
fails an `ASSERT` of `RotateRight` or `RepeatBitsAcrossReg`, and the loops need no
more iterations than the model grants; for immS < 62 the width scan 32, 16, 8, 4,
2 finds a width whose bit in immS is zero. -/
theorem ImmLogical_returns_in_branch (instr : Instr) :
    (∃ v, instr.ImmLogical = some v)
    ∧ instr.ImmLogicalChecked ≠ Outcome.unreachable
    ∧ instr.ImmLogicalChecked ≠ Outcome.assertFailed
    ∧ instr.ImmLogicalChecked ≠ Outcome.outOfFuel
    ∧ (∀ s : Nat, instr.ImmSField = (s : Int) → s < 62 →
        ∃ w ∈ [32, 16, 8, 4, 2], activeWidth s = some w ∧ s &&& w = 0) := by
  obtain ⟨v, hv, hc⟩ := instr.ImmLogicalChecked_eq
  refine ⟨⟨v, hv⟩, ?_, ?_, ?_, ?_⟩
  · rw [hc]; split_ifs <;> intro h <;> cases h
  · rw [hc]; split_ifs <;> intro h <;> cases h
  · rw [hc]; split_ifs <;> intro h <;> cases h
  · intro s _ hs
    exact activeWidth_found s hs

/-- Witness for C24: the word 0x12010C00 (SF = 0, N = 0, immR = 1, immS = 3)
returns 0x80000007 from the loop, at width 32. -/
theorem ImmLogical_returns_in_branch_witness :
    (Instr.ofWord 0x12010C00).ImmSField = ((3 : Nat) : Int) ∧ 3 < 62
    ∧ (Instr.ofWord 0x12010C00).ImmLogical = some 0x80000007
    ∧ (Instr.ofWord 0x12010C00).ImmLogicalChecked = Outcome.ok 0x80000007
    ∧ (Instr.ofWord 0x12010C00).ImmLogicalChecked ≠ Outcome.unreachable
    ∧ ∃ w ∈ [32, 16, 8, 4, 2], activeWidth 3 = some w ∧ 3 &&& w = 0 :=
  ⟨by decide, by decide, by decide, by decide,
    (ImmLogical_returns_in_branch (Instr.ofWord 0x12010C00)).2.1,
    (ImmLogical_returns_in_branch (Instr.ofWord 0x12010C00)).2.2.2.2 3 (by decide) (by decide)⟩

/-- C25 fails in the code. The word 0x92401C00 (`and x0, x0, #0xff`: SF = 1,
N = 1, immR = 0, immS = 7) makes `ImmLogical` call `RotateRight(0xFF, 0, 64)`,
whose left shift `(value & 0) << (64 - 0)` has the count 64; the same holds for
the word 0x12401C00 with SF = 0. A word performs a shift with a count outside
0..63 exactly when N = 1, immS ≠ 0x3F and immR = 0. With the shifted operand 0
taken to give 0, the value returned is 0xFF. -/
theorem ImmLogical_shift_by_64 :
    (logicalImmWord 1 1 0 7).word = 0x92401C00
    ∧ (logicalImmWord 1 1 0 7).ImmLogicalChecked = Outcome.shiftOutOfRange
    ∧ (logicalImmWord 0 1 0 7).word = 0x12401C00
    ∧ (logicalImmWord 0 1 0 7).ImmLogicalChecked = Outcome.shiftOutOfRange
    ∧ RotateRightChecked 0xFF 0 64 = Outcome.shiftOutOfRange
    ∧ shl64Checked 1 0 = Outcome.ok 1
    ∧ shl64Checked (0xFF &&& sub64 1 1) (64 - 0) = Outcome.shiftOutOfRange
    ∧ (logicalImmWord 1 1 0 7).ImmLogical = some 0xFF
    ∧ (∀ instr : Instr, instr.ImmLogicalChecked = Outcome.shiftOutOfRange
        ↔ instr.NField = 1 ∧ instr.ImmSField ≠ 0x3F ∧ instr.ImmRField = 0) := by
  have f1 := logicalImmWord_fields 1 1 0 7 (by decide) (by decide) (by decide) (by decide)
  have f0 := logicalImmWord_fields 0 1 0 7 (by decide) (by decide) (by decide) (by decide)
  refine ⟨by decide, ?_, by decide, ?_, by decide, by decide, by decide, ?_, ?_⟩
  · unfold Instr.ImmLogicalChecked
    rw [f1.1, f1.2.1, f1.2.2.1, f1.2.2.2]
    decide
  · unfold Instr.ImmLogicalChecked
    rw [f0.1, f0.2.1, f0.2.2.1, f0.2.2.2]
    decide
  · unfold Instr.ImmLogical
    rw [f1.1, f1.2.1, f1.2.2.1, f1.2.2.2]
    decide
  · intro instr
    obtain ⟨v, _, hc⟩ := instr.ImmLogicalChecked_eq
    rw [hc]
    constructor
    · intro h
      by_contra hn
      rw [if_neg hn] at h
      cases h
    · intro h
      rw [if_pos h]

/-! ## `RotateRight` as a rotation -/

theorem sub64_shl64_one (r : Nat) (hr : r < 64) : sub64 (shl64 1 r) 1 = 2 ^ r - 1 := by
  have h1 : (2 : Nat) ^ r < 2 ^ 64 := Nat.pow_lt_pow_right (by decide) hr
  have h2 : 0 < (2 : Nat) ^ r := by positivity
  have e : shl64 1 r = 2 ^ r := by
    unfold shl64
    rw [Nat.shiftLeft_eq, Nat.one_mul]
    exact Nat.mod_eq_of_lt h1
  rw [e]
  unfold sub64
  norm_num at h1 ⊢
  omega

theorem and_63_of_lt (r : Nat) (hr : r < 64) : r &&& 63 = r := by
  have h := Nat.and_pow_two_sub_one_eq_mod r 6
  have e : (2 : Nat) ^ 6 - 1 = 63 := by decide
  rw [e] at h
  rw [h]
  exact Nat.mod_eq_of_lt hr

/-- The value computed by `RotateRight` on a rotation count below the width is
the rotation of `value` within `width` bits. -/
theorem RotateRight_eq_rotrBits (value rotate width : Nat) (hw : width ≤ 64)
    (hr : rotate < width) (hv : value < 2 ^ width) :
    RotateRight value rotate width = some (rotrBits width value rotate) := by
  have hr64 : rotate < 64 := by omega
  unfold RotateRight
  rw [if_pos hw]
  simp only [and_63_of_lt rotate hr64]
  rw [if_pos (by omega), sub64_shl64_one rotate hr64, Nat.and_pow_two_sub_one_eq_mod,
    rotrBits_eq width value rotate hv hr, Nat.shiftRight_eq_div_pow]
  have hm : value % 2 ^ rotate < 2 ^ rotate := Nat.mod_lt _ (by positivity)
  have hsplit : (2 : Nat) ^ width = 2 ^ (width - rotate) * 2 ^ rotate := by
    rw [← Nat.pow_add]
    congr 1
    omega
  have hd : value / 2 ^ rotate < 2 ^ (width - rotate) := by
    rw [Nat.div_lt_iff_lt_mul (by positivity), ← hsplit]
    exact hv
  have hhi : value % 2 ^ rotate * 2 ^ (width - rotate) < 2 ^ 64 := by
    have h1 : value % 2 ^ rotate * 2 ^ (width - rotate) < 2 ^ rotate * 2 ^ (width - rotate) :=
      Nat.mul_lt_mul_of_pos_right hm (by positivity)
    have h2 : (2 : Nat) ^ rotate * 2 ^ (width - rotate) = 2 ^ width := by
      rw [hsplit, Nat.mul_comm]
    have h3 : (2 : Nat) ^ width ≤ 2 ^ 64 := Nat.pow_le_pow_right (by decide) hw
    omega
  have e : shl64 (value % 2 ^ rotate) (width - rotate)
      = 2 ^ (width - rotate) * (value % 2 ^ rotate) := by
    unfold shl64
    rw [Nat.shiftLeft_eq]
    have h64 : (0x10000000000000000 : Nat) = 2 ^ 64 := by norm_num
    rw [h64, Nat.mod_eq_of_lt hhi, Nat.mul_comm]
  rw [e, ← Nat.mul_add_lt_is_or hd, Nat.mul_comm, Nat.add_comm]

/-- The checked `RotateRight` on a rotation count below the width: the left shift
has count `width - rotate`, which is 64 exactly when `rotate = 0` and
`width = 64`. -/
theorem RotateRightChecked_eq (value rotate width : Nat) (hw : width ≤ 64)
    (hr : rotate < width) :
    RotateRightChecked value rotate width
      = if rotate = 0 ∧ width = 64 then Outcome.shiftOutOfRange
        else Outcome.ofOption (RotateRight value rotate width) := by
  have hr64 : rotate < 64 := by omega
  have hR : RotateRight value rotate width
      = some (shl64 (value &&& sub64 (shl64 1 rotate) 1) (width - rotate)
          ||| (value >>> rotate)) := by
    unfold RotateRight
    rw [if_pos hw]
    simp only [and_63_of_lt rotate hr64]
    rw [if_pos (show rotate ≤ width by omega)]
  have h1 : shl64Checked 1 (rotate : Int) = Outcome.ok (shl64 1 rotate) := by
    unfold shl64Checked
    rw [if_pos (show 0 ≤ (rotate : Int) ∧ (rotate : Int) < 64 by omega)]
    rfl
  have h3 : shr64Checked value (rotate : Int) = Outcome.ok (value >>> rotate) := by
    unfold shr64Checked
    rw [if_pos (show 0 ≤ (rotate : Int) ∧ (rotate : Int) < 64 by omega)]
    rfl
  rw [hR]
  unfold RotateRightChecked
  rw [if_pos hw]
  simp only [and_63_of_lt rotate hr64]
  rw [h1]
  by_cases hc : rotate = 0 ∧ width = 64
  · rw [if_pos hc]
    have h2 : shl64Checked (value &&& sub64 (shl64 1 rotate) 1) ((width : Int) - (rotate : Int))
        = Outcome.shiftOutOfRange := by
      unfold shl64Checked
      rw [if_neg (show ¬ (0 ≤ (width : Int) - (rotate : Int)
        ∧ (width : Int) - (rotate : Int) < 64) by omega)]
    simp only [Outcome.bind, h2]
  · rw [if_neg hc]
    have h2 : shl64Checked (value &&& sub64 (shl64 1 rotate) 1) ((width : Int) - (rotate : Int))
        = Outcome.ok (shl64 (value &&& sub64 (shl64 1 rotate) 1) (width - rotate)) := by
      unfold shl64Checked
      rw [if_pos (show 0 ≤ (width : Int) - (rotate : Int)
        ∧ (width : Int) - (rotate : Int) < 64 by omega)]
      congr 2
      omega
    simp only [Outcome.bind, h2, h3, Outcome.ofOption]

theorem mod_add_sub_mod (a r w : Nat) (ha : a < w) (hr : r < w) :
    ((a + r) % w + (w - r)) % w = a := by
  rw [Nat.mod_add_mod]
  have e : a + r + (w - r) = a + w := by omega
  rw [e, Nat.add_mod_right]
  exact Nat.mod_eq_of_lt ha

theorem mod_sub_add_mod (b r w : Nat) (hb : b < w) (hr : r < w) :
    ((b + (w - r)) % w + r) % w = b := by
  rw [Nat.mod_add_mod]
  have e : b + (w - r) + r = b + w := by omega
  rw [e, Nat.add_mod_right]
  exact Nat.mod_eq_of_lt hb

/-- Rotation keeps the number of set bits. -/
theorem popCount_rotrBits (w x r : Nat) (hr : r < w) :
    popCount w (rotrBits w x r) = popCount w x := by
  have hw : 0 < w := by omega
  unfold popCount
  apply Finset.card_nbij' (fun i => (i + r) % w) (fun j => (j + (w - r)) % w)
  · intro a ha
    simp only [Finset.mem_filter, Finset.mem_range] at ha ⊢
    obtain ⟨h1, h2⟩ := ha
    rw [testBit_rotrBits] at h2
    simp only [Bool.and_eq_true, decide_eq_true_eq] at h2
    exact ⟨Nat.mod_lt _ hw, h2.2⟩
  · intro b hb
    simp only [Finset.mem_filter, Finset.mem_range] at hb ⊢
    obtain ⟨h1, h2⟩ := hb
    refine ⟨Nat.mod_lt _ hw, ?_⟩
    rw [testBit_rotrBits, mod_sub_add_mod b r w h1 hr, h2]
    simp [Nat.mod_lt _ hw]
  · intro a ha
    simp only [Finset.mem_filter, Finset.mem_range] at ha
    exact mod_add_sub_mod a r w ha.1 hr
  · intro b hb
    simp only [Finset.mem_filter, Finset.mem_range] at hb
    exact mod_sub_add_mod b r w hb.1 hr

theorem rotrBits_zero (w x : Nat) (hw : 0 < w) (hx : x < 2 ^ w) : rotrBits w x 0 = x := by
  rw [rotrBits_eq w x 0 hx hw]
  simp [Nat.mod_one]

/-- C26. `RotateRight` is a rotation within its width: for a width among 2, 4, 8,
16, 32, 64, a value below 2^width and a rotation count below the width, it returns
a value below 2^width whose bit `i` is bit `(i + rotate) mod width` of `value` for
every `i < width`; the number of set bits is kept, and a rotation by 0 returns
`value`. The shift counts of the computation are in range except for `rotate = 0`
at width 64, where the left shift of the operand 0 has count 64. -/
theorem RotateRight_true_rotation (value rotate width : Nat)
    (hw : width ∈ [2, 4, 8, 16, 32, 64]) (hv : value < 2 ^ width) (hr : rotate < width) :
    ∃ v, RotateRight value rotate width = some v
      ∧ v < 2 ^ width
      ∧ (∀ i, i < width → v.testBit i = value.testBit ((i + rotate) % width))
      ∧ popCount width v = popCount width value
      ∧ RotateRight value 0 width = some value
      ∧ RotateRightChecked value rotate width
          = if rotate = 0 ∧ width = 64 then Outcome.shiftOutOfRange else Outcome.ok v := by
  have hw64 : width ≤ 64 := by
    simp only [List.mem_cons, List.mem_singleton, List.not_mem_nil, or_false] at hw
    omega
  have hpos : 0 < width := by omega
  have e := RotateRight_eq_rotrBits value rotate width hw64 hr hv
  refine ⟨rotrBits width value rotate, e, rotrBits_lt _ _ _, ?_,
    popCount_rotrBits width value rotate hr, ?_, ?_⟩
  · intro i hi
    rw [testBit_rotrBits]
    simp [hi]
  · rw [RotateRight_eq_rotrBits value 0 width hw64 hpos hv, rotrBits_zero width value hpos hv]
  · rw [RotateRightChecked_eq value rotate width hw64 hr, e]
    rfl

/-- Witness for C26: 0x81 rotated right by 1 within 8 bits is 0xC0. -/
theorem RotateRight_true_rotation_witness :
    8 ∈ [2, 4, 8, 16, 32, 64] ∧ 0x81 < 2 ^ 8 ∧ 1 < 8
    ∧ RotateRight 0x81 1 8 = some 0xC0
    ∧ ∃ v, RotateRight 0x81 1 8 = some v
      ∧ v < 2 ^ 8
      ∧ (∀ i, i < 8 → v.testBit i = Nat.testBit 0x81 ((i + 1) % 8))
      ∧ popCount 8 v = popCount 8 0x81
      ∧ RotateRight 0x81 0 8 = some 0x81
      ∧ RotateRightChecked 0x81 1 8
          = if 1 = 0 ∧ 8 = 64 then Outcome.shiftOutOfRange else Outcome.ok v :=
  ⟨by decide, by decide, by decide, by decide,
    RotateRight_true_rotation 0x81 1 8 (by decide) (by decide) (by decide)⟩

/-! ## The role aliases of the registers -/

/-- C27 fails in the code. The aliases in the enum agree with its annotations
(IP0 = R25, IP1 = R26, FP = R29, LR = R30), but the constants declared after it do
not: `PP` is R26, not the R27 annotated PP, and `CTX` is R27, not the R28
annotated CTX; so PP is the same register as TMP1 and IP1. PP and CTX are
distinct, and both differ from TMP0; CTX differs from TMP1. -/
theorem PP_CTX_disagree_with_annotations :
    IP0 = R25 ∧ IP1 = R26 ∧ FP = R29 ∧ LR = R30
    ∧ TMP = R25 ∧ TMP0 = R25 ∧ TMP1 = R26
    ∧ PP = R26 ∧ PP ≠ R27 ∧ CTX = R27 ∧ CTX ≠ R28
    ∧ PP = TMP1 ∧ PP = IP1
    ∧ PP ≠ CTX ∧ PP ≠ TMP0 ∧ CTX ≠ TMP0 ∧ CTX ≠ TMP1 := by
  decide

end dart
